import Mathlib

/-! Board game and book lending manager: a shallow embedding of `server/app.js`.

The Express handlers of `server/app.js` and the Mongoose schemas of
`server/models/*.js` are embedded as pure functions over an explicit store.

* The store is the three record collections (users, board games and books, loans),
  each a list in insertion order.
* A request body is a JSON object whose fields are strings; a field that is absent
  is `none`.  JavaScript falsiness of such a field (`!x`) is `falsy`.
* Everything the handlers obtain from libraries is a parameter (`Env`): ObjectId and
  date casting, `bcrypt.hash` / `bcrypt.compare`, `jwt.sign` / `jwt.verify`,
  `new RegExp(_, 'i')`.  Values read from the outside during one request (the clock,
  the `_id` the driver generates, the bcrypt salt) are in `Ambient`.
* Schema options are part of the embedding: `trim` (a setter, applied to documents,
  to updates and to query filters), `required`, `default`, `unique` and the `_id`
  index (a duplicate makes the insert throw, status 500), `timestamps`.
* A path of a Mongoose document that was never set reads as `undefined`, not as
  `null`; `Nullable` keeps the two apart, because `app.js` compares with `!== null`.
* The route table of `app.js` is `route`: a request whose method and path match no
  registered route is answered by the 404 page of Express (`serve`).
* The borrow form of the client (`client/src/components/LoanItemForm.jsx`) is embedded
  as the function from the state of its inputs to the request body it posts.
-/

namespace Lending

/-! ## JavaScript values and string helpers -/

/-- Identifier of a stored document (a MongoDB ObjectId, seen as a number). -/
abbrev ObjectId := Nat

/-- Instant in milliseconds since the epoch (a JavaScript `Date`). -/
abbrev Date := Nat

/-- Value of a document path that may be unset (`undefined`), `null`, or a value. -/
inductive Nullable (α : Type) where
  | undefined : Nullable α
  | null : Nullable α
  | value (a : α) : Nullable α
  deriving DecidableEq, Repr

/-- JavaScript `x !== null`: true for `undefined` and for every value. -/
def Nullable.strictNeNull {α : Type} : Nullable α → Bool
  | .null => false
  | _ => true

/-- MongoDB filter `{path: null}`: matches a document where the path is `null` or missing. -/
def Nullable.matchesNull {α : Type} : Nullable α → Bool
  | .value _ => false
  | _ => true

/-- JavaScript `!x` for a body field that is a string or absent: `undefined` and `''`. -/
def falsy : Option String → Bool
  | none => true
  | some s => decide (s = "")

/-- JavaScript `s.length`: the number of UTF-16 code units. -/
def jsLength (s : String) : Nat :=
  s.data.foldl (fun n c => n + (if c.toNat < 65536 then 1 else 2)) 0

/-- White space and line terminators removed by `String.prototype.trim`. -/
def isJsWhitespace (c : Char) : Bool :=
  let n := c.toNat
  n == 9 || n == 10 || n == 11 || n == 12 || n == 13 || n == 32 || n == 160 ||
  n == 5760 || (8192 ≤ n && n ≤ 8202) || n == 8232 || n == 8233 || n == 8239 ||
  n == 8287 || n == 12288 || n == 65279

/-- Characters left after dropping leading white space. -/
def trimStart (cs : List Char) : List Char := cs.dropWhile isJsWhitespace

/-- Characters left after dropping trailing white space. -/
def trimEnd (cs : List Char) : List Char := (cs.reverse.dropWhile isJsWhitespace).reverse

/-- JavaScript `s.trim()`, the setter behind the schema option `trim: true`. -/
def jsTrim (s : String) : String := ⟨trimEnd (trimStart s.data)⟩

/-- JavaScript `s.split(sep)` for a one-character separator, on character lists. -/
def splitChars (sep : Char) : List Char → List (List Char)
  | [] => [[]]
  | c :: cs =>
    if c = sep then [] :: splitChars sep cs
    else match splitChars sep cs with
      | [] => [[c]]
      | seg :: rest => (c :: seg) :: rest

/-- JavaScript `s.split(' ')[1]`: the second space-separated segment, if any. -/
def secondSegment (s : String) : Option String :=
  match splitChars ' ' s.data with
  | _ :: seg :: _ => some ⟨seg⟩
  | _ => none

/-! ## Data model (`server/models/*.js`) -/

/-- Stored user (`models/User.js`, with `timestamps: true`). -/
structure User where
  _id : ObjectId
  username : String
  passwordHash : String
  role : String
  createdAt : Date
  updatedAt : Date
  deriving DecidableEq, Repr

/-- Stored board game (`models/BoardGame.js`). -/
structure BoardGame where
  _id : ObjectId
  title : String
  designer : Option String
  genre : Option String
  createdAt : Date
  updatedAt : Date
  deriving DecidableEq, Repr

/-- Stored book (`models/Book.js`). -/
structure Book where
  _id : ObjectId
  title : String
  author : String
  genre : Option String
  createdAt : Date
  updatedAt : Date
  deriving DecidableEq, Repr

/-- Stored loan (`models/Loan.js`).  `returnDate` and `returnedByUserId` have no default. -/
structure Loan where
  _id : ObjectId
  item : ObjectId
  itemTypeEnum : String
  borrowerName : String
  loanDate : Date
  dueDate : Date
  returnDate : Nullable Date
  loanedByUserId : ObjectId
  returnedByUserId : Nullable ObjectId
  createdAt : Date
  updatedAt : Date
  deriving DecidableEq, Repr

/-- The document store: one list per collection, in insertion order. -/
structure Store where
  users : List User
  boardGames : List BoardGame
  books : List Book
  loans : List Loan
  deriving DecidableEq, Repr

/-- The store before any request. -/
def Store.empty : Store := ⟨[], [], [], []⟩

/-! ## Responses -/

/-- Value of a field of a plain object produced by `toObject()`. -/
inductive JsonValue where
  | str (s : String)
  | num (n : Nat)
  | oid (o : ObjectId)
  | date (d : Date)
  deriving DecidableEq, Repr

/-- Plain object: its keys with their values, in order. -/
abbrev JsonObject := List (String × JsonValue)

/-- Value stored under a key of a plain object, if the key is there. -/
def JsonObject.get (o : JsonObject) (k : String) : Option JsonValue :=
  (o.find? (fun kv => kv.1 == k)).map (fun kv => kv.2)

/-- Mongoose `user.toObject()`: every stored path, with the version key. -/
def User.toObject (u : User) : JsonObject :=
  [("_id", .oid u._id), ("username", .str u.username), ("passwordHash", .str u.passwordHash),
   ("role", .str u.role), ("createdAt", .date u.createdAt), ("updatedAt", .date u.updatedAt),
   ("__v", .num 0)]

/-- The rest pattern `const { passwordHash: _, ...userToReturn } = obj`. -/
def omitPasswordHash (obj : JsonObject) : JsonObject :=
  obj.filter (fun kv => kv.1 != "passwordHash")

/-- Loan as returned by `GET /api/loans` after the three `populate` calls. -/
structure PopulatedLoan where
  loan : Loan
  item : Option (BoardGame ⊕ Book)
  loanedBy : Option (ObjectId × String)
  returnedBy : Option (ObjectId × String)
  deriving DecidableEq, Repr

/-- Response body. -/
inductive Body where
  | empty
  | text (s : String)
  | message (m : String)
  | validationError (model : String) (paths : List String)
  | errorMessage
  | registered (user : JsonObject)
  | loggedIn (token : String) (user : JsonObject)
  | boardGame (g : BoardGame)
  | boardGames (gs : List BoardGame)
  | book (b : Book)
  | books (bs : List Book)
  | loan (l : Loan)
  | loans (ls : List PopulatedLoan)
  deriving DecidableEq, Repr

/-- HTTP response: status code and body. -/
structure Response where
  status : Nat
  body : Body
  deriving DecidableEq, Repr

/-! ## Libraries and ambient inputs -/

/-- Decoded token payload (`req.user`); `jwt.sign` adds `iat` and `exp`, in seconds. -/
structure Claims where
  userId : Option String
  username : Option String
  role : Option String
  iat : Nat
  exp : Nat
  deriving DecidableEq, Repr

/-- Library functions and configuration the handlers call. -/
structure Env where
  JWT_SECRET : String
  castObjectId : String → Option ObjectId
  objectIdToString : ObjectId → String
  castDate : String → Option Date
  bcryptHash : String → Nat → String
  bcryptCompare : String → String → Bool
  jwtSign : Claims → String → String
  jwtVerify : String → String → Date → Option Claims
  regExpI : String → Option (String → Bool)

/-- Values read from outside while one request is served. -/
structure Ambient where
  now : Date
  newId : ObjectId
  salt : Nat
  deriving DecidableEq, Repr

/-! ## Collection operations -/

/-- Replace the first element satisfying `p` by its image under `f` (`updateOne`). -/
def updateFirst {α : Type} (p : α → Bool) (f : α → α) : List α → List α
  | [] => []
  | x :: xs => if p x then f x :: xs else x :: updateFirst p f xs

/-- Remove the first element satisfying `p` (`deleteOne`). -/
def removeFirst {α : Type} (p : α → Bool) : List α → List α
  | [] => []
  | x :: xs => if p x then xs else x :: removeFirst p xs

/-- Mongoose `User.findOne({ username })`; the filter value goes through the `trim` setter. -/
def User.findOne (users : List User) (username : String) : Option User :=
  users.find? (fun u => u.username == jsTrim username)

/-- Mongoose `BoardGame.findById(id)` once the id is cast. -/
def BoardGame.findById (games : List BoardGame) (id : ObjectId) : Option BoardGame :=
  games.find? (fun g => g._id == id)

/-- Mongoose `Book.findById(id)` once the id is cast. -/
def Book.findById (books : List Book) (id : ObjectId) : Option Book :=
  books.find? (fun b => b._id == id)

/-- Mongoose `Loan.findById(id)` once the id is cast. -/
def Loan.findById (loans : List Loan) (id : ObjectId) : Option Loan :=
  loans.find? (fun l => l._id == id)

/-- Filter `{ item, itemTypeEnum, returnDate: null }` of the borrow handler. -/
def Loan.isActiveFor (item : ObjectId) (itemType : String) (l : Loan) : Bool :=
  l.item == item && l.itemTypeEnum == itemType && l.returnDate.matchesNull

/-- Mongoose `Loan.findOne({ item, itemTypeEnum, returnDate: null })`. -/
def Loan.findOneActive (loans : List Loan) (item : ObjectId) (itemType : String) : Option Loan :=
  loans.find? (Loan.isActiveFor item itemType)

/-! ## Middleware -/

/-- The `authenticateToken` middleware: the identity to continue with, or the response
sent instead (`sendStatus(401)` without a token, `sendStatus(403)` when `jwt.verify` fails). -/
def authenticateToken (env : Env) (now : Date) (authorization : Option String) :
    Except Response Claims :=
  let token : Option String :=
    match authorization with
    | none => none
    | some authHeader =>
      if falsy (some authHeader) then some authHeader else secondSegment authHeader
  match token with
  | none => .error ⟨401, .text "Unauthorized"⟩
  | some t =>
    match env.jwtVerify t env.JWT_SECRET now with
    | none => .error ⟨403, .text "Forbidden"⟩
    | some decodedToken => .ok decodedToken

/-- The `authorizeRole(rolesArray)` middleware: `none` calls `next()`, `some r` responds `r`. -/
def authorizeRole (rolesArray : List String) (user : Claims) : Option Response :=
  if falsy user.role || !(rolesArray.contains (user.role.getD "")) then
    some ⟨403, .message "Forbidden: Insufficient role"⟩
  else none

/-! ## Auth routes -/

/-- Handler of `POST /api/auth/register`. -/
def register (env : Env) (amb : Ambient) (s : Store) (username password : Option String) :
    Response × Store :=
  if falsy username || falsy password then
    (⟨400, .message "Username and password are required"⟩, s)
  else
    let username := username.getD ""
    let password := password.getD ""
    if jsLength password < 6 then
      (⟨400, .message "Password must be at least 6 characters long"⟩, s)
    else
      match User.findOne s.users username with
      | some _ => (⟨400, .message "Username already taken"⟩, s)
      | none =>
        let passwordHash := env.bcryptHash password amb.salt
        let userCount := s.users.length
        let role := if userCount = 0 then "admin" else "user"
        let user : User :=
          { _id := amb.newId, username := jsTrim username, passwordHash := passwordHash,
            role := role, createdAt := amb.now, updatedAt := amb.now }
        let invalid :=
          (if user.username = "" then ["username"] else []) ++
          (if user.passwordHash = "" then ["passwordHash"] else [])
        if invalid ≠ [] then
          (⟨400, .validationError "User" invalid⟩, s)
        else if s.users.any (fun u => u._id == user._id || u.username == user.username) then
          (⟨500, .message "Internal server error during registration"⟩, s)
        else
          (⟨201, .registered (omitPasswordHash user.toObject)⟩,
            { s with users := s.users ++ [user] })

/-- Handler of `POST /api/auth/login`. -/
def login (env : Env) (amb : Ambient) (s : Store) (username password : Option String) :
    Response × Store :=
  if falsy username || falsy password then
    (⟨400, .message "Username and password are required"⟩, s)
  else
    match User.findOne s.users (username.getD "") with
    | none => (⟨401, .message "Invalid credentials"⟩, s)
    | some user =>
      let isMatch := env.bcryptCompare (password.getD "") user.passwordHash
      if !isMatch then (⟨401, .message "Invalid credentials"⟩, s)
      else
        let iat := amb.now / 1000
        let payload : Claims :=
          { userId := some (env.objectIdToString user._id), username := some user.username,
            role := some user.role, iat := iat, exp := iat + 3600 }
        let token := env.jwtSign payload env.JWT_SECRET
        (⟨200, .loggedIn token (omitPasswordHash user.toObject)⟩, s)

/-! ## General test routes -/

/-- Handler of `GET /api/test`. -/
def testRoute (s : Store) : Response × Store :=
  (⟨200, .message "Backend is running!"⟩, s)

/-- Handler of `GET /api/admin/test`. -/
def adminTest (env : Env) (amb : Ambient) (s : Store) (authorization : Option String) :
    Response × Store :=
  match authenticateToken env amb.now authorization with
  | .error r => (r, s)
  | .ok user =>
    match authorizeRole ["admin"] user with
    | some r => (r, s)
    | none =>
      (⟨200, .message ("Welcome Admin " ++ user.username.getD "undefined" ++
        "! This is a protected admin route.")⟩, s)

/-! ## Board game routes -/

/-- Handler of `GET /api/boardgames`. -/
def listBoardGames (s : Store) : Response × Store :=
  (⟨200, .boardGames s.boardGames⟩, s)

/-- Handler of `POST /api/boardgames`. -/
def createBoardGame (env : Env) (amb : Ambient) (s : Store) (authorization : Option String)
    (title designer genre : Option String) : Response × Store :=
  match authenticateToken env amb.now authorization with
  | .error r => (r, s)
  | .ok user =>
    match authorizeRole ["admin", "user"] user with
    | some r => (r, s)
    | none =>
      if falsy title then (⟨400, .message "Title is required for board game"⟩, s)
      else
        let newGame : BoardGame :=
          { _id := amb.newId, title := jsTrim (title.getD ""), designer := designer.map jsTrim,
            genre := genre.map jsTrim, createdAt := amb.now, updatedAt := amb.now }
        if newGame.title = "" then (⟨400, .validationError "BoardGame" ["title"]⟩, s)
        else if s.boardGames.any (fun g => g._id == newGame._id) then (⟨500, .errorMessage⟩, s)
        else (⟨201, .boardGame newGame⟩, { s with boardGames := s.boardGames ++ [newGame] })

/-- Handler of `GET /api/boardgames/:id`. -/
def getBoardGame (env : Env) (s : Store) (id : String) : Response × Store :=
  match env.castObjectId id with
  | none => (⟨400, .message "Invalid ID format"⟩, s)
  | some oid =>
    match BoardGame.findById s.boardGames oid with
    | none => (⟨404, .message "Board game not found"⟩, s)
    | some game => (⟨200, .boardGame game⟩, s)

/-- Handler of `PUT /api/boardgames/:id`
(`findByIdAndUpdate(id, req.body, { new: true, runValidators: true })`). -/
def updateBoardGame (env : Env) (amb : Ambient) (s : Store) (authorization : Option String)
    (id : String) (title designer genre : Option String) : Response × Store :=
  match authenticateToken env amb.now authorization with
  | .error r => (r, s)
  | .ok user =>
    match authorizeRole ["admin"] user with
    | some r => (r, s)
    | none =>
      match env.castObjectId id with
      | none => (⟨400, .message "Invalid ID format"⟩, s)
      | some oid =>
        if title.map jsTrim = some "" then (⟨400, .validationError "BoardGame" ["title"]⟩, s)
        else
          match BoardGame.findById s.boardGames oid with
          | none => (⟨404, .message "Board game not found"⟩, s)
          | some game =>
            let updatedGame : BoardGame :=
              { game with
                title := (title.map jsTrim).getD game.title,
                designer := (designer.map jsTrim).orElse (fun _ => game.designer),
                genre := (genre.map jsTrim).orElse (fun _ => game.genre),
                updatedAt := amb.now }
            (⟨200, .boardGame updatedGame⟩,
              { s with boardGames :=
                  updateFirst (fun g => g._id == oid) (fun _ => updatedGame) s.boardGames })

/-- Handler of `DELETE /api/boardgames/:id`. -/
def deleteBoardGame (env : Env) (amb : Ambient) (s : Store) (authorization : Option String)
    (id : String) : Response × Store :=
  match authenticateToken env amb.now authorization with
  | .error r => (r, s)
  | .ok user =>
    match authorizeRole ["admin"] user with
    | some r => (r, s)
    | none =>
      match env.castObjectId id with
      | none => (⟨400, .message "Invalid ID format"⟩, s)
      | some oid =>
        match BoardGame.findById s.boardGames oid with
        | none => (⟨404, .message "Board game not found"⟩, s)
        | some _ =>
          (⟨204, .empty⟩,
            { s with boardGames := removeFirst (fun g => g._id == oid) s.boardGames })

/-! ## Book routes -/

/-- Handler of `GET /api/books`. -/
def listBooks (s : Store) : Response × Store :=
  (⟨200, .books s.books⟩, s)

/-- Handler of `POST /api/books`. -/
def createBook (env : Env) (amb : Ambient) (s : Store) (authorization : Option String)
    (title author genre : Option String) : Response × Store :=
  match authenticateToken env amb.now authorization with
  | .error r => (r, s)
  | .ok user =>
    match authorizeRole ["admin", "user"] user with
    | some r => (r, s)
    | none =>
      if falsy title || falsy author then
        (⟨400, .message "Title and Author are required for book"⟩, s)
      else
        let newBook : Book :=
          { _id := amb.newId, title := jsTrim (title.getD ""), author := jsTrim (author.getD ""),
            genre := genre.map jsTrim, createdAt := amb.now, updatedAt := amb.now }
        let invalid :=
          (if newBook.title = "" then ["title"] else []) ++
          (if newBook.author = "" then ["author"] else [])
        if invalid ≠ [] then (⟨400, .validationError "Book" invalid⟩, s)
        else if s.books.any (fun b => b._id == newBook._id) then (⟨500, .errorMessage⟩, s)
        else (⟨201, .book newBook⟩, { s with books := s.books ++ [newBook] })

/-- Handler of `GET /api/books/:id`. -/
def getBook (env : Env) (s : Store) (id : String) : Response × Store :=
  match env.castObjectId id with
  | none => (⟨400, .message "Invalid ID format"⟩, s)
  | some oid =>
    match Book.findById s.books oid with
    | none => (⟨404, .message "Book not found"⟩, s)
    | some book => (⟨200, .book book⟩, s)

/-- Handler of `PUT /api/books/:id`
(`findByIdAndUpdate(id, req.body, { new: true, runValidators: true })`). -/
def updateBook (env : Env) (amb : Ambient) (s : Store) (authorization : Option String)
    (id : String) (title author genre : Option String) : Response × Store :=
  match authenticateToken env amb.now authorization with
  | .error r => (r, s)
  | .ok user =>
    match authorizeRole ["admin"] user with
    | some r => (r, s)
    | none =>
      match env.castObjectId id with
      | none => (⟨400, .message "Invalid ID format"⟩, s)
      | some oid =>
        let invalid :=
          (if title.map jsTrim = some "" then ["title"] else []) ++
          (if author.map jsTrim = some "" then ["author"] else [])
        if invalid ≠ [] then (⟨400, .validationError "Book" invalid⟩, s)
        else
          match Book.findById s.books oid with
          | none => (⟨404, .message "Book not found"⟩, s)
          | some book =>
            let updatedBook : Book :=
              { book with
                title := (title.map jsTrim).getD book.title,
                author := (author.map jsTrim).getD book.author,
                genre := (genre.map jsTrim).orElse (fun _ => book.genre),
                updatedAt := amb.now }
            (⟨200, .book updatedBook⟩,
              { s with books :=
                  updateFirst (fun b => b._id == oid) (fun _ => updatedBook) s.books })

/-- Handler of `DELETE /api/books/:id`. -/
def deleteBook (env : Env) (amb : Ambient) (s : Store) (authorization : Option String)
    (id : String) : Response × Store :=
  match authenticateToken env amb.now authorization with
  | .error r => (r, s)
  | .ok user =>
    match authorizeRole ["admin"] user with
    | some r => (r, s)
    | none =>
      match env.castObjectId id with
      | none => (⟨400, .message "Invalid ID format"⟩, s)
      | some oid =>
        match Book.findById s.books oid with
        | none => (⟨404, .message "Book not found"⟩, s)
        | some _ =>
          (⟨204, .empty⟩, { s with books := removeFirst (fun b => b._id == oid) s.books })

/-! ## Loan routes -/

/-- Paths of a new `Loan` that fail validation on `save()`: `borrowerName` is required after
trimming, `dueDate` and `loanedByUserId` are required and must cast. -/
def Loan.invalidPaths (borrowerName : String) (dueDate : Option Date)
    (loanedByUserId : Option ObjectId) : List String :=
  (if borrowerName = "" then ["borrowerName"] else []) ++
  (if dueDate.isNone then ["dueDate"] else []) ++
  (if loanedByUserId.isNone then ["loanedByUserId"] else [])

/-- Handler of `POST /api/loans/borrow`.  The document is built from `item`, `itemTypeEnum`,
`borrowerName`, `loanedByUserId` and `dueDate` only: `loanDate` takes its default `Date.now`,
while `returnDate` and `returnedByUserId`, which have no default, stay unset. -/
def borrow (env : Env) (amb : Ambient) (s : Store) (authorization : Option String)
    (itemId itemType borrowerName dueDate : Option String) : Response × Store :=
  match authenticateToken env amb.now authorization with
  | .error r => (r, s)
  | .ok user =>
    let userId := user.userId
    if falsy itemId || falsy itemType || falsy borrowerName || falsy dueDate then
      (⟨400, .message "Missing required fields"⟩, s)
    else
      let itemId := itemId.getD ""
      let itemType := itemType.getD ""
      if itemType ≠ "BoardGame" ∧ itemType ≠ "Book" then
        (⟨400, .message "Invalid itemType. Must be \"BoardGame\" or \"Book\"."⟩, s)
      else
        match env.castObjectId itemId with
        | none => (⟨400, .message "Invalid item ID format"⟩, s)
        | some item =>
          let itemExists : Bool :=
            if itemType = "BoardGame" then (BoardGame.findById s.boardGames item).isSome
            else (Book.findById s.books item).isSome
          if !itemExists then
            (⟨404, .message (itemType ++ " with ID " ++ itemId ++ " not found.")⟩, s)
          else
            match Loan.findOneActive s.loans item itemType with
            | some _ =>
              (⟨400, .message (itemType ++ " with ID " ++ itemId ++ " is already on loan.")⟩, s)
            | none =>
              let name := jsTrim (borrowerName.getD "")
              let due := env.castDate (dueDate.getD "")
              let loanedBy := userId.bind env.castObjectId
              match due, loanedBy, decide (name = "") with
              | some due, some loanedBy, false =>
                let newLoan : Loan :=
                  { _id := amb.newId, item := item, itemTypeEnum := itemType,
                    borrowerName := name, loanDate := amb.now, dueDate := due,
                    returnDate := .undefined, loanedByUserId := loanedBy,
                    returnedByUserId := .undefined, createdAt := amb.now,
                    updatedAt := amb.now }
                if s.loans.any (fun l => l._id == newLoan._id) then
                  (⟨500, .errorMessage⟩, s)
                else (⟨201, .loan newLoan⟩, { s with loans := s.loans ++ [newLoan] })
              | due, loanedBy, _ =>
                (⟨400, .validationError "Loan" (Loan.invalidPaths name due loanedBy)⟩, s)

/-- Handler of `POST /api/loans/return`.  The guard is `loan.returnDate !== null`, a strict
comparison: it lets through a `returnDate` that is `null` and stops one that is a date or
`undefined`. -/
def returnLoan (env : Env) (amb : Ambient) (s : Store) (authorization : Option String)
    (loanId : Option String) : Response × Store :=
  match authenticateToken env amb.now authorization with
  | .error r => (r, s)
  | .ok user =>
    let userId := user.userId
    if falsy loanId then (⟨400, .message "Missing loanId"⟩, s)
    else
      let loanId := loanId.getD ""
      match env.castObjectId loanId with
      | none => (⟨400, .message "Invalid loan ID format"⟩, s)
      | some oid =>
        match Loan.findById s.loans oid with
        | none => (⟨404, .message ("Loan with ID " ++ loanId ++ " not found.")⟩, s)
        | some loan =>
          if loan.returnDate.strictNeNull then
            (⟨400, .message ("Loan with ID " ++ loanId ++ " has already been returned.")⟩, s)
          else
            let returnedBy : Option (Nullable ObjectId) :=
              match userId with
              | none => some .undefined
              | some uid => (env.castObjectId uid).map .value
            match returnedBy with
            | none => (⟨400, .validationError "Loan" ["returnedByUserId"]⟩, s)
            | some returnedBy =>
              let updated : Loan :=
                { loan with returnDate := .value amb.now, returnedByUserId := returnedBy,
                            updatedAt := amb.now }
              (⟨200, .loan updated⟩,
                { s with loans := updateFirst (fun l => l._id == oid) (fun _ => updated) s.loans })

/-- The `populate` calls of `GET /api/loans`: the catalog item named by `itemTypeEnum` and the
`username` of the two users, each `none` when the referenced document is gone. -/
def populate (s : Store) (l : Loan) : PopulatedLoan :=
  { loan := l
    item :=
      if l.itemTypeEnum = "BoardGame" then (BoardGame.findById s.boardGames l.item).map .inl
      else if l.itemTypeEnum = "Book" then (Book.findById s.books l.item).map .inr
      else none
    loanedBy := (s.users.find? (fun u => u._id == l.loanedByUserId)).map
      (fun u => (u._id, u.username))
    returnedBy :=
      match l.returnedByUserId with
      | .value uid => (s.users.find? (fun u => u._id == uid)).map (fun u => (u._id, u.username))
      | _ => none }

/-- The `status` part of the query of `GET /api/loans`. -/
def statusFilter (status : Option String) (l : Loan) : Bool :=
  if falsy status then true
  else if status = some "loaned" then l.returnDate.matchesNull
  else if status = some "returned" then !l.returnDate.matchesNull
  else true

/-- Handler of `GET /api/loans`. -/
def listLoans (env : Env) (s : Store) (status borrowerName : Option String) :
    Response × Store :=
  if falsy borrowerName then
    (⟨200, .loans ((s.loans.filter (statusFilter status)).map (populate s))⟩, s)
  else
    match env.regExpI (borrowerName.getD "") with
    | none => (⟨500, .errorMessage⟩, s)
    | some test =>
      (⟨200, .loans ((s.loans.filter
          (fun l => statusFilter status l && test l.borrowerName)).map (populate s))⟩, s)

/-! ## The API as a transition system -/

/-- A request to one of the routes of `app.js`, with the `Authorization` header where the
route is protected. -/
inductive Request where
  | register (username password : Option String)
  | login (username password : Option String)
  | test
  | adminTest (authorization : Option String)
  | listBoardGames
  | createBoardGame (authorization : Option String) (title designer genre : Option String)
  | getBoardGame (id : String)
  | updateBoardGame (authorization : Option String) (id : String)
      (title designer genre : Option String)
  | deleteBoardGame (authorization : Option String) (id : String)
  | listBooks
  | createBook (authorization : Option String) (title author genre : Option String)
  | getBook (id : String)
  | updateBook (authorization : Option String) (id : String)
      (title author genre : Option String)
  | deleteBook (authorization : Option String) (id : String)
  | borrow (authorization : Option String) (itemId itemType borrowerName dueDate : Option String)
  | returnLoan (authorization : Option String) (loanId : Option String)
  | listLoans (status borrowerName : Option String)
  deriving DecidableEq, Repr

/-- Serve one request: the response and the store afterwards. -/
def handle (env : Env) (amb : Ambient) (s : Store) : Request → Response × Store
  | .register username password => register env amb s username password
  | .login username password => login env amb s username password
  | .test => testRoute s
  | .adminTest authorization => adminTest env amb s authorization
  | .listBoardGames => listBoardGames s
  | .createBoardGame authorization title designer genre =>
    createBoardGame env amb s authorization title designer genre
  | .getBoardGame id => getBoardGame env s id
  | .updateBoardGame authorization id title designer genre =>
    updateBoardGame env amb s authorization id title designer genre
  | .deleteBoardGame authorization id => deleteBoardGame env amb s authorization id
  | .listBooks => listBooks s
  | .createBook authorization title author genre =>
    createBook env amb s authorization title author genre
  | .getBook id => getBook env s id
  | .updateBook authorization id title author genre =>
    updateBook env amb s authorization id title author genre
  | .deleteBook authorization id => deleteBook env amb s authorization id
  | .borrow authorization itemId itemType borrowerName dueDate =>
    borrow env amb s authorization itemId itemType borrowerName dueDate
  | .returnLoan authorization loanId => returnLoan env amb s authorization loanId
  | .listLoans status borrowerName => listLoans env s status borrowerName

/-- Serve a sequence of requests, each with its ambient inputs, from a store. -/
def run (env : Env) (s : Store) : List (Ambient × Request) → Store
  | [] => s
  | (amb, r) :: rest => run env (handle env amb s r).2 rest

/-- States the API can be in: the empty store, and what any request leaves behind. -/
inductive Reachable (env : Env) : Store → Prop where
  | empty : Reachable env Store.empty
  | step {s : Store} (amb : Ambient) (r : Request) :
      Reachable env s → Reachable env (handle env amb s r).2

/-- The token `authenticateToken` takes from the request: the expression
`authHeader && authHeader.split(' ')[1]`. -/
def requestToken (authorization : Option String) : Option String :=
  match authorization with
  | none => none
  | some authHeader =>
    if falsy (some authHeader) then some authHeader else secondSegment authHeader

/-- The `Authorization` header of a request to a route registered behind `authenticateToken`;
`none` for a request to a public route. -/
def Request.protectedHeader : Request → Option (Option String)
  | .adminTest authorization => some authorization
  | .createBoardGame authorization _ _ _ => some authorization
  | .updateBoardGame authorization _ _ _ _ => some authorization
  | .deleteBoardGame authorization _ => some authorization
  | .createBook authorization _ _ _ => some authorization
  | .updateBook authorization _ _ _ _ => some authorization
  | .deleteBook authorization _ => some authorization
  | .borrow authorization _ _ _ _ => some authorization
  | .returnLoan authorization _ => some authorization
  | _ => none

/-! ## Predicates on stores -/

/-- Number of loans of the ledger without a return date for the pair `(item, itemType)`. -/
def activeCount (loans : List Loan) (item : ObjectId) (itemType : String) : Nat :=
  (loans.filter (Loan.isActiveFor item itemType)).length

/-- At most one active loan for every pair `(item, itemType)`. -/
def ActiveLoanUnique (s : Store) : Prop :=
  ∀ (item : ObjectId) (itemType : String), activeCount s.loans item itemType ≤ 1

/-- No loan of the ledger has a return date, nor a `null` in its place: the path is unset. -/
def AllUnreturned (s : Store) : Prop :=
  ∀ l ∈ s.loans, l.returnDate = .undefined

/-- Stored usernames are non-empty, trimmed and pairwise distinct. -/
def UsersWellFormed (s : Store) : Prop :=
  (∀ u ∈ s.users, u.username ≠ "" ∧ jsTrim u.username = u.username) ∧
  (s.users.map (fun u => u.username)).Nodup

/-- A body field is blank: missing, empty, or white space only, so that nothing is left of it
after the `trim` setter. -/
@[reducible] def blank (field : Option String) : Prop := jsTrim (field.getD "") = ""

/-- Catalog items have pairwise distinct ids within their collection, every item has a
non-empty title and every book a non-empty author. -/
def CatalogWellFormed (s : Store) : Prop :=
  (s.boardGames.map (fun g => g._id)).Nodup ∧ (s.books.map (fun b => b._id)).Nodup ∧
  (∀ g ∈ s.boardGames, g.title ≠ "") ∧ (∀ b ∈ s.books, b.title ≠ "" ∧ b.author ≠ "")

/-! ## A concrete environment and concrete stores

A small instance of the libraries, used to run the handlers on concrete requests: ids are
one decimal digit, a hash is the password behind a salt marker, a token is the secret and the
three payload fields joined by dots. -/

/-- A concrete instance of the libraries. -/
def sampleEnv : Env where
  JWT_SECRET := "dev-secret"
  castObjectId := fun s =>
    match s.data with
    | [c] => if c.isDigit then some (c.toNat - 48) else none
    | _ => none
  objectIdToString := fun n => ⟨[Char.ofNat (n + 48)]⟩
  castDate := fun s => if s = "2025-01-01" then some 1735689600000 else none
  bcryptHash := fun p salt => ⟨'$' :: Char.ofNat (salt + 48) :: '$' :: p.data⟩
  bcryptCompare := fun p h =>
    match h.data with
    | '$' :: _ :: '$' :: rest => rest == p.data
    | _ => false
  jwtSign := fun c secret =>
    secret ++ "." ++ c.userId.getD "" ++ "." ++ c.username.getD "" ++ "." ++ c.role.getD ""
  jwtVerify := fun t secret _ =>
    match splitChars '.' t.data with
    | [sec, uid, name, role] =>
      if sec = secret.data then some ⟨some ⟨uid⟩, some ⟨name⟩, some ⟨role⟩, 0, 3600⟩ else none
    | _ => none
  regExpI := fun _ => none

/-- The `Authorization` header carrying the token `sampleEnv` issues to the first user. -/
def aliceHeader : Option String := some "Bearer dev-secret.1.alice.admin"

/-- Requests of the scenario of the specification up to the first borrow: register alice,
create the board game "Go", borrow it for Bob. -/
def borrowedTrace : List (Ambient × Request) :=
  [(⟨1000, 1, 7⟩, .register (some "alice") (some "secret1")),
   (⟨3000, 2, 0⟩, .createBoardGame aliceHeader (some "Go") (some "X") (some "Abstract")),
   (⟨4000, 3, 0⟩, .borrow aliceHeader (some "2") (some "BoardGame") (some "Bob")
      (some "2025-01-01"))]

/-- The store after `borrowedTrace`: one user, one board game, one loan of it. -/
def borrowedStore : Store := run sampleEnv Store.empty borrowedTrace

/-- The loan of `borrowedStore` once it has a return date. -/
def bobLoanReturned : Loan :=
  { _id := 3, item := 2, itemTypeEnum := "BoardGame", borrowerName := "Bob", loanDate := 4000,
    dueDate := 1735689600000, returnDate := .value 5000, loanedByUserId := 1,
    returnedByUserId := .value 1, createdAt := 4000, updatedAt := 5000 }

/-- A ledger in which the loan of `borrowedStore` has been given a return date. -/
def returnedStore : Store :=
  { borrowedStore with loans := [bobLoanReturned] }

/-- The user the registration of `borrowedTrace` created. -/
def alice : User :=
  { _id := 1, username := "alice", passwordHash := "$7$secret1", role := "admin",
    createdAt := 1000, updatedAt := 1000 }

/-- The loan the borrow of `borrowedTrace` created. -/
def bobLoan : Loan :=
  { _id := 3, item := 2, itemTypeEnum := "BoardGame", borrowerName := "Bob", loanDate := 4000,
    dueDate := 1735689600000, returnDate := .undefined, loanedByUserId := 1,
    returnedByUserId := .undefined, createdAt := 4000, updatedAt := 4000 }

/-- The `Authorization` header carrying a token `sampleEnv` issues to a user with role
"user". -/
def bobHeader : Option String := some "Bearer dev-secret.5.bob.user"

/-- The identity `sampleEnv` decodes from `aliceHeader`. -/
def aliceClaims : Claims := ⟨some "1", some "alice", some "admin", 0, 3600⟩

/-- The identity `sampleEnv` decodes from `bobHeader`. -/
def bobClaims : Claims := ⟨some "5", some "bob", some "user", 0, 3600⟩

/-- Requests that fill the catalog: register alice, create the board game "Go" and the book
"Dune". -/
def catalogTrace : List (Ambient × Request) :=
  [(⟨1000, 1, 7⟩, .register (some "alice") (some "secret1")),
   (⟨3000, 2, 0⟩, .createBoardGame aliceHeader (some "Go") (some "X") (some "Abstract")),
   (⟨3500, 4, 0⟩, .createBook aliceHeader (some "Dune") (some "Frank Herbert") none)]

/-- The store after `catalogTrace`. -/
def catalogStore : Store := run sampleEnv Store.empty catalogTrace

/-- The board game of `catalogStore`. -/
def goGame : BoardGame :=
  { _id := 2, title := "Go", designer := some "X", genre := some "Abstract", createdAt := 3000,
    updatedAt := 3000 }

/-- The book of `catalogStore`. -/
def duneBook : Book :=
  { _id := 4, title := "Dune", author := "Frank Herbert", genre := none, createdAt := 3500,
    updatedAt := 3500 }

/-! ## Routing (`app.use`, `app.get`, `app.post`, `app.put`, `app.delete`) -/

/-- HTTP methods the application registers routes for. -/
inductive Method where
  | GET | POST | PUT | DELETE
  deriving DecidableEq, Repr

/-- Name of a method, as Express prints it in the page of an unmatched request. -/
def Method.name : Method → String
  | .GET => "GET"
  | .POST => "POST"
  | .PUT => "PUT"
  | .DELETE => "DELETE"

/-- An HTTP request as it reaches the application: method, URL path (decoded, without the
query string), `Authorization` header, fields of the JSON body, query parameters. -/
structure HttpRequest where
  method : Method
  path : String
  authorization : Option String
  body : String → Option String
  query : String → Option String

/-- Path segments without the empty one a single trailing slash leaves: Express routes are
not strict, `/api/loans/` is matched like `/api/loans`. -/
def dropTrailingSlash : List (List Char) → List (List Char)
  | [] => []
  | [[]] => []
  | seg :: rest => seg :: dropTrailingSlash rest

/-- Segments of a URL path: the parts between slashes, after the leading slash. -/
def pathSegments (path : String) : List (List Char) :=
  match splitChars '/' path.data with
  | [] :: segs => dropTrailingSlash segs
  | segs => segs

/-- Where the application sends a request. -/
inductive Routed where
  | api (r : Request)
  | docs
  | unmatched

/-- The route table of `app.js`, in registration order: the Swagger UI mounted on the prefix
`/api-docs`, then the routes of the API.  Route paths are matched whole, letter case apart
(Express routes are not case sensitive); `:id` matches one non-empty segment. -/
def route (h : HttpRequest) : Routed :=
  let segs := pathSegments h.path
  let names : List String := segs.map (fun seg => ⟨seg.map Char.toLower⟩)
  let id : String := ⟨segs.getD 2 []⟩
  if names.head? = some "api-docs" then .docs
  else
    match h.method, names with
    | .POST, ["api", "auth", "register"] =>
      .api (.register (h.body "username") (h.body "password"))
    | .POST, ["api", "auth", "login"] => .api (.login (h.body "username") (h.body "password"))
    | .GET, ["api", "test"] => .api .test
    | .GET, ["api", "admin", "test"] => .api (.adminTest h.authorization)
    | .GET, ["api", "boardgames"] => .api .listBoardGames
    | .POST, ["api", "boardgames"] =>
      .api (.createBoardGame h.authorization (h.body "title") (h.body "designer")
        (h.body "genre"))
    | .GET, ["api", "boardgames", _] => if id = "" then .unmatched else .api (.getBoardGame id)
    | .PUT, ["api", "boardgames", _] =>
      if id = "" then .unmatched
      else .api (.updateBoardGame h.authorization id (h.body "title") (h.body "designer")
        (h.body "genre"))
    | .DELETE, ["api", "boardgames", _] =>
      if id = "" then .unmatched else .api (.deleteBoardGame h.authorization id)
    | .GET, ["api", "books"] => .api .listBooks
    | .POST, ["api", "books"] =>
      .api (.createBook h.authorization (h.body "title") (h.body "author") (h.body "genre"))
    | .GET, ["api", "books", _] => if id = "" then .unmatched else .api (.getBook id)
    | .PUT, ["api", "books", _] =>
      if id = "" then .unmatched
      else .api (.updateBook h.authorization id (h.body "title") (h.body "author")
        (h.body "genre"))
    | .DELETE, ["api", "books", _] =>
      if id = "" then .unmatched else .api (.deleteBook h.authorization id)
    | .POST, ["api", "loans", "borrow"] =>
      .api (.borrow h.authorization (h.body "itemId") (h.body "itemType")
        (h.body "borrowerName") (h.body "dueDate"))
    | .POST, ["api", "loans", "return"] => .api (.returnLoan h.authorization (h.body "loanId"))
    | .GET, ["api", "loans"] => .api (.listLoans (h.query "status") (h.query "borrowerName"))
    | _, _ => .unmatched

/-- The application on an HTTP request: the handler of the matching route, or the 404 page
of Express ("Cannot GET /path") when no route matches.  `none` stands for a page of the
Swagger UI, which this development does not describe. -/
def serve (env : Env) (amb : Ambient) (s : Store) (h : HttpRequest) :
    Option (Response × Store) :=
  match route h with
  | .api r => some (handle env amb s r)
  | .docs => none
  | .unmatched => some (⟨404, .text ("Cannot " ++ h.method.name ++ " " ++ h.path)⟩, s)

/-! ## The borrower filter: the match of the specification and a concrete `RegExp` -/

/-- Whether `needle` is a prefix of `text`. -/
def startsWithChars : List Char → List Char → Bool
  | _, [] => true
  | [], _ :: _ => false
  | t :: ts, n :: ns => t == n && startsWithChars ts ns

/-- Whether `needle` occurs in `text` as a contiguous run of characters. -/
def containsChars : List Char → List Char → Bool
  | [], needle => needle.isEmpty
  | t :: ts, needle => startsWithChars (t :: ts) needle || containsChars ts needle

/-- The borrower filter in the words of the specification: the borrower name, lower-cased,
contains the filter string, lower-cased, as a contiguous substring (letters a to z). -/
def substringMatchSpec (needle name : String) : Bool :=
  containsChars (name.data.map Char.toLower) (needle.data.map Char.toLower)

/-- Whether a pattern matches at the start of a text, the pattern read as a JavaScript regular
expression with flag `i` in which '.' stands for any character but a line terminator and
every other character for itself. -/
def dotPatternMatchesAt : List Char → List Char → Bool
  | [], _ => true
  | _ :: _, [] => false
  | p :: ps, t :: ts =>
    (if p = '.' then !(t.toNat == 10 || t.toNat == 13 || t.toNat == 8232 || t.toNat == 8233)
      else p.toLower == t.toLower) && dotPatternMatchesAt ps ts

/-- `RegExp.prototype.test` for such a pattern: a match that starts anywhere in the text. -/
def dotPatternTest (pattern : List Char) : List Char → Bool
  | [] => dotPatternMatchesAt pattern []
  | t :: ts => dotPatternMatchesAt pattern (t :: ts) || dotPatternTest pattern ts

/-- A concrete `new RegExp(pattern, 'i')` for the patterns used below: "(" does not compile
(JavaScript throws a SyntaxError for the unterminated group), and a pattern made of '.' and
of characters without a meaning of their own compiles to `dotPatternTest`. -/
def sampleRegExpI (pattern : String) : Option (String → Bool) :=
  if pattern = "(" then none
  else some (fun text => dotPatternTest pattern.data text.data)

/-- The concrete environment with `sampleRegExpI` for `RegExp`. -/
def regexEnv : Env := { sampleEnv with regExpI := sampleRegExpI }

/-! ## The borrow form of the client (`client/src/components/LoanItemForm.jsx`) -/

/-- Values the item type of the form takes: the two options of its select; the initial state
is the first. -/
inductive FormItemType where
  | boardgame | book
  deriving DecidableEq, Repr

/-- The `value` attribute of an option of the select. -/
def FormItemType.value : FormItemType → String
  | .boardgame => "boardgame"
  | .book => "book"

/-- State of `LoanItemForm`: the values of its four inputs. -/
structure LoanItemForm where
  itemId : String
  itemType : FormItemType
  borrowerName : String
  dueDate : String
  deriving DecidableEq, Repr

/-- The object `loanDetails` the form sends as the body of the borrow request; `itemId` is a
number, `none` standing for `NaN` (which JSON serialises as `null`). -/
structure LoanDetails where
  itemId : Option Int
  itemType : String
  borrowerName : String
  dueDate : String
  deriving DecidableEq, Repr

/-- Value of a character as a digit in the given radix. -/
def digitValue (radix : Nat) (c : Char) : Option Nat :=
  let n := c.toNat
  let v : Option Nat :=
    if 48 ≤ n ∧ n ≤ 57 then some (n - 48)
    else if 97 ≤ n ∧ n ≤ 122 then some (n - 87)
    else if 65 ≤ n ∧ n ≤ 90 then some (n - 55)
    else none
  match v with
  | some d => if d < radix then some d else none
  | none => none

/-- The digits a text starts with. -/
def leadingDigits (radix : Nat) : List Char → List Nat
  | [] => []
  | c :: cs =>
    match digitValue radix c with
    | some d => d :: leadingDigits radix cs
    | none => []

/-- JavaScript `parseInt(s)`: leading white space and a sign are skipped, a prefix `0x` selects
radix 16, the longest run of digits is read; `none` is `NaN`.  The value is the mathematical
one (JavaScript rounds beyond 2^53). -/
def jsParseInt (s : String) : Option Int :=
  let cs := trimStart s.data
  let negative : Bool := cs.head? == some '-'
  let cs := match cs with
    | '-' :: rest => rest
    | '+' :: rest => rest
    | _ => cs
  let hex : Bool := match cs with
    | '0' :: 'x' :: _ => true
    | '0' :: 'X' :: _ => true
    | _ => false
  let radix := if hex then 16 else 10
  match leadingDigits radix (if hex then cs.drop 2 else cs) with
  | [] => none
  | d :: ds =>
    let n : Int := ((d :: ds).foldl (fun acc x => acc * radix + x) 0 : Nat)
    some (if negative then -n else n)

/-- The function `handleSubmit` of the form: `none` when it shows "All fields are required."
and sends nothing, otherwise the body of the borrow request it posts. -/
def LoanItemForm.handleSubmit (f : LoanItemForm) : Option LoanDetails :=
  if falsy (some f.itemId) || falsy (some f.itemType.value) || falsy (some f.borrowerName) ||
      falsy (some f.dueDate) then none
  else
    some { itemId := jsParseInt f.itemId, itemType := f.itemType.value,
           borrowerName := f.borrowerName, dueDate := f.dueDate }

/-! ## Further predicates and concrete stores -/

/-- The first registered user, if there is one, has role "admin" and every later one has
role "user". -/
def FirstUserIsAdmin (users : List User) : Prop :=
  match users with
  | [] => True
  | first :: rest => first.role = "admin" ∧ ∀ u ∈ rest, u.role = "user"

/-- The store after alice deletes the board game "Go" while Bob has it on loan. -/
def deletedStore : Store :=
  (deleteBoardGame sampleEnv ⟨5000, 0, 0⟩ borrowedStore aliceHeader "2").2

/-- The loan a borrow of the book "Dune" for " Bob " in `catalogStore` creates. -/
def duneLoan : Loan :=
  { _id := 6, item := 4, itemTypeEnum := "Book", borrowerName := "Bob", loanDate := 4000,
    dueDate := 1735689600000, returnDate := .undefined, loanedByUserId := 1,
    returnedByUserId := .undefined, createdAt := 4000, updatedAt := 4000 }

/-! ## Facts about the string helpers -/

theorem falsy_some (s : String) : falsy (some s) = false ↔ s ≠ "" := by
  simp [falsy]

theorem dropWhile_append_singleton (p : Char → Bool) (c : Char) (hc : p c = false) :
    ∀ xs : List Char, ∃ ys, (xs ++ [c]).dropWhile p = ys ++ [c]
  | [] => ⟨[], by simp [List.dropWhile, hc]⟩
  | x :: xs => by
    by_cases hx : p x = true
    · obtain ⟨ys, hys⟩ := dropWhile_append_singleton p c hc xs
      exact ⟨ys, by simp [List.dropWhile, hx, hys]⟩
    · exact ⟨x :: xs, by simp [List.dropWhile, hx]⟩

theorem dropWhile_head_false (p : Char → Bool) (c : Char) (rest : List Char) :
    ∀ xs : List Char, xs.dropWhile p = c :: rest → p c = false
  | [], h => by simp at h
  | x :: xs, h => by
    by_cases hx : p x = true
    · rw [List.dropWhile_cons_of_pos hx] at h
      exact dropWhile_head_false p c rest xs h
    · rw [List.dropWhile_cons_of_neg hx] at h
      simp only [List.cons.injEq] at h
      rw [← h.1]
      simpa using hx

theorem trimEnd_trimEnd (cs : List Char) : trimEnd (trimEnd cs) = trimEnd cs := by
  simp [trimEnd, List.dropWhile_idempotent]

theorem trimStart_trimEnd_trimStart (cs : List Char) :
    trimStart (trimEnd (trimStart cs)) = trimEnd (trimStart cs) := by
  cases h : trimStart cs with
  | nil => simp [trimEnd, trimStart]
  | cons c rest =>
    have hc : isJsWhitespace c = false := dropWhile_head_false isJsWhitespace c rest cs h
    obtain ⟨ys, hys⟩ := dropWhile_append_singleton isJsWhitespace c hc rest.reverse
    simp [trimEnd, trimStart, hys, List.dropWhile, hc]

/-- Trimming is idempotent: a stored (trimmed) string is its own trimmed form. -/
theorem jsTrim_jsTrim (s : String) : jsTrim (jsTrim s) = jsTrim s := by
  simp [jsTrim, trimStart_trimEnd_trimStart, trimEnd_trimEnd]

/-! ## Reachable stores are the results of runs -/

theorem run_append (env : Env) :
    ∀ (t1 t2 : List (Ambient × Request)) (s : Store),
      run env s (t1 ++ t2) = run env (run env s t1) t2
  | [], _, _ => rfl
  | (amb, r) :: rest, t2, s => by
    simp only [List.cons_append, run]
    exact run_append env rest t2 _

theorem reachable_run (env : Env) (trace : List (Ambient × Request)) :
    Reachable env (run env Store.empty trace) := by
  induction trace using List.reverseRecOn with
  | nil => exact Reachable.empty
  | append_singleton t x ih =>
    rw [run_append]
    exact Reachable.step x.1 x.2 ih

theorem reachable_iff_run (env : Env) (s : Store) :
    Reachable env s ↔ ∃ trace, run env Store.empty trace = s := by
  constructor
  · intro h
    induction h with
    | empty => exact ⟨[], rfl⟩
    | step amb r _ ih =>
      obtain ⟨t, ht⟩ := ih
      exact ⟨t ++ [(amb, r)], by rw [run_append, ht]; rfl⟩
  · rintro ⟨t, rfl⟩
    exact reachable_run env t

/-! ## The ledger invariant -/
theorem activeCount_append (loans : List Loan) (l : Loan) (item : ObjectId) (itemType : String) :
    activeCount (loans ++ [l]) item itemType =
      activeCount loans item itemType + (if Loan.isActiveFor item itemType l then 1 else 0) := by
  unfold activeCount
  by_cases h : Loan.isActiveFor item itemType l = true <;> simp [List.filter_append, List.filter, h]

theorem activeCount_eq_zero_of_findOneActive (loans : List Loan) (item : ObjectId)
    (itemType : String) (h : Loan.findOneActive loans item itemType = none) :
    activeCount loans item itemType = 0 := by
  unfold activeCount
  unfold Loan.findOneActive at h
  rw [List.find?_eq_none] at h
  simp only [List.length_eq_zero, List.filter_eq_nil_iff]
  exact h

theorem isActiveFor_eq (item item2 : ObjectId) (itemType itemType2 : String) (l : Loan)
    (h1 : Loan.isActiveFor item itemType l = true) (h2 : Loan.isActiveFor item2 itemType2 l = true) :
    item = item2 ∧ itemType = itemType2 := by
  simp only [Loan.isActiveFor, Bool.and_eq_true, beq_iff_eq] at h1 h2
  exact ⟨h1.1.1.symm.trans h2.1.1, h1.1.2.symm.trans h2.1.2⟩

theorem activeCount_updateFirst_le (q : Loan → Bool) (u : Loan) (item : ObjectId)
    (itemType : String) (hu : u.returnDate.matchesNull = false) :
    ∀ loans : List Loan,
      activeCount (updateFirst q (fun _ => u) loans) item itemType ≤
        activeCount loans item itemType
  | [] => by simp [updateFirst]
  | l :: rest => by
    have hua : Loan.isActiveFor item itemType u = false := by simp [Loan.isActiveFor, hu]
    have ih := activeCount_updateFirst_le q u item itemType hu rest
    unfold activeCount at ih ⊢
    by_cases hq : q l = true
    · by_cases hl : Loan.isActiveFor item itemType l = true <;>
        simp [updateFirst, hq, List.filter_cons, hua, hl]
    · by_cases hl : Loan.isActiveFor item itemType l = true <;>
        simp [updateFirst, hq, List.filter_cons, hl, ih]

/-! ### What each handler does to the ledger -/

theorem register_loans (env : Env) (amb : Ambient) (s : Store) (username password : Option String) :
    (register env amb s username password).2.loans = s.loans := by
  unfold register
  repeat' (first | split | dsimp only)

theorem login_store (env : Env) (amb : Ambient) (s : Store) (username password : Option String) :
    (login env amb s username password).2 = s := by
  unfold login
  repeat' (first | split | dsimp only)

theorem adminTest_store (env : Env) (amb : Ambient) (s : Store) (authorization : Option String) :
    (adminTest env amb s authorization).2 = s := by
  unfold adminTest
  repeat' (first | split | dsimp only)

theorem createBoardGame_loans (env : Env) (amb : Ambient) (s : Store)
    (authorization title designer genre : Option String) :
    (createBoardGame env amb s authorization title designer genre).2.loans = s.loans := by
  unfold createBoardGame
  repeat' (first | split | dsimp only)

theorem getBoardGame_store (env : Env) (s : Store) (id : String) :
    (getBoardGame env s id).2 = s := by
  unfold getBoardGame
  repeat' (first | split | dsimp only)

theorem updateBoardGame_loans (env : Env) (amb : Ambient) (s : Store)
    (authorization : Option String) (id : String) (title designer genre : Option String) :
    (updateBoardGame env amb s authorization id title designer genre).2.loans = s.loans := by
  unfold updateBoardGame
  repeat' (first | split | dsimp only)

theorem deleteBoardGame_loans (env : Env) (amb : Ambient) (s : Store)
    (authorization : Option String) (id : String) :
    (deleteBoardGame env amb s authorization id).2.loans = s.loans := by
  unfold deleteBoardGame
  repeat' (first | split | dsimp only)

theorem createBook_loans (env : Env) (amb : Ambient) (s : Store)
    (authorization title author genre : Option String) :
    (createBook env amb s authorization title author genre).2.loans = s.loans := by
  unfold createBook
  repeat' (first | split | dsimp only)

theorem getBook_store (env : Env) (s : Store) (id : String) :
    (getBook env s id).2 = s := by
  unfold getBook
  repeat' (first | split | dsimp only)

theorem updateBook_loans (env : Env) (amb : Ambient) (s : Store)
    (authorization : Option String) (id : String) (title author genre : Option String) :
    (updateBook env amb s authorization id title author genre).2.loans = s.loans := by
  unfold updateBook
  repeat' (first | split | dsimp only)

theorem deleteBook_loans (env : Env) (amb : Ambient) (s : Store)
    (authorization : Option String) (id : String) :
    (deleteBook env amb s authorization id).2.loans = s.loans := by
  unfold deleteBook
  repeat' (first | split | dsimp only)

theorem listLoans_store (env : Env) (s : Store) (status borrowerName : Option String) :
    (listLoans env s status borrowerName).2 = s := by
  unfold listLoans
  repeat' (first | split | dsimp only)

/-- A borrow leaves the ledger as it was, or appends one loan without a return date for a
pair that had no active loan. -/
theorem borrow_loans (env : Env) (amb : Ambient) (s : Store)
    (authorization itemId itemType borrowerName dueDate : Option String) :
    (borrow env amb s authorization itemId itemType borrowerName dueDate).2.loans = s.loans ∨
    ∃ newLoan : Loan,
      (borrow env amb s authorization itemId itemType borrowerName dueDate).2.loans =
        s.loans ++ [newLoan] ∧
      Loan.findOneActive s.loans newLoan.item newLoan.itemTypeEnum = none ∧
      newLoan.returnDate = .undefined := by
  unfold borrow
  repeat' (first | split | dsimp only)
  all_goals first
    | exact Or.inl rfl
    | (refine Or.inr ⟨_, rfl, ?_, rfl⟩; simp only; assumption)

/-- A return leaves the ledger as it was, or gives one loan a return date. -/
theorem returnLoan_loans (env : Env) (amb : Ambient) (s : Store)
    (authorization loanId : Option String) :
    (returnLoan env amb s authorization loanId).2.loans = s.loans ∨
    ∃ (q : Loan → Bool) (updated : Loan),
      (returnLoan env amb s authorization loanId).2.loans =
        updateFirst q (fun _ => updated) s.loans ∧
      updated.returnDate.matchesNull = false := by
  unfold returnLoan
  repeat' (first | split | dsimp only)
  all_goals first
    | exact Or.inl rfl
    | exact Or.inr ⟨_, _, rfl, rfl⟩

/-- What any request does to the ledger: nothing, or one appended loan for a pair that had no
active loan, or a return date given to one loan. -/
theorem handle_loans (env : Env) (amb : Ambient) (s : Store) (r : Request) :
    (handle env amb s r).2.loans = s.loans ∨
    (∃ newLoan : Loan, (handle env amb s r).2.loans = s.loans ++ [newLoan] ∧
      Loan.findOneActive s.loans newLoan.item newLoan.itemTypeEnum = none ∧
      newLoan.returnDate = .undefined) ∨
    (∃ (authorization loanId : Option String) (q : Loan → Bool) (updated : Loan),
      r = .returnLoan authorization loanId ∧
      (handle env amb s r).2.loans = updateFirst q (fun _ => updated) s.loans ∧
      updated.returnDate.matchesNull = false) := by
  cases r with
  | register username password => exact Or.inl (register_loans env amb s username password)
  | login username password => exact Or.inl (by simp [handle, login_store])
  | test => exact Or.inl rfl
  | adminTest authorization => exact Or.inl (by simp [handle, adminTest_store])
  | listBoardGames => exact Or.inl rfl
  | createBoardGame authorization title designer genre =>
    exact Or.inl (createBoardGame_loans env amb s authorization title designer genre)
  | getBoardGame id => exact Or.inl (by simp [handle, getBoardGame_store])
  | updateBoardGame authorization id title designer genre =>
    exact Or.inl (updateBoardGame_loans env amb s authorization id title designer genre)
  | deleteBoardGame authorization id =>
    exact Or.inl (deleteBoardGame_loans env amb s authorization id)
  | listBooks => exact Or.inl rfl
  | createBook authorization title author genre =>
    exact Or.inl (createBook_loans env amb s authorization title author genre)
  | getBook id => exact Or.inl (by simp [handle, getBook_store])
  | updateBook authorization id title author genre =>
    exact Or.inl (updateBook_loans env amb s authorization id title author genre)
  | deleteBook authorization id => exact Or.inl (deleteBook_loans env amb s authorization id)
  | borrow authorization itemId itemType borrowerName dueDate =>
    rcases borrow_loans env amb s authorization itemId itemType borrowerName dueDate with h | h
    · exact Or.inl h
    · exact Or.inr (Or.inl h)
  | returnLoan authorization loanId =>
    rcases returnLoan_loans env amb s authorization loanId with h | ⟨q, updated, h⟩
    · exact Or.inl h
    · exact Or.inr (Or.inr ⟨authorization, loanId, q, updated, rfl, h⟩)
  | listLoans status borrowerName => exact Or.inl (by simp [handle, listLoans_store])

/-- Every request keeps the ledger invariant. -/
theorem handle_preserves_activeLoanUnique (env : Env) (amb : Ambient) (s : Store) (r : Request)
    (h : ActiveLoanUnique s) : ActiveLoanUnique (handle env amb s r).2 := by
  intro item itemType
  rcases handle_loans env amb s r with heq | ⟨newLoan, heq, hnone, _⟩ |
    ⟨_, _, q, updated, _, heq, hret⟩
  · rw [heq]; exact h item itemType
  · rw [heq, activeCount_append]
    by_cases hact : Loan.isActiveFor item itemType newLoan = true
    · have hpair : item = newLoan.item ∧ itemType = newLoan.itemTypeEnum := by
        simp only [Loan.isActiveFor, Bool.and_eq_true, beq_iff_eq] at hact
        exact ⟨hact.1.1.symm, hact.1.2.symm⟩
      rw [hpair.1, hpair.2, activeCount_eq_zero_of_findOneActive _ _ _ hnone]
      split <;> simp
    · simp only [hact]
      exact h item itemType
  · rw [heq]
    exact le_trans (activeCount_updateFirst_le q updated item itemType hret s.loans)
      (h item itemType)

theorem run_preserves_activeLoanUnique (env : Env) :
    ∀ (trace : List (Ambient × Request)) (s : Store),
      ActiveLoanUnique s → ActiveLoanUnique (run env s trace)
  | [], _, h => h
  | (amb, r) :: rest, s, h =>
    run_preserves_activeLoanUnique env rest _ (handle_preserves_activeLoanUnique env amb s r h)

/-- C1: in every store reached from the empty store by any sequence of API requests, whatever
the libraries and the ambient inputs do, every pair (item, itemType) has at most one loan
whose return date is null or unset. -/
theorem C1_ledger_invariant (env : Env) (trace : List (Ambient × Request)) (item : ObjectId)
    (itemType : String) :
    ((run env Store.empty trace).loans.filter
      (fun l => l.item == item && l.itemTypeEnum == itemType && l.returnDate.matchesNull)).length
      ≤ 1 :=
  run_preserves_activeLoanUnique env trace Store.empty
    (fun _ _ => by simp [activeCount, Store.empty]) item itemType

/-! ## Borrowing an item that is on loan -/

theorem findOneActive_isSome_of_mem (loans : List Loan) (item : ObjectId) (itemType : String)
    (l : Loan) (hl : l ∈ loans)
    (hact : l.item = item ∧ l.itemTypeEnum = itemType ∧ l.returnDate.matchesNull = true) :
    ∃ found, Loan.findOneActive loans item itemType = some found := by
  cases hfind : Loan.findOneActive loans item itemType with
  | some found => exact ⟨found, rfl⟩
  | none =>
    exfalso
    unfold Loan.findOneActive at hfind
    rw [List.find?_eq_none] at hfind
    exact hfind l hl (by simp [Loan.isActiveFor, hact.1, hact.2.1, hact.2.2])

theorem findOneActive_none_iff (loans : List Loan) (item : ObjectId) (itemType : String) :
    Loan.findOneActive loans item itemType = none ↔
      ∀ l ∈ loans, ¬(l.item = item ∧ l.itemTypeEnum = itemType ∧ l.returnDate.matchesNull = true) := by
  unfold Loan.findOneActive
  rw [List.find?_eq_none]
  simp [Loan.isActiveFor, and_assoc]

theorem boardGame_findById_isSome (games : List BoardGame) (id : ObjectId)
    (h : ∃ g ∈ games, g._id = id) : (BoardGame.findById games id).isSome = true := by
  obtain ⟨g, hg, hid⟩ := h
  rw [BoardGame.findById, List.find?_isSome]
  exact ⟨g, hg, by simp [hid]⟩

theorem book_findById_isSome (books : List Book) (id : ObjectId)
    (h : ∃ b ∈ books, b._id = id) : (Book.findById books id).isSome = true := by
  obtain ⟨b, hb, hid⟩ := h
  rw [Book.findById, List.find?_isSome]
  exact ⟨b, hb, by simp [hid]⟩

/-- The part of the borrow handler after the field, type and id checks, for a request whose
token verifies, whose fields are all present, whose type is valid and whose id casts. -/
theorem borrow_eq_of_valid (env : Env) (amb : Ambient) (s : Store)
    (authorization : Option String) (user : Claims)
    (itemId itemType borrowerName dueDate : String) (item : ObjectId)
    (hauth : authenticateToken env amb.now authorization = .ok user)
    (hfields : itemId ≠ "" ∧ borrowerName ≠ "" ∧ dueDate ≠ "")
    (hcast : env.castObjectId itemId = some item)
    (hitem : (itemType = "BoardGame" ∧ ∃ g ∈ s.boardGames, g._id = item) ∨
      (itemType = "Book" ∧ ∃ b ∈ s.books, b._id = item)) :
    borrow env amb s authorization (some itemId) (some itemType) (some borrowerName)
        (some dueDate) =
      match Loan.findOneActive s.loans item itemType with
      | some _ =>
        (⟨400, .message (itemType ++ " with ID " ++ itemId ++ " is already on loan.")⟩, s)
      | none =>
        match env.castDate dueDate, user.userId.bind env.castObjectId,
            decide (jsTrim borrowerName = "") with
        | some due, some loanedBy, false =>
          if s.loans.any (fun l => l._id == amb.newId) then (⟨500, .errorMessage⟩, s)
          else
            (⟨201, .loan
                { _id := amb.newId, item := item, itemTypeEnum := itemType,
                  borrowerName := jsTrim borrowerName, loanDate := amb.now, dueDate := due,
                  returnDate := .undefined, loanedByUserId := loanedBy,
                  returnedByUserId := .undefined, createdAt := amb.now, updatedAt := amb.now }⟩,
              { s with loans := s.loans ++
                [{ _id := amb.newId, item := item, itemTypeEnum := itemType,
                   borrowerName := jsTrim borrowerName, loanDate := amb.now, dueDate := due,
                   returnDate := .undefined, loanedByUserId := loanedBy,
                   returnedByUserId := .undefined, createdAt := amb.now,
                   updatedAt := amb.now }] })
        | due, loanedBy, _ =>
          (⟨400, .validationError "Loan"
              (Loan.invalidPaths (jsTrim borrowerName) due loanedBy)⟩, s) := by
  obtain ⟨h1, h3, h4⟩ := hfields
  rcases hitem with ⟨rfl, hg⟩ | ⟨rfl, hb⟩
  · have hex := boardGame_findById_isSome _ _ hg
    simp [borrow, hauth, h1, h3, h4, falsy, hcast, hex]
  · have hex := book_findById_isSome _ _ hb
    simp [borrow, hauth, h1, h3, h4, falsy, hcast, hex]

/-- C2: for a catalog item (of the requested type, with the id the request's `itemId` casts
to) and an authenticated borrow request with all fields present: if the ledger holds a loan
for that pair without a return date, the response is 400 with the "already on loan" message
and the store is unchanged; and the response is 201 only if no such loan was in the ledger. -/
theorem C2_borrow_on_loan_conflict (env : Env) (amb : Ambient) (s : Store)
    (authorization : Option String) (user : Claims)
    (itemId itemType borrowerName dueDate : String) (item : ObjectId)
    (hauth : authenticateToken env amb.now authorization = .ok user)
    (hfields : itemId ≠ "" ∧ borrowerName ≠ "" ∧ dueDate ≠ "")
    (hcast : env.castObjectId itemId = some item)
    (hitem : (itemType = "BoardGame" ∧ ∃ g ∈ s.boardGames, g._id = item) ∨
      (itemType = "Book" ∧ ∃ b ∈ s.books, b._id = item)) :
    ((∃ l ∈ s.loans, l.item = item ∧ l.itemTypeEnum = itemType ∧
        l.returnDate.matchesNull = true) →
      borrow env amb s authorization (some itemId) (some itemType) (some borrowerName)
          (some dueDate) =
        (⟨400, .message (itemType ++ " with ID " ++ itemId ++ " is already on loan.")⟩, s)) ∧
    ((borrow env amb s authorization (some itemId) (some itemType) (some borrowerName)
          (some dueDate)).1.status = 201 →
      ∀ l ∈ s.loans, ¬(l.item = item ∧ l.itemTypeEnum = itemType ∧
        l.returnDate.matchesNull = true)) := by
  rw [borrow_eq_of_valid env amb s authorization user itemId itemType borrowerName dueDate item
    hauth hfields hcast hitem]
  constructor
  · rintro ⟨l, hl, hact⟩
    obtain ⟨found, hfound⟩ := findOneActive_isSome_of_mem s.loans item itemType l hl hact
    rw [hfound]
  · intro h201
    cases hfind : Loan.findOneActive s.loans item itemType with
    | none => exact (findOneActive_none_iff s.loans item itemType).1 hfind
    | some found => rw [hfind] at h201; simp at h201

/-- C2 at a concrete request: borrowing the board game that Bob has on loan. -/
theorem C2_borrow_on_loan_conflict_witness :
    borrow sampleEnv ⟨5000, 4, 0⟩ borrowedStore aliceHeader (some "2") (some "BoardGame")
        (some "Bob") (some "2025-01-01") =
      (⟨400, .message "BoardGame with ID 2 is already on loan."⟩, borrowedStore) :=
  (C2_borrow_on_loan_conflict sampleEnv ⟨5000, 4, 0⟩ borrowedStore aliceHeader
    ⟨some "1", some "alice", some "admin", 0, 3600⟩ "2" "BoardGame" "Bob" "2025-01-01" 2
    rfl (by decide) rfl
    (Or.inl ⟨rfl, ⟨2, "Go", some "X", some "Abstract", 3000, 3000⟩, by decide, rfl⟩)).1
    ⟨bobLoan, by decide, rfl, rfl, rfl⟩

/-! ## Returning a loan -/

/-- The return handler for a request whose token verifies and whose `loanId` is present and
casts to an ObjectId. -/
theorem returnLoan_eq_of_valid (env : Env) (amb : Ambient) (s : Store)
    (authorization : Option String) (user : Claims) (loanId : String) (oid : ObjectId)
    (hauth : authenticateToken env amb.now authorization = .ok user)
    (hne : loanId ≠ "") (hcast : env.castObjectId loanId = some oid) :
    returnLoan env amb s authorization (some loanId) =
      match Loan.findById s.loans oid with
      | none => (⟨404, .message ("Loan with ID " ++ loanId ++ " not found.")⟩, s)
      | some loan =>
        if loan.returnDate.strictNeNull then
          (⟨400, .message ("Loan with ID " ++ loanId ++ " has already been returned.")⟩, s)
        else
          match (match user.userId with
            | none => some Nullable.undefined
            | some uid => (env.castObjectId uid).map Nullable.value) with
          | none => (⟨400, .validationError "Loan" ["returnedByUserId"]⟩, s)
          | some returnedBy =>
            (⟨200, .loan { loan with returnDate := .value amb.now,
                                     returnedByUserId := returnedBy,
                                     updatedAt := amb.now }⟩,
              { s with loans :=
                         updateFirst (fun l => l._id == oid)
                           (fun _ => { loan with returnDate := .value amb.now,
                                                 returnedByUserId := returnedBy,
                                                 updatedAt := amb.now }) s.loans }) := by
  simp [returnLoan, hauth, falsy, hne, hcast]

theorem authenticateToken_error_status (env : Env) (now : Date) (authorization : Option String)
    (r : Response) (h : authenticateToken env now authorization = .error r) :
    r = ⟨401, .text "Unauthorized"⟩ ∨ r = ⟨403, .text "Forbidden"⟩ := by
  unfold authenticateToken at h
  repeat' (first | split at h | dsimp only at h)
  all_goals first
    | (injection h with h; exact Or.inl h.symm)
    | (injection h with h; exact Or.inr h.symm)
    | cases h

/-- In a ledger where no loan has its `returnDate` path set, the return handler changes
nothing and never answers 200. -/
theorem returnLoan_of_allUnreturned (env : Env) (amb : Ambient) (s : Store)
    (authorization loanId : Option String) (h : AllUnreturned s) :
    (returnLoan env amb s authorization loanId).2 = s ∧
      (returnLoan env amb s authorization loanId).1.status ≠ 200 := by
  cases hauth : authenticateToken env amb.now authorization with
  | error r =>
    rcases authenticateToken_error_status env amb.now authorization r hauth with rfl | rfl <;>
      simp [returnLoan, hauth]
  | ok user =>
    by_cases hf : falsy loanId = true
    · simp [returnLoan, hauth, hf]
    · cases hcast : env.castObjectId (loanId.getD "") with
      | none => simp [returnLoan, hauth, hf, hcast]
      | some oid =>
        cases hfind : Loan.findById s.loans oid with
        | none => simp [returnLoan, hauth, hf, hcast, hfind]
        | some loan =>
          have hmem : loan ∈ s.loans := List.mem_of_find?_eq_some hfind
          have hret : loan.returnDate.strictNeNull = true := by
            rw [h loan hmem]; rfl
          simp [returnLoan, hauth, hf, hcast, hfind, hret]

/-- Every request keeps all loans without a `returnDate` path. -/
theorem handle_preserves_allUnreturned (env : Env) (amb : Ambient) (s : Store) (r : Request)
    (h : AllUnreturned s) : AllUnreturned (handle env amb s r).2 := by
  rcases handle_loans env amb s r with heq | ⟨newLoan, heq, _, hnew⟩ |
    ⟨authorization, loanId, _, _, hr, _, _⟩
  · intro l hl
    rw [heq] at hl
    exact h l hl
  · intro l hl
    rw [heq, List.mem_append, List.mem_singleton] at hl
    rcases hl with hl | rfl
    · exact h l hl
    · exact hnew
  · subst hr
    intro l hl
    have hsame : (handle env amb s (.returnLoan authorization loanId)).2 = s :=
      (returnLoan_of_allUnreturned env amb s authorization loanId h).1
    rw [hsame] at hl
    exact h l hl

theorem run_allUnreturned (env : Env) :
    ∀ (trace : List (Ambient × Request)) (s : Store),
      AllUnreturned s → AllUnreturned (run env s trace)
  | [], _, h => h
  | (amb, r) :: rest, s, h =>
    run_allUnreturned env rest _ (handle_preserves_allUnreturned env amb s r h)

/-- The return handler never marks a loan as returned: in every store reached from the empty
store, every return request leaves the store as it is and answers something else than 200. -/
theorem returnLoan_never_succeeds (env : Env) (trace : List (Ambient × Request))
    (amb : Ambient) (authorization loanId : Option String) :
    (returnLoan env amb (run env Store.empty trace) authorization loanId).2 =
        run env Store.empty trace ∧
      (returnLoan env amb (run env Store.empty trace) authorization loanId).1.status ≠ 200 :=
  returnLoan_of_allUnreturned env amb _ authorization loanId
    (run_allUnreturned env trace Store.empty (fun _ hl => by simp [Store.empty] at hl))

/-- C3 (the code departs from the claim): the return request for a loan created by a
successful borrow and not yet returned, with a valid token, is answered 400 "has already been
returned" and the store keeps the loan without return date, where the claim expects 200 with
`returnDate` and `returnedByUserId` set.  The unset `returnDate` reads as `undefined`, and
the handler tests `loan.returnDate !== null`. -/
theorem C3_return_rejects_unreturned_loan (env : Env) (trace : List (Ambient × Request))
    (amb : Ambient) (authorization : Option String) (user : Claims) (loanId : String)
    (loan : Loan)
    (hloan : loan ∈ (run env Store.empty trace).loans)
    (hauth : authenticateToken env amb.now authorization = .ok user)
    (hne : loanId ≠ "") (hcast : env.castObjectId loanId = some loan._id) :
    loan.returnDate = .undefined ∧
    returnLoan env amb (run env Store.empty trace) authorization (some loanId) =
      (⟨400, .message ("Loan with ID " ++ loanId ++ " has already been returned.")⟩,
        run env Store.empty trace) := by
  have hall : AllUnreturned (run env Store.empty trace) :=
    run_allUnreturned env trace Store.empty (fun _ hl => by simp [Store.empty] at hl)
  refine ⟨hall loan hloan, ?_⟩
  rw [returnLoan_eq_of_valid env amb _ authorization user loanId loan._id hauth hne hcast]
  cases hfind : Loan.findById (run env Store.empty trace).loans loan._id with
  | none =>
    exfalso
    unfold Loan.findById at hfind
    rw [List.find?_eq_none] at hfind
    exact hfind loan hloan (by simp)
  | some found =>
    have hret : found.returnDate.strictNeNull = true := by
      rw [hall found (List.mem_of_find?_eq_some hfind)]; rfl
    simp [hret]

/-- C3 at the failing input: the scenario of the specification up to the borrow, then the
return of that loan by the user who lent it. -/
theorem C3_return_rejects_unreturned_loan_witness :
    bobLoan.returnDate = .undefined ∧
    returnLoan sampleEnv ⟨6000, 4, 0⟩ (run sampleEnv Store.empty borrowedTrace) aliceHeader
        (some "3") =
      (⟨400, .message "Loan with ID 3 has already been returned."⟩,
        run sampleEnv Store.empty borrowedTrace) :=
  C3_return_rejects_unreturned_loan sampleEnv borrowedTrace ⟨6000, 4, 0⟩ aliceHeader
    ⟨some "1", some "alice", some "admin", 0, 3600⟩ "3" bobLoan (by decide) rfl (by decide) rfl

/-- C4: with a valid token, (1) a return naming a loan whose return date is set answers 400
"has already been returned" and leaves the whole store, that loan included, as it was;
(2) a return whose `loanId` is missing or empty answers 400 "Missing loanId"; (3) a return
whose `loanId` casts to an ObjectId that no loan of the ledger has answers 404.  In (1) the
ledger's `_id` index is what makes the id name that loan. -/
theorem C4_return_errors (env : Env) (amb : Ambient) (s : Store)
    (authorization : Option String) (user : Claims)
    (hauth : authenticateToken env amb.now authorization = .ok user) :
    (∀ (loanId : String) (loan : Loan) (d : Date),
      loanId ≠ "" → env.castObjectId loanId = some loan._id → loan ∈ s.loans →
      (∀ l ∈ s.loans, l._id = loan._id → l = loan) → loan.returnDate = .value d →
      returnLoan env amb s authorization (some loanId) =
        (⟨400, .message ("Loan with ID " ++ loanId ++ " has already been returned.")⟩, s)) ∧
    (returnLoan env amb s authorization none = (⟨400, .message "Missing loanId"⟩, s) ∧
      returnLoan env amb s authorization (some "") = (⟨400, .message "Missing loanId"⟩, s)) ∧
    (∀ (loanId : String) (oid : ObjectId),
      loanId ≠ "" → env.castObjectId loanId = some oid → (∀ l ∈ s.loans, l._id ≠ oid) →
      returnLoan env amb s authorization (some loanId) =
        (⟨404, .message ("Loan with ID " ++ loanId ++ " not found.")⟩, s)) := by
  refine ⟨?_, ⟨?_, ?_⟩, ?_⟩
  · intro loanId loan d hne hcast hmem huniq hret
    rw [returnLoan_eq_of_valid env amb s authorization user loanId loan._id hauth hne hcast]
    cases hfind : Loan.findById s.loans loan._id with
    | none =>
      exfalso
      unfold Loan.findById at hfind
      rw [List.find?_eq_none] at hfind
      exact hfind loan hmem (by simp)
    | some found =>
      have hfid : found._id = loan._id := by
        have := List.find?_some hfind
        simpa using this
      have hfound : found = loan := huniq found (List.mem_of_find?_eq_some hfind) hfid
      simp [hfound, hret, Nullable.strictNeNull]
  · simp [returnLoan, hauth, falsy]
  · simp [returnLoan, hauth, falsy]
  · intro loanId oid hne hcast hnone
    rw [returnLoan_eq_of_valid env amb s authorization user loanId oid hauth hne hcast]
    have hfind : Loan.findById s.loans oid = none := by
      unfold Loan.findById
      rw [List.find?_eq_none]
      intro l hl
      simpa using hnone l hl
    simp [hfind]

/-- C4 at concrete requests: a second return, a missing `loanId`, an unknown `loanId`. -/
theorem C4_return_errors_witness :
    returnLoan sampleEnv ⟨6000, 4, 0⟩ returnedStore aliceHeader (some "3") =
      (⟨400, .message "Loan with ID 3 has already been returned."⟩, returnedStore) ∧
    returnLoan sampleEnv ⟨6000, 4, 0⟩ returnedStore aliceHeader none =
      (⟨400, .message "Missing loanId"⟩, returnedStore) ∧
    returnLoan sampleEnv ⟨6000, 4, 0⟩ returnedStore aliceHeader (some "9") =
      (⟨404, .message "Loan with ID 9 not found."⟩, returnedStore) :=
  have h := C4_return_errors sampleEnv ⟨6000, 4, 0⟩ returnedStore aliceHeader
    ⟨some "1", some "alice", some "admin", 0, 3600⟩ rfl
  ⟨h.1 "3" bobLoanReturned 5000 (by decide) rfl (List.mem_singleton.2 rfl) (by decide) rfl,
    h.2.1.1, h.2.2 "9" 9 (by decide) rfl (by decide)⟩

/-! ## Registration -/

/-- What a register request does: either the response is not 201 and the store is unchanged,
or one user is appended and returned without its hash. -/
theorem register_cases (env : Env) (amb : Ambient) (s : Store) (username password : Option String) :
    ((register env amb s username password).1.status ≠ 201 ∧
      (register env amb s username password).2 = s) ∨
    ∃ (u p : String) (user : User),
      username = some u ∧ password = some p ∧ u ≠ "" ∧ p ≠ "" ∧ 6 ≤ jsLength p ∧
      User.findOne s.users u = none ∧
      user = { _id := amb.newId, username := jsTrim u,
               passwordHash := env.bcryptHash p amb.salt,
               role := if s.users.length = 0 then "admin" else "user",
               createdAt := amb.now, updatedAt := amb.now } ∧
      user.username ≠ "" ∧ user.passwordHash ≠ "" ∧
      register env amb s username password =
        (⟨201, .registered (omitPasswordHash user.toObject)⟩,
          { s with users := s.users ++ [user] }) := by
  cases username with
  | none => exact Or.inl (by simp [register, falsy])
  | some u =>
    cases password with
    | none => exact Or.inl (by simp [register, falsy])
    | some p =>
      by_cases hu : u = ""
      · exact Or.inl (by simp [register, falsy, hu])
      by_cases hp : p = ""
      · exact Or.inl (by simp [register, falsy, hp])
      by_cases hlen : jsLength p < 6
      · exact Or.inl (by simp [register, falsy, hu, hp, hlen])
      cases hfind : User.findOne s.users u with
      | some found => exact Or.inl (by simp [register, falsy, hu, hp, hlen, hfind])
      | none =>
        by_cases hname : jsTrim u = ""
        · exact Or.inl (by simp [register, falsy, hu, hp, hlen, hfind, hname])
        by_cases hhash : env.bcryptHash p amb.salt = ""
        · exact Or.inl (by simp [register, falsy, hu, hp, hlen, hfind, hname, hhash])
        by_cases hdup : ∃ x ∈ s.users, x._id = amb.newId ∨ x.username = jsTrim u
        · exact Or.inl (by simp [register, falsy, hu, hp, hlen, hfind, hname, hhash, hdup])
        · refine Or.inr ⟨u, p, _, rfl, rfl, hu, hp, Nat.le_of_not_lt hlen, hfind, rfl, hname,
            hhash, ?_⟩
          simp [register, falsy, hu, hp, hlen, hfind, hname, hhash, hdup]

/-- C5: a register request answered 201 appends exactly one user to the user collection and
returns it; the role of that user, stored and returned, is "admin" when the collection was
empty before the request and "user" when it already held a user. -/
theorem C5_register_role (env : Env) (amb : Ambient) (s : Store)
    (username password : Option String)
    (h201 : (register env amb s username password).1.status = 201) :
    ∃ user : User,
      (register env amb s username password).2.users = s.users ++ [user] ∧
      (register env amb s username password).1.body =
        .registered (omitPasswordHash user.toObject) ∧
      JsonObject.get (omitPasswordHash user.toObject) "role" = some (.str user.role) ∧
      (s.users = [] → user.role = "admin") ∧
      (s.users ≠ [] → user.role = "user") := by
  rcases register_cases env amb s username password with ⟨hne, _⟩ |
    ⟨u, p, user, _, _, _, _, _, _, huser, _, _, heq⟩
  · exact absurd h201 hne
  · refine ⟨user, by rw [heq], by rw [heq], rfl, ?_, ?_⟩
    · intro hempty
      simp [huser, hempty]
    · intro hnonempty
      simp [huser, hnonempty]

/-- C5 at concrete requests: the first registration, and one in a store holding a user. -/
theorem C5_register_role_witness :
    (∃ user : User,
      (register sampleEnv ⟨1000, 1, 7⟩ Store.empty (some "alice") (some "secret1")).2.users =
        Store.empty.users ++ [user] ∧
      (register sampleEnv ⟨1000, 1, 7⟩ Store.empty (some "alice") (some "secret1")).1.body =
        .registered (omitPasswordHash user.toObject) ∧
      JsonObject.get (omitPasswordHash user.toObject) "role" = some (.str user.role) ∧
      (Store.empty.users = [] → user.role = "admin") ∧
      (Store.empty.users ≠ [] → user.role = "user")) ∧
    (∃ user : User,
      (register sampleEnv ⟨7000, 5, 7⟩ borrowedStore (some "bob") (some "secret2")).2.users =
        borrowedStore.users ++ [user] ∧
      (register sampleEnv ⟨7000, 5, 7⟩ borrowedStore (some "bob") (some "secret2")).1.body =
        .registered (omitPasswordHash user.toObject) ∧
      JsonObject.get (omitPasswordHash user.toObject) "role" = some (.str user.role) ∧
      (borrowedStore.users = [] → user.role = "admin") ∧
      (borrowedStore.users ≠ [] → user.role = "user")) :=
  ⟨C5_register_role sampleEnv ⟨1000, 1, 7⟩ Store.empty (some "alice") (some "secret1")
      (by decide),
    C5_register_role sampleEnv ⟨7000, 5, 7⟩ borrowedStore (some "bob") (some "secret2")
      (by decide)⟩

/-- C6, as stated, fails: a request without a username whose password has three characters
is answered with "Username and password are required", not with the password-length
message the claim gives for every request with a password of fewer than 6 characters. -/
theorem C6_short_password_counterexample :
    jsLength "abc" < 6 ∧
    register sampleEnv ⟨1000, 1, 7⟩ Store.empty none (some "abc") =
      (⟨400, .message "Username and password are required"⟩, Store.empty) ∧
    (register sampleEnv ⟨1000, 1, 7⟩ Store.empty none (some "abc")).1 ≠
      ⟨400, .message "Password must be at least 6 characters long"⟩ := by
  decide

/-- C6, amended: a register request whose username or password is missing or empty is
answered 400 "Username and password are required"; a request whose username and password
are both non-empty and whose password has fewer than 6 characters (UTF-16 code units) is
answered 400 "Password must be at least 6 characters long"; in both cases the store is
unchanged, so no user is created. -/
theorem C6_register_validation (env : Env) (amb : Ambient) (s : Store)
    (username password : Option String) :
    (falsy username = true ∨ falsy password = true →
      register env amb s username password =
        (⟨400, .message "Username and password are required"⟩, s)) ∧
    (∀ u p : String, username = some u → password = some p → u ≠ "" → p ≠ "" →
      jsLength p < 6 →
      register env amb s username password =
        (⟨400, .message "Password must be at least 6 characters long"⟩, s)) := by
  constructor
  · intro h
    have : (falsy username || falsy password) = true := by
      rcases h with h | h <;> simp [h]
    simp [register, this]
  · intro u p hu hp hune hpne hlen
    subst hu hp
    simp [register, falsy, hune, hpne, hlen]

/-- C6 (amended) at concrete requests: an empty username, a password of three characters. -/
theorem C6_register_validation_witness :
    register sampleEnv ⟨1000, 1, 7⟩ borrowedStore (some "") (some "secret1") =
      (⟨400, .message "Username and password are required"⟩, borrowedStore) ∧
    register sampleEnv ⟨1000, 1, 7⟩ borrowedStore (some "carol") (some "abc") =
      (⟨400, .message "Password must be at least 6 characters long"⟩, borrowedStore) :=
  ⟨(C6_register_validation sampleEnv ⟨1000, 1, 7⟩ borrowedStore (some "") (some "secret1")).1
      (Or.inl rfl),
    (C6_register_validation sampleEnv ⟨1000, 1, 7⟩ borrowedStore (some "carol") (some "abc")).2
      "carol" "abc" rfl rfl (by decide) (by decide) (by decide)⟩

/-! ## The user collection -/

theorem createBoardGame_users (env : Env) (amb : Ambient) (s : Store)
    (authorization title designer genre : Option String) :
    (createBoardGame env amb s authorization title designer genre).2.users = s.users := by
  unfold createBoardGame
  repeat' (first | split | dsimp only)

theorem updateBoardGame_users (env : Env) (amb : Ambient) (s : Store)
    (authorization : Option String) (id : String) (title designer genre : Option String) :
    (updateBoardGame env amb s authorization id title designer genre).2.users = s.users := by
  unfold updateBoardGame
  repeat' (first | split | dsimp only)

theorem deleteBoardGame_users (env : Env) (amb : Ambient) (s : Store)
    (authorization : Option String) (id : String) :
    (deleteBoardGame env amb s authorization id).2.users = s.users := by
  unfold deleteBoardGame
  repeat' (first | split | dsimp only)

theorem createBook_users (env : Env) (amb : Ambient) (s : Store)
    (authorization title author genre : Option String) :
    (createBook env amb s authorization title author genre).2.users = s.users := by
  unfold createBook
  repeat' (first | split | dsimp only)

theorem updateBook_users (env : Env) (amb : Ambient) (s : Store)
    (authorization : Option String) (id : String) (title author genre : Option String) :
    (updateBook env amb s authorization id title author genre).2.users = s.users := by
  unfold updateBook
  repeat' (first | split | dsimp only)

theorem deleteBook_users (env : Env) (amb : Ambient) (s : Store)
    (authorization : Option String) (id : String) :
    (deleteBook env amb s authorization id).2.users = s.users := by
  unfold deleteBook
  repeat' (first | split | dsimp only)

theorem borrow_users (env : Env) (amb : Ambient) (s : Store)
    (authorization itemId itemType borrowerName dueDate : Option String) :
    (borrow env amb s authorization itemId itemType borrowerName dueDate).2.users = s.users := by
  unfold borrow
  repeat' (first | split | dsimp only)

theorem returnLoan_users (env : Env) (amb : Ambient) (s : Store)
    (authorization loanId : Option String) :
    (returnLoan env amb s authorization loanId).2.users = s.users := by
  unfold returnLoan
  repeat' (first | split | dsimp only)

/-- Only a register request answered 201 changes the user collection, by appending the new
user; nothing removes or rewrites a stored user. -/
theorem handle_users (env : Env) (amb : Ambient) (s : Store) (r : Request) :
    (handle env amb s r).2.users = s.users ∨
    ∃ (u p : String) (user : User),
      r = .register (some u) (some p) ∧ 6 ≤ jsLength p ∧ User.findOne s.users u = none ∧
      user.username = jsTrim u ∧ user.username ≠ "" ∧
      user.passwordHash = env.bcryptHash p amb.salt ∧
      user.role = (if s.users.length = 0 then "admin" else "user") ∧
      (handle env amb s r).2.users = s.users ++ [user] := by
  cases r with
  | register username password =>
    rcases register_cases env amb s username password with ⟨_, hsame⟩ |
      ⟨u, p, user, hu, hp, _, _, hlen, hfind, huser, hname, _, heq⟩
    · exact Or.inl (by simp [handle, hsame])
    · subst hu hp
      exact Or.inr ⟨u, p, user, rfl, hlen, hfind, by rw [huser], hname, by rw [huser],
        by rw [huser], by simp [handle, heq]⟩
  | login username password => exact Or.inl (by simp [handle, login_store])
  | test => exact Or.inl rfl
  | adminTest authorization => exact Or.inl (by simp [handle, adminTest_store])
  | listBoardGames => exact Or.inl rfl
  | createBoardGame authorization title designer genre =>
    exact Or.inl (createBoardGame_users env amb s authorization title designer genre)
  | getBoardGame id => exact Or.inl (by simp [handle, getBoardGame_store])
  | updateBoardGame authorization id title designer genre =>
    exact Or.inl (updateBoardGame_users env amb s authorization id title designer genre)
  | deleteBoardGame authorization id =>
    exact Or.inl (deleteBoardGame_users env amb s authorization id)
  | listBooks => exact Or.inl rfl
  | createBook authorization title author genre =>
    exact Or.inl (createBook_users env amb s authorization title author genre)
  | getBook id => exact Or.inl (by simp [handle, getBook_store])
  | updateBook authorization id title author genre =>
    exact Or.inl (updateBook_users env amb s authorization id title author genre)
  | deleteBook authorization id => exact Or.inl (deleteBook_users env amb s authorization id)
  | borrow authorization itemId itemType borrowerName dueDate =>
    exact Or.inl (borrow_users env amb s authorization itemId itemType borrowerName dueDate)
  | returnLoan authorization loanId =>
    exact Or.inl (returnLoan_users env amb s authorization loanId)
  | listLoans status borrowerName => exact Or.inl (by simp [handle, listLoans_store])

theorem findOne_eq_none_iff (users : List User) (username : String) :
    User.findOne users username = none ↔ ∀ x ∈ users, x.username ≠ jsTrim username := by
  unfold User.findOne
  rw [List.find?_eq_none]
  simp

/-- Every request keeps the stored usernames non-empty, trimmed and distinct. -/
theorem handle_preserves_usersWellFormed (env : Env) (amb : Ambient) (s : Store) (r : Request)
    (h : UsersWellFormed s) : UsersWellFormed (handle env amb s r).2 := by
  rcases handle_users env amb s r with heq | ⟨u, p, user, _, _, hfind, hname, hne, _, _, heq⟩
  · unfold UsersWellFormed
    rw [heq]
    exact h
  · unfold UsersWellFormed
    rw [heq]
    constructor
    · intro x hx
      rw [List.mem_append, List.mem_singleton] at hx
      rcases hx with hx | rfl
      · exact h.1 x hx
      · exact ⟨hne, by rw [hname, jsTrim_jsTrim]⟩
    · rw [List.map_append, List.nodup_append]
      refine ⟨h.2, by simp, ?_⟩
      intro a ha hb
      simp only [List.map_cons, List.map_nil, List.mem_singleton] at hb
      rw [List.mem_map] at ha
      obtain ⟨x, hx, hxa⟩ := ha
      exact (findOne_eq_none_iff s.users u).1 hfind x hx (by rw [hxa, hb, hname])

theorem run_usersWellFormed (env : Env) :
    ∀ (trace : List (Ambient × Request)) (s : Store),
      UsersWellFormed s → UsersWellFormed (run env s trace)
  | [], _, h => h
  | (amb, r) :: rest, s, h =>
    run_usersWellFormed env rest _ (handle_preserves_usersWellFormed env amb s r h)

theorem usersWellFormed_reached (env : Env) (trace : List (Ambient × Request)) :
    UsersWellFormed (run env Store.empty trace) :=
  run_usersWellFormed env trace Store.empty ⟨fun _ hu => by simp [Store.empty] at hu,
    by simp [Store.empty]⟩

/-- Every stored hash of a reachable store is the bcrypt hash of the password, of at least 6
characters, that the user was registered with. -/
theorem stored_hash_reached (env : Env) (trace : List (Ambient × Request)) :
    ∀ user ∈ (run env Store.empty trace).users,
      ∃ (p : String) (salt : Nat), 6 ≤ jsLength p ∧ user.passwordHash = env.bcryptHash p salt := by
  induction trace using List.reverseRecOn with
  | nil => intro user hu; simp [run, Store.empty] at hu
  | append_singleton t x ih =>
    intro user hu
    rw [run_append] at hu
    simp only [run] at hu
    rcases handle_users env x.1 (run env Store.empty t) x.2 with heq |
      ⟨u, p, created, _, hlen, _, _, _, hhash, _, heq⟩
    · rw [heq] at hu
      exact ih user hu
    · rw [heq, List.mem_append, List.mem_singleton] at hu
      rcases hu with hu | rfl
      · exact ih user hu
      · exact ⟨p, x.1.salt, hlen, hhash⟩

/-- In a well-formed user collection, looking a stored user up by its username finds it. -/
theorem findOne_of_mem (users : List User) (user : User)
    (hnodup : (users.map (fun u => u.username)).Nodup) (hmem : user ∈ users)
    (htrim : jsTrim user.username = user.username) :
    User.findOne users user.username = some user := by
  unfold User.findOne
  rw [htrim]
  induction users with
  | nil => simp at hmem
  | cons x rest ih =>
    rw [List.map_cons, List.nodup_cons] at hnodup
    rcases List.mem_cons.1 hmem with rfl | hrest
    · simp
    · have hne : x.username ≠ user.username := by
        intro heq
        exact hnodup.1 (by rw [heq]; exact List.mem_map.2 ⟨user, hrest, rfl⟩)
      rw [List.find?_cons_of_neg _ (by simpa using hne)]
      exact ih hnodup.2 hrest

theorem ne_empty_of_jsLength (p : String) (h : 6 ≤ jsLength p) : p ≠ "" := by
  rintro rfl
  simp [jsLength] at h

/-- C7: in every store reached from the empty store, a register request naming the username
of a stored user, with any password of at least 6 characters, is answered 400 "Username
already taken" and leaves the store unchanged, so the stored user keeps its hash and role. -/
theorem C7_register_duplicate_username (env : Env) (trace : List (Ambient × Request))
    (amb : Ambient) (user : User) (password : String)
    (hmem : user ∈ (run env Store.empty trace).users) (hpw : 6 ≤ jsLength password) :
    register env amb (run env Store.empty trace) (some user.username) (some password) =
      (⟨400, .message "Username already taken"⟩, run env Store.empty trace) := by
  have hwf := usersWellFormed_reached env trace
  have hfind := findOne_of_mem _ user hwf.2 hmem (hwf.1 user hmem).2
  have hlen : ¬ jsLength password < 6 := Nat.not_lt.2 hpw
  simp [register, falsy, (hwf.1 user hmem).1, ne_empty_of_jsLength password hpw, hlen, hfind]

/-- C7 at a concrete request: registering "alice" a second time. -/
theorem C7_register_duplicate_username_witness :
    alice ∈ (run sampleEnv Store.empty borrowedTrace).users ∧
    register sampleEnv ⟨7000, 5, 3⟩ (run sampleEnv Store.empty borrowedTrace) (some "alice")
        (some "password456") =
      (⟨400, .message "Username already taken"⟩, run sampleEnv Store.empty borrowedTrace) :=
  ⟨by decide,
    C7_register_duplicate_username sampleEnv borrowedTrace ⟨7000, 5, 3⟩ alice "password456"
      (by decide) (by decide)⟩

/-! ## Login -/

/-- C8: in every store reached from the empty store, take two login requests with both
fields present (non-empty): one whose username, after the schema's trim, is the username of
no stored user, and one naming a stored user with a password that `bcrypt.compare` rejects.
Both are answered with the same response, 401 with the message "Invalid credentials",
which carries no token, and the store is unchanged. -/
theorem C8_login_uniform_failure (env : Env) (trace : List (Ambient × Request))
    (amb1 amb2 : Ambient) (username1 password1 password2 : String) (user : User)
    (hpresent : username1 ≠ "" ∧ password1 ≠ "" ∧ password2 ≠ "")
    (hunknown : ∀ x ∈ (run env Store.empty trace).users, x.username ≠ jsTrim username1)
    (hmem : user ∈ (run env Store.empty trace).users)
    (hmismatch : env.bcryptCompare password2 user.passwordHash = false) :
    login env amb1 (run env Store.empty trace) (some username1) (some password1) =
      (⟨401, .message "Invalid credentials"⟩, run env Store.empty trace) ∧
    login env amb2 (run env Store.empty trace) (some user.username) (some password2) =
      (⟨401, .message "Invalid credentials"⟩, run env Store.empty trace) ∧
    (login env amb1 (run env Store.empty trace) (some username1) (some password1)).1 =
      (login env amb2 (run env Store.empty trace) (some user.username) (some password2)).1 := by
  have hwf := usersWellFormed_reached env trace
  have hfind := findOne_of_mem _ user hwf.2 hmem (hwf.1 user hmem).2
  have hnone := (findOne_eq_none_iff _ username1).2 hunknown
  have h1 : login env amb1 (run env Store.empty trace) (some username1) (some password1) =
      (⟨401, .message "Invalid credentials"⟩, run env Store.empty trace) := by
    simp [login, falsy, hpresent.1, hpresent.2.1, hnone]
  have h2 : login env amb2 (run env Store.empty trace) (some user.username) (some password2) =
      (⟨401, .message "Invalid credentials"⟩, run env Store.empty trace) := by
    simp [login, falsy, (hwf.1 user hmem).1, hpresent.2.2, hfind, hmismatch]
  exact ⟨h1, h2, by rw [h1, h2]⟩

/-- C8 at concrete requests: an unknown username, and alice with a wrong password. -/
theorem C8_login_uniform_failure_witness :
    login sampleEnv ⟨8000, 0, 0⟩ (run sampleEnv Store.empty borrowedTrace) (some "mallory")
        (some "secret1") =
      (⟨401, .message "Invalid credentials"⟩, run sampleEnv Store.empty borrowedTrace) ∧
    login sampleEnv ⟨9000, 0, 0⟩ (run sampleEnv Store.empty borrowedTrace) (some alice.username)
        (some "wrong-password") =
      (⟨401, .message "Invalid credentials"⟩, run sampleEnv Store.empty borrowedTrace) ∧
    (login sampleEnv ⟨8000, 0, 0⟩ (run sampleEnv Store.empty borrowedTrace) (some "mallory")
        (some "secret1")).1 =
      (login sampleEnv ⟨9000, 0, 0⟩ (run sampleEnv Store.empty borrowedTrace)
        (some alice.username) (some "wrong-password")).1 :=
  C8_login_uniform_failure sampleEnv borrowedTrace ⟨8000, 0, 0⟩ ⟨9000, 0, 0⟩ "mallory" "secret1"
    "wrong-password" alice (by decide) (by decide) (by decide) (by decide)

/-- The login handler for a request with both fields present. -/
theorem login_eq_of_present (env : Env) (amb : Ambient) (s : Store) (username password : String)
    (hu : username ≠ "") (hp : password ≠ "") :
    login env amb s (some username) (some password) =
      match User.findOne s.users username with
      | none => (⟨401, .message "Invalid credentials"⟩, s)
      | some user =>
        if env.bcryptCompare password user.passwordHash then
          (⟨200, .loggedIn
              (env.jwtSign
                { userId := some (env.objectIdToString user._id),
                  username := some user.username, role := some user.role,
                  iat := amb.now / 1000, exp := amb.now / 1000 + 3600 } env.JWT_SECRET)
              (omitPasswordHash user.toObject)⟩, s)
        else (⟨401, .message "Invalid credentials"⟩, s) := by
  simp only [login, falsy, hu, hp, decide_False, Bool.or_self, Bool.false_eq_true, if_false,
    Option.getD_some]
  cases User.findOne s.users username with
  | none => rfl
  | some user => cases h : env.bcryptCompare password user.passwordHash <;> simp [h]

/-- C9: in every store reached from the empty store, for a stored user and a password of which
the stored hash is the bcrypt hash (the password the user was registered with), login with
the stored username and that password answers 200 with the token signed with `JWT_SECRET`
over the payload `userId` (the user's id as a string), `username`, `role`, issued at the
current second and expiring 3600 seconds later; the store is unchanged.  A login whose
username or password is missing or empty answers 400 "Username and password are required".
The assumption on the library is that `bcrypt.compare` accepts a password against
`bcrypt.hash` of it. -/
theorem C9_login_success (env : Env) (trace : List (Ambient × Request)) (amb : Ambient)
    (user : User) (password : String) (salt : Nat)
    (hbcrypt : ∀ (p : String) (n : Nat), env.bcryptCompare p (env.bcryptHash p n) = true)
    (hmem : user ∈ (run env Store.empty trace).users)
    (hhash : user.passwordHash = env.bcryptHash password salt)
    (hpw : password ≠ "") :
    login env amb (run env Store.empty trace) (some user.username) (some password) =
      (⟨200, .loggedIn
          (env.jwtSign
            { userId := some (env.objectIdToString user._id), username := some user.username,
              role := some user.role, iat := amb.now / 1000, exp := amb.now / 1000 + 3600 }
            env.JWT_SECRET)
          (omitPasswordHash user.toObject)⟩, run env Store.empty trace) ∧
    (∀ username' password' : Option String,
      falsy username' = true ∨ falsy password' = true →
      login env amb (run env Store.empty trace) username' password' =
        (⟨400, .message "Username and password are required"⟩, run env Store.empty trace)) := by
  have hwf := usersWellFormed_reached env trace
  have hfind := findOne_of_mem _ user hwf.2 hmem (hwf.1 user hmem).2
  constructor
  · rw [login_eq_of_present env amb _ user.username password (hwf.1 user hmem).1 hpw, hfind]
    simp [hhash, hbcrypt]
  · intro username' password' h
    have : (falsy username' || falsy password') = true := by
      rcases h with h | h <;> simp [h]
    simp [login, this]

theorem sampleEnv_compare_hash (p : String) (n : Nat) :
    sampleEnv.bcryptCompare p (sampleEnv.bcryptHash p n) = true := by
  simp [sampleEnv]

/-- C9 at a concrete request: alice logs in with the password she registered with. -/
theorem C9_login_success_witness :
    login sampleEnv ⟨2000, 0, 0⟩ (run sampleEnv Store.empty borrowedTrace) (some "alice")
        (some "secret1") =
      (⟨200, .loggedIn "dev-secret.1.alice.admin"
          [("_id", .oid 1), ("username", .str "alice"), ("role", .str "admin"),
           ("createdAt", .date 1000), ("updatedAt", .date 1000), ("__v", .num 0)]⟩,
        run sampleEnv Store.empty borrowedTrace) :=
  (C9_login_success sampleEnv borrowedTrace ⟨2000, 0, 0⟩ alice "secret1" 7
    sampleEnv_compare_hash (by decide) (by decide) (by decide)).1

/-! ## The password hash stays on the server -/

theorem get_omitPasswordHash_passwordHash (obj : JsonObject) :
    JsonObject.get (omitPasswordHash obj) "passwordHash" = none := by
  simp [JsonObject.get, omitPasswordHash]

theorem get_omitPasswordHash_of_ne (obj : JsonObject) (k : String) (hk : k ≠ "passwordHash") :
    JsonObject.get (omitPasswordHash obj) k = JsonObject.get obj k := by
  unfold JsonObject.get omitPasswordHash
  rw [List.find?_filter]
  congr 2
  funext kv
  by_cases h : kv.1 = k
  · simp [h, hk]
  · simp [h]

/-- C10: for a register request answered 201 and for a login request answered 200, the user
object of the response has no `passwordHash` key and agrees with the stored user record on
every other key, while the stored record has a `passwordHash` that is not the plaintext
password of the request.  The assumptions on the library are that no string is a bcrypt hash
of itself: `bcrypt.hash(p)` is never `p`, and `bcrypt.compare(p, p)` is false. -/
theorem C10_password_hash_not_returned (env : Env) (amb : Ambient) (s : Store)
    (username password : Option String)
    (hhash : ∀ (p : String) (n : Nat), env.bcryptHash p n ≠ p)
    (hself : ∀ p : String, env.bcryptCompare p p = false) :
    ((register env amb s username password).1.status = 201 →
      ∃ (user : User) (view : JsonObject),
        (register env amb s username password).1.body = .registered view ∧
        (register env amb s username password).2.users = s.users ++ [user] ∧
        JsonObject.get view "passwordHash" = none ∧
        (∀ k : String, k ≠ "passwordHash" →
          JsonObject.get view k = JsonObject.get user.toObject k) ∧
        JsonObject.get user.toObject "passwordHash" = some (.str user.passwordHash) ∧
        some user.passwordHash ≠ password) ∧
    ((login env amb s username password).1.status = 200 →
      ∃ (user : User) (token : String) (view : JsonObject),
        (login env amb s username password).1.body = .loggedIn token view ∧
        user ∈ s.users ∧ (login env amb s username password).2 = s ∧
        JsonObject.get view "passwordHash" = none ∧
        (∀ k : String, k ≠ "passwordHash" →
          JsonObject.get view k = JsonObject.get user.toObject k) ∧
        JsonObject.get user.toObject "passwordHash" = some (.str user.passwordHash) ∧
        some user.passwordHash ≠ password) := by
  constructor
  · intro h201
    rcases register_cases env amb s username password with ⟨hne, _⟩ |
      ⟨u, p, user, _, hp, _, _, _, _, huser, _, _, heq⟩
    · exact absurd h201 hne
    · refine ⟨user, omitPasswordHash user.toObject, by rw [heq], by rw [heq],
        get_omitPasswordHash_passwordHash _, fun k hk => get_omitPasswordHash_of_ne _ k hk,
        rfl, ?_⟩
      rw [hp, huser]
      intro hcontra
      exact hhash p amb.salt (Option.some.inj hcontra)
  · intro h200
    cases username with
    | none => simp [login, falsy] at h200
    | some u =>
      cases password with
      | none => simp [login, falsy] at h200
      | some p =>
        by_cases hu : u = ""
        · simp [login, falsy, hu] at h200
        by_cases hp : p = ""
        · simp [login, falsy, hp] at h200
        rw [login_eq_of_present env amb s u p hu hp] at h200 ⊢
        cases hfind : User.findOne s.users u with
        | none => rw [hfind] at h200; simp at h200
        | some user =>
          rw [hfind] at h200
          simp only [] at h200 ⊢
          by_cases hmatch : env.bcryptCompare p user.passwordHash = true
          · refine ⟨user,
              env.jwtSign
                { userId := some (env.objectIdToString user._id),
                  username := some user.username, role := some user.role,
                  iat := amb.now / 1000, exp := amb.now / 1000 + 3600 } env.JWT_SECRET,
              omitPasswordHash user.toObject, by simp [hmatch],
              List.mem_of_find?_eq_some hfind, by simp [hmatch],
              get_omitPasswordHash_passwordHash _,
              fun k hk => get_omitPasswordHash_of_ne _ k hk, rfl, ?_⟩
            intro hcontra
            have hpp : user.passwordHash = p := Option.some.inj hcontra
            rw [hpp, hself p] at hmatch
            exact Bool.false_ne_true hmatch
          · simp [hmatch] at h200

theorem sampleEnv_hash_ne (p : String) (n : Nat) : sampleEnv.bcryptHash p n ≠ p := by
  intro h
  have hdata := congrArg (fun t : String => t.data.length) h
  simp [sampleEnv] at hdata
  omega

theorem sampleEnv_compare_self (p : String) : sampleEnv.bcryptCompare p p = false := by
  simp only [sampleEnv]
  split
  · rename_i c rest hrest
    rw [hrest]
    apply beq_false_of_ne
    intro h
    have hlen := congrArg List.length h
    simp at hlen
    omega
  · rfl

/-- C10 at concrete requests: alice's registration and her login. -/
theorem C10_password_hash_not_returned_witness :
    ((register sampleEnv ⟨1000, 1, 7⟩ Store.empty (some "alice") (some "secret1")).1.status =
      201 ∧
    ∃ (user : User) (view : JsonObject),
      (register sampleEnv ⟨1000, 1, 7⟩ Store.empty (some "alice") (some "secret1")).1.body =
        .registered view ∧
      (register sampleEnv ⟨1000, 1, 7⟩ Store.empty (some "alice") (some "secret1")).2.users =
        Store.empty.users ++ [user] ∧
      JsonObject.get view "passwordHash" = none ∧
      (∀ k : String, k ≠ "passwordHash" →
        JsonObject.get view k = JsonObject.get user.toObject k) ∧
      JsonObject.get user.toObject "passwordHash" = some (.str user.passwordHash) ∧
      some user.passwordHash ≠ some "secret1") ∧
    ((login sampleEnv ⟨2000, 0, 0⟩ borrowedStore (some "alice") (some "secret1")).1.status =
      200 ∧
    ∃ (user : User) (token : String) (view : JsonObject),
      (login sampleEnv ⟨2000, 0, 0⟩ borrowedStore (some "alice") (some "secret1")).1.body =
        .loggedIn token view ∧
      user ∈ borrowedStore.users ∧
      (login sampleEnv ⟨2000, 0, 0⟩ borrowedStore (some "alice") (some "secret1")).2 =
        borrowedStore ∧
      JsonObject.get view "passwordHash" = none ∧
      (∀ k : String, k ≠ "passwordHash" →
        JsonObject.get view k = JsonObject.get user.toObject k) ∧
      JsonObject.get user.toObject "passwordHash" = some (.str user.passwordHash) ∧
      some user.passwordHash ≠ some "secret1") :=
  ⟨⟨by decide,
      (C10_password_hash_not_returned sampleEnv ⟨1000, 1, 7⟩ Store.empty (some "alice")
        (some "secret1") sampleEnv_hash_ne sampleEnv_compare_self).1 (by decide)⟩,
    ⟨by decide,
      (C10_password_hash_not_returned sampleEnv ⟨2000, 0, 0⟩ borrowedStore (some "alice")
        (some "secret1") sampleEnv_hash_ne sampleEnv_compare_self).2 (by decide)⟩⟩

/-! ## Token verification -/

theorem authenticateToken_eq (env : Env) (now : Date) (authorization : Option String) :
    authenticateToken env now authorization =
      match requestToken authorization with
      | none => .error ⟨401, .text "Unauthorized"⟩
      | some t =>
        match env.jwtVerify t env.JWT_SECRET now with
        | none => .error ⟨403, .text "Forbidden"⟩
        | some decodedToken => .ok decodedToken := rfl

/-- A request to a protected route whose token is not verified is answered by the middleware,
and the store is unchanged. -/
theorem handle_of_authenticateToken_error (env : Env) (amb : Ambient) (s : Store) (r : Request)
    (authorization : Option String) (resp : Response)
    (hprot : r.protectedHeader = some authorization)
    (herr : authenticateToken env amb.now authorization = .error resp) :
    handle env amb s r = (resp, s) := by
  cases r <;> simp only [Request.protectedHeader, Option.some.injEq] at hprot <;> try cases hprot
  all_goals simp [handle, adminTest, createBoardGame, updateBoardGame, deleteBoardGame,
    createBook, updateBook, deleteBook, borrow, returnLoan, herr]

/-- C11 (the code departs from the claim): for a request to a route behind
`authenticateToken`, the response is 401 when no token is taken from the request, but when a
token is taken and `jwt.verify` rejects it (bad signature, expired, malformed) the response
is 403 "Forbidden", where the claim and the route documentation expect 401.  In both cases the
store is unchanged. -/
theorem C11_unverified_token_status (env : Env) (amb : Ambient) (s : Store) (r : Request)
    (authorization : Option String)
    (hprot : r.protectedHeader = some authorization) :
    (requestToken authorization = none →
      handle env amb s r = (⟨401, .text "Unauthorized"⟩, s)) ∧
    (∀ token : String, requestToken authorization = some token →
      env.jwtVerify token env.JWT_SECRET amb.now = none →
      handle env amb s r = (⟨403, .text "Forbidden"⟩, s)) := by
  constructor
  · intro hnone
    apply handle_of_authenticateToken_error env amb s r authorization _ hprot
    rw [authenticateToken_eq, hnone]
  · intro token htoken hverify
    apply handle_of_authenticateToken_error env amb s r authorization _ hprot
    rw [authenticateToken_eq, htoken]
    simp only [hverify]

/-- C11 at the failing input: creating a board game with a token that is not signed with the
server's secret is answered 403; without a header the answer is 401. -/
theorem C11_unverified_token_status_witness :
    handle sampleEnv ⟨9000, 6, 0⟩ catalogStore
        (.createBoardGame (some "Bearer forged.1.alice.admin") (some "Chess") none none) =
      (⟨403, .text "Forbidden"⟩, catalogStore) ∧
    handle sampleEnv ⟨9000, 6, 0⟩ catalogStore (.createBoardGame none (some "Chess") none none) =
      (⟨401, .text "Unauthorized"⟩, catalogStore) :=
  ⟨(C11_unverified_token_status sampleEnv ⟨9000, 6, 0⟩ catalogStore
      (.createBoardGame (some "Bearer forged.1.alice.admin") (some "Chess") none none)
      (some "Bearer forged.1.alice.admin") rfl).2 "forged.1.alice.admin" (by decide) (by decide),
    (C11_unverified_token_status sampleEnv ⟨9000, 6, 0⟩ catalogStore
      (.createBoardGame none (some "Chess") none none) none rfl).1 rfl⟩

/-! ## Role check -/

theorem authorizeRole_gate_aux (rolesArray : List String) (user : Claims) :
    (authorizeRole rolesArray user = none ↔
      ∃ role, user.role = some role ∧ role ≠ "" ∧ role ∈ rolesArray) ∧
    ((∀ role, user.role = some role → role ≠ "" → role ∉ rolesArray) →
      authorizeRole rolesArray user = some ⟨403, .message "Forbidden: Insufficient role"⟩) := by
  unfold authorizeRole
  cases hrole : user.role with
  | none => simp [falsy]
  | some role =>
    by_cases hempty : role = ""
    · simp [falsy, hempty]
    · by_cases hmem : role ∈ rolesArray
      · simp [falsy, hempty, hmem]
      · simp [falsy, hempty, hmem]

/-- C12: `authorizeRole(rolesArray)` is a function of the identity and the list alone (it has
no store or request among its arguments and results).  It responds 403 with the message
"Forbidden: Insufficient role" exactly when the role of the identity is missing (absent or
the empty string, what `!req.user.role` tests) or is not in the list, and it passes control to
the next handler, writing no response, exactly when the role is present and in the list. -/
theorem C12_authorizeRole_gate (rolesArray : List String) (user : Claims) :
    (authorizeRole rolesArray user = some ⟨403, .message "Forbidden: Insufficient role"⟩ ↔
      (falsy user.role = true ∨ ∀ role, user.role = some role → role ∉ rolesArray)) ∧
    (authorizeRole rolesArray user = none ↔
      ∃ role, user.role = some role ∧ role ≠ "" ∧ role ∈ rolesArray) := by
  unfold authorizeRole
  cases hrole : user.role with
  | none => simp [falsy]
  | some role =>
    by_cases hempty : role = ""
    · simp [falsy, hempty]
    · by_cases hmem : role ∈ rolesArray
      · simp [falsy, hempty, hmem]
      · simp [falsy, hempty, hmem]

/-- C12 at concrete identities: an admin passes the gate `['admin']`, a user does not. -/
theorem C12_authorizeRole_gate_witness :
    authorizeRole ["admin"] aliceClaims = none ∧
    authorizeRole ["admin"] bobClaims = some ⟨403, .message "Forbidden: Insufficient role"⟩ :=
  ⟨(C12_authorizeRole_gate ["admin"] aliceClaims).2.2 ⟨"admin", rfl, by decide, by decide⟩,
    (C12_authorizeRole_gate ["admin"] bobClaims).1.2
      (Or.inr (fun role hrole => by
        have : role = "user" := (Option.some.inj hrole).symm
        rw [this]; decide))⟩

theorem authorizeRole_admin_of_ne (user : Claims) (hrole : user.role ≠ some "admin") :
    authorizeRole ["admin"] user = some ⟨403, .message "Forbidden: Insufficient role"⟩ := by
  refine (authorizeRole_gate_aux ["admin"] user).2 ?_
  intro role hr hne hmem
  simp only [List.mem_singleton] at hmem
  exact hrole (by rw [hr, hmem])

/-- C13: with a token that verifies and whose role is not "admin" (a missing role included),
PUT and DELETE on `/boardgames/:id` and `/books/:id` answer 403 "Forbidden: Insufficient
role" and leave the whole store unchanged, whatever the id and the body. -/
theorem C13_non_admin_forbidden (env : Env) (amb : Ambient) (s : Store)
    (authorization : Option String) (user : Claims) (id : String)
    (title designer author genre : Option String)
    (hauth : authenticateToken env amb.now authorization = .ok user)
    (hrole : user.role ≠ some "admin") :
    updateBoardGame env amb s authorization id title designer genre =
      (⟨403, .message "Forbidden: Insufficient role"⟩, s) ∧
    deleteBoardGame env amb s authorization id =
      (⟨403, .message "Forbidden: Insufficient role"⟩, s) ∧
    updateBook env amb s authorization id title author genre =
      (⟨403, .message "Forbidden: Insufficient role"⟩, s) ∧
    deleteBook env amb s authorization id =
      (⟨403, .message "Forbidden: Insufficient role"⟩, s) := by
  have hgate := authorizeRole_admin_of_ne user hrole
  refine ⟨?_, ?_, ?_, ?_⟩
  · simp only [updateBoardGame, hauth, hgate]
  · simp only [deleteBoardGame, hauth, hgate]
  · simp only [updateBook, hauth, hgate]
  · simp only [deleteBook, hauth, hgate]

/-- C13 at concrete requests: a user with role "user" on the existing board game and book. -/
theorem C13_non_admin_forbidden_witness :
    updateBoardGame sampleEnv ⟨9000, 6, 0⟩ catalogStore bobHeader "2" (some "Chess") none none =
      (⟨403, .message "Forbidden: Insufficient role"⟩, catalogStore) ∧
    deleteBoardGame sampleEnv ⟨9000, 6, 0⟩ catalogStore bobHeader "2" =
      (⟨403, .message "Forbidden: Insufficient role"⟩, catalogStore) ∧
    updateBook sampleEnv ⟨9000, 6, 0⟩ catalogStore bobHeader "2" (some "Chess") none none =
      (⟨403, .message "Forbidden: Insufficient role"⟩, catalogStore) ∧
    deleteBook sampleEnv ⟨9000, 6, 0⟩ catalogStore bobHeader "2" =
      (⟨403, .message "Forbidden: Insufficient role"⟩, catalogStore) :=
  C13_non_admin_forbidden sampleEnv ⟨9000, 6, 0⟩ catalogStore bobHeader bobClaims "2"
    (some "Chess") none none none rfl (by decide)

/-- C14: a request to a route behind `authenticateToken` (create, update, delete of board
games and books, borrow, return, and the admin test route) that has no `Authorization` header
is answered 401 by the middleware, so the route body does not run and the store is unchanged.
More generally, whenever the middleware does not verify a token, its response (401 or 403)
is the response of the request and the store is unchanged. -/
theorem C14_no_token_no_change (env : Env) (amb : Ambient) (s : Store) (r : Request)
    (authorization : Option String)
    (hprot : r.protectedHeader = some authorization) :
    (authorization = none → handle env amb s r = (⟨401, .text "Unauthorized"⟩, s)) ∧
    (∀ resp : Response, authenticateToken env amb.now authorization = .error resp →
      handle env amb s r = (resp, s) ∧ (resp.status = 401 ∨ resp.status = 403)) := by
  constructor
  · intro hnone
    subst hnone
    exact handle_of_authenticateToken_error env amb s r none _ hprot rfl
  · intro resp herr
    refine ⟨handle_of_authenticateToken_error env amb s r authorization resp hprot herr, ?_⟩
    rcases authenticateToken_error_status env amb.now authorization resp herr with rfl | rfl
    · exact Or.inl rfl
    · exact Or.inr rfl

/-- C14 at concrete requests: a borrow and a delete without `Authorization` header. -/
theorem C14_no_token_no_change_witness :
    handle sampleEnv ⟨9000, 6, 0⟩ catalogStore
        (.borrow none (some "2") (some "BoardGame") (some "Bob") (some "2025-01-01")) =
      (⟨401, .text "Unauthorized"⟩, catalogStore) ∧
    handle sampleEnv ⟨9000, 6, 0⟩ catalogStore (.deleteBook none "4") =
      (⟨401, .text "Unauthorized"⟩, catalogStore) :=
  ⟨(C14_no_token_no_change sampleEnv ⟨9000, 6, 0⟩ catalogStore
      (.borrow none (some "2") (some "BoardGame") (some "Bob") (some "2025-01-01")) none rfl).1
      rfl,
    (C14_no_token_no_change sampleEnv ⟨9000, 6, 0⟩ catalogStore (.deleteBook none "4") none
      rfl).1 rfl⟩

/-! ## The catalog -/

theorem mem_updateFirst {α : Type} (p : α → Bool) (y : α) :
    ∀ (l : List α) (x : α), x ∈ updateFirst p (fun _ => y) l → x ∈ l ∨ x = y
  | [], x, h => by simp [updateFirst] at h
  | a :: l, x, h => by
    by_cases hp : p a = true
    · simp only [updateFirst, hp, if_true, List.mem_cons] at h
      rcases h with h | h
      · exact Or.inr h
      · exact Or.inl (List.mem_cons_of_mem _ h)
    · simp only [updateFirst, hp, List.mem_cons, Bool.false_eq_true, if_false] at h
      rcases h with h | h
      · exact Or.inl (by rw [h]; exact List.mem_cons_self _ _)
      · rcases mem_updateFirst p y l x h with h | h
        · exact Or.inl (List.mem_cons_of_mem _ h)
        · exact Or.inr h

theorem map_updateFirst_key {α : Type} (key : α → ObjectId) (oid : ObjectId) (y : α)
    (hy : key y = oid) :
    ∀ l : List α, (updateFirst (fun a => key a == oid) (fun _ => y) l).map key = l.map key
  | [] => rfl
  | a :: l => by
    by_cases hp : key a = oid
    · simp [updateFirst, hp, hy]
    · simp [updateFirst, hp, map_updateFirst_key key oid y hy l]

theorem removeFirst_sublist {α : Type} (p : α → Bool) :
    ∀ l : List α, (removeFirst p l).Sublist l
  | [] => List.Sublist.slnil
  | a :: l => by
    by_cases hp : p a = true
    · simp only [removeFirst, hp, if_true]
      exact List.sublist_cons_self a l
    · simp only [removeFirst, hp, Bool.false_eq_true, if_false]
      exact (removeFirst_sublist p l).cons₂ a

/-- With distinct keys, removing the first element with the key of `x` erases `x`. -/
theorem removeFirst_eq_erase {α : Type} [DecidableEq α] (key : α → ObjectId) (x : α) :
    ∀ l : List α, (l.map key).Nodup → x ∈ l →
      removeFirst (fun a => key a == key x) l = l.erase x
  | [], _, h => by simp at h
  | a :: l, hnodup, hmem => by
    rw [List.map_cons, List.nodup_cons] at hnodup
    by_cases ha : a = x
    · subst ha
      simp [removeFirst]
    · have hx : x ∈ l := by
        rcases List.mem_cons.1 hmem with h | h
        · exact absurd h.symm ha
        · exact h
      have hkey : key a ≠ key x := by
        intro heq
        exact hnodup.1 (by rw [heq]; exact List.mem_map_of_mem key hx)
      have hne : (a == x) = false := beq_false_of_ne ha
      simp only [removeFirst, beq_iff_eq, hkey, if_false, List.erase_cons, hne]
      rw [removeFirst_eq_erase key x l hnodup.2 hx]
      simp

/-- With distinct keys, looking up the key of a stored element finds that element. -/
theorem find?_key_of_mem {α : Type} (key : α → ObjectId) (x : α) :
    ∀ l : List α, (l.map key).Nodup → x ∈ l → l.find? (fun a => key a == key x) = some x
  | [], _, h => by simp at h
  | a :: l, hnodup, hmem => by
    rw [List.map_cons, List.nodup_cons] at hnodup
    rcases List.mem_cons.1 hmem with rfl | hx
    · simp
    · have hkey : key a ≠ key x := by
        intro heq
        exact hnodup.1 (by rw [heq]; exact List.mem_map_of_mem key hx)
      rw [List.find?_cons_of_neg _ (by simpa using hkey)]
      exact find?_key_of_mem key x l hnodup.2 hx

theorem find?_key_eq_none {α : Type} (key : α → ObjectId) (oid : ObjectId) (l : List α) :
    l.find? (fun a => key a == oid) = none ↔ ∀ a ∈ l, key a ≠ oid := by
  rw [List.find?_eq_none]
  simp

theorem authorizeRole_eq_some (rolesArray : List String) (user : Claims) (r : Response)
    (h : authorizeRole rolesArray user = some r) :
    r = ⟨403, .message "Forbidden: Insufficient role"⟩ := by
  unfold authorizeRole at h
  split at h
  · exact (Option.some.inj h).symm
  · cases h

theorem authorizeRole_admin (rolesArray : List String) (user : Claims)
    (hrole : user.role = some "admin") (hmem : "admin" ∈ rolesArray) :
    authorizeRole rolesArray user = none :=
  (authorizeRole_gate_aux rolesArray user).1.2 ⟨"admin", hrole, by decide, hmem⟩

/-- The create handler of board games once the token is verified and the role accepted. -/
theorem createBoardGame_eq_of_authorized (env : Env) (amb : Ambient) (s : Store)
    (authorization : Option String) (user : Claims) (title designer genre : Option String)
    (hauth : authenticateToken env amb.now authorization = .ok user)
    (hgate : authorizeRole ["admin", "user"] user = none) :
    createBoardGame env amb s authorization title designer genre =
      if falsy title then (⟨400, .message "Title is required for board game"⟩, s)
      else if jsTrim (title.getD "") = "" then (⟨400, .validationError "BoardGame" ["title"]⟩, s)
      else if s.boardGames.any (fun g => g._id == amb.newId) then (⟨500, .errorMessage⟩, s)
      else
        (⟨201, .boardGame
            { _id := amb.newId, title := jsTrim (title.getD ""), designer := designer.map jsTrim,
              genre := genre.map jsTrim, createdAt := amb.now, updatedAt := amb.now }⟩,
          { s with boardGames := s.boardGames ++
              [{ _id := amb.newId, title := jsTrim (title.getD ""),
                 designer := designer.map jsTrim, genre := genre.map jsTrim,
                 createdAt := amb.now, updatedAt := amb.now }] }) := by
  simp only [createBoardGame, hauth, hgate]

/-- The create handler of books once the token is verified and the role accepted. -/
theorem createBook_eq_of_authorized (env : Env) (amb : Ambient) (s : Store)
    (authorization : Option String) (user : Claims) (title author genre : Option String)
    (hauth : authenticateToken env amb.now authorization = .ok user)
    (hgate : authorizeRole ["admin", "user"] user = none) :
    createBook env amb s authorization title author genre =
      if falsy title || falsy author then
        (⟨400, .message "Title and Author are required for book"⟩, s)
      else if (if jsTrim (title.getD "") = "" then ["title"] else []) ++
          (if jsTrim (author.getD "") = "" then ["author"] else []) ≠ [] then
        (⟨400, .validationError "Book"
          ((if jsTrim (title.getD "") = "" then ["title"] else []) ++
            (if jsTrim (author.getD "") = "" then ["author"] else []))⟩, s)
      else if s.books.any (fun b => b._id == amb.newId) then (⟨500, .errorMessage⟩, s)
      else
        (⟨201, .book
            { _id := amb.newId, title := jsTrim (title.getD ""),
              author := jsTrim (author.getD ""), genre := genre.map jsTrim,
              createdAt := amb.now, updatedAt := amb.now }⟩,
          { s with books := s.books ++
              [{ _id := amb.newId, title := jsTrim (title.getD ""),
                 author := jsTrim (author.getD ""), genre := genre.map jsTrim,
                 createdAt := amb.now, updatedAt := amb.now }] }) := by
  simp only [createBook, hauth, hgate]

/-- What a create request for a board game does: either the response is not 201 and the
store is unchanged, or one board game with a fresh id and a non-empty title is appended and
returned. -/
theorem createBoardGame_cases (env : Env) (amb : Ambient) (s : Store)
    (authorization title designer genre : Option String) :
    ((createBoardGame env amb s authorization title designer genre).1.status ≠ 201 ∧
      (createBoardGame env amb s authorization title designer genre).2 = s) ∨
    ∃ g : BoardGame,
      g = { _id := amb.newId, title := jsTrim (title.getD ""), designer := designer.map jsTrim,
            genre := genre.map jsTrim, createdAt := amb.now, updatedAt := amb.now } ∧
      g.title ≠ "" ∧ (∀ x ∈ s.boardGames, x._id ≠ g._id) ∧
      createBoardGame env amb s authorization title designer genre =
        (⟨201, .boardGame g⟩, { s with boardGames := s.boardGames ++ [g] }) := by
  cases hauth : authenticateToken env amb.now authorization with
  | error r =>
    rcases authenticateToken_error_status env amb.now authorization r hauth with rfl | rfl <;>
      exact Or.inl (by simp [createBoardGame, hauth])
  | ok user =>
    cases hgate : authorizeRole ["admin", "user"] user with
    | some r =>
      have hr := authorizeRole_eq_some _ _ _ hgate
      subst hr
      exact Or.inl (by simp [createBoardGame, hauth, hgate])
    | none =>
      rw [createBoardGame_eq_of_authorized env amb s authorization user title designer genre
        hauth hgate]
      by_cases h1 : falsy title = true
      · exact Or.inl (by simp [h1])
      by_cases h2 : jsTrim (title.getD "") = ""
      · exact Or.inl (by simp [h1, h2])
      by_cases h3 : (s.boardGames.any (fun g => g._id == amb.newId)) = true
      · exact Or.inl (by simp only [h1, h2, h3]; simp)
      · refine Or.inr ⟨_, rfl, h2, ?_, by simp only [h1, h2, h3]; simp⟩
        intro x hx heq
        exact h3 (List.any_eq_true.2 ⟨x, hx, by simpa using heq⟩)

/-- What a create request for a book does: either the response is not 201 and the store is
unchanged, or one book with a fresh id, a non-empty title and a non-empty author is appended
and returned. -/
theorem createBook_cases (env : Env) (amb : Ambient) (s : Store)
    (authorization title author genre : Option String) :
    ((createBook env amb s authorization title author genre).1.status ≠ 201 ∧
      (createBook env amb s authorization title author genre).2 = s) ∨
    ∃ b : Book,
      b = { _id := amb.newId, title := jsTrim (title.getD ""),
            author := jsTrim (author.getD ""), genre := genre.map jsTrim,
            createdAt := amb.now, updatedAt := amb.now } ∧
      b.title ≠ "" ∧ b.author ≠ "" ∧ (∀ x ∈ s.books, x._id ≠ b._id) ∧
      createBook env amb s authorization title author genre =
        (⟨201, .book b⟩, { s with books := s.books ++ [b] }) := by
  cases hauth : authenticateToken env amb.now authorization with
  | error r =>
    rcases authenticateToken_error_status env amb.now authorization r hauth with rfl | rfl <;>
      exact Or.inl (by simp [createBook, hauth])
  | ok user =>
    cases hgate : authorizeRole ["admin", "user"] user with
    | some r =>
      have hr := authorizeRole_eq_some _ _ _ hgate
      subst hr
      exact Or.inl (by simp [createBook, hauth, hgate])
    | none =>
      rw [createBook_eq_of_authorized env amb s authorization user title author genre
        hauth hgate]
      by_cases h1 : (falsy title || falsy author) = true
      · exact Or.inl (by simp only [h1]; simp)
      by_cases h2 : jsTrim (title.getD "") = ""
      · exact Or.inl (by simp only [h1, h2]; simp)
      by_cases h2' : jsTrim (author.getD "") = ""
      · exact Or.inl (by simp only [h1, h2, h2']; simp)
      by_cases h3 : (s.books.any (fun b => b._id == amb.newId)) = true
      · exact Or.inl (by simp only [h1, h2, h2', h3]; simp)
      · refine Or.inr ⟨_, rfl, h2, h2', ?_, by simp only [h1, h2, h2', h3]; simp⟩
        intro x hx heq
        exact h3 (List.any_eq_true.2 ⟨x, hx, by simpa using heq⟩)

theorem blank_of_falsy (field : Option String) (h : falsy field = true) : blank field := by
  unfold blank
  cases field with
  | none => decide
  | some t =>
    have ht : t = "" := by simpa [falsy] using h
    subst ht
    decide

theorem findById_append_new {α : Type} (key : α → ObjectId) (l : List α) (x : α)
    (hfresh : ∀ a ∈ l, key a ≠ key x) :
    (l ++ [x]).find? (fun a => key a == key x) = some x := by
  rw [List.find?_append, (find?_key_eq_none key (key x) l).2 hfresh]
  simp

/-- C15: when a POST of a board game or of a book is answered 201, the response carries the
created item, and a GET with the id of that item (the string form of its `_id`), served on
the store the POST left, is answered 200 with the same item: same id, title, designer or
author, genre.  The assumption on the library is that the string form of the new ObjectId
casts back to it. -/
theorem C15_catalog_round_trip (env : Env) (amb : Ambient) (s : Store)
    (authorization title designer author genre : Option String)
    (hround : env.castObjectId (env.objectIdToString amb.newId) = some amb.newId) :
    ((createBoardGame env amb s authorization title designer genre).1.status = 201 →
      ∃ g : BoardGame,
        (createBoardGame env amb s authorization title designer genre).1.body = .boardGame g ∧
        getBoardGame env (createBoardGame env amb s authorization title designer genre).2
            (env.objectIdToString g._id) =
          (⟨200, .boardGame g⟩,
            (createBoardGame env amb s authorization title designer genre).2)) ∧
    ((createBook env amb s authorization title author genre).1.status = 201 →
      ∃ b : Book,
        (createBook env amb s authorization title author genre).1.body = .book b ∧
        getBook env (createBook env amb s authorization title author genre).2
            (env.objectIdToString b._id) =
          (⟨200, .book b⟩, (createBook env amb s authorization title author genre).2)) := by
  constructor
  · intro h201
    rcases createBoardGame_cases env amb s authorization title designer genre with ⟨hne, _⟩ |
      ⟨g, hg, _, hfresh, heq⟩
    · exact absurd h201 hne
    · have hid : g._id = amb.newId := by rw [hg]
      refine ⟨g, by rw [heq], ?_⟩
      rw [heq]
      simp only [getBoardGame, hid, hround, BoardGame.findById]
      have hfound : (s.boardGames ++ [g]).find? (fun x => x._id == amb.newId) = some g := by
        simpa [hid] using findById_append_new (fun x : BoardGame => x._id) s.boardGames g hfresh
      rw [hfound]
  · intro h201
    rcases createBook_cases env amb s authorization title author genre with ⟨hne, _⟩ |
      ⟨b, hb, _, _, hfresh, heq⟩
    · exact absurd h201 hne
    · have hid : b._id = amb.newId := by rw [hb]
      refine ⟨b, by rw [heq], ?_⟩
      rw [heq]
      simp only [getBook, hid, hround, Book.findById]
      have hfound : (s.books ++ [b]).find? (fun x => x._id == amb.newId) = some b := by
        simpa [hid] using findById_append_new (fun x : Book => x._id) s.books b hfresh
      rw [hfound]

/-- C15 at concrete requests: alice creates the board game "Chess" and the book "Emma", and
each is read back by its id. -/
theorem C15_catalog_round_trip_witness :
    (∃ g : BoardGame,
      (createBoardGame sampleEnv ⟨9000, 6, 0⟩ catalogStore aliceHeader (some " Chess ")
        (some "unknown") none).1.body = .boardGame g ∧
      getBoardGame sampleEnv
          (createBoardGame sampleEnv ⟨9000, 6, 0⟩ catalogStore aliceHeader (some " Chess ")
            (some "unknown") none).2 (sampleEnv.objectIdToString g._id) =
        (⟨200, .boardGame g⟩,
          (createBoardGame sampleEnv ⟨9000, 6, 0⟩ catalogStore aliceHeader (some " Chess ")
            (some "unknown") none).2)) ∧
    (∃ b : Book,
      (createBook sampleEnv ⟨9000, 6, 0⟩ catalogStore aliceHeader (some "Emma")
        (some "Jane Austen") none).1.body = .book b ∧
      getBook sampleEnv
          (createBook sampleEnv ⟨9000, 6, 0⟩ catalogStore aliceHeader (some "Emma")
            (some "Jane Austen") none).2 (sampleEnv.objectIdToString b._id) =
        (⟨200, .book b⟩,
          (createBook sampleEnv ⟨9000, 6, 0⟩ catalogStore aliceHeader (some "Emma")
            (some "Jane Austen") none).2)) :=
  ⟨(C15_catalog_round_trip sampleEnv ⟨9000, 6, 0⟩ catalogStore aliceHeader (some " Chess ")
      (some "unknown") (some "Jane Austen") none (by decide)).1 (by decide),
    (C15_catalog_round_trip sampleEnv ⟨9000, 6, 0⟩ catalogStore aliceHeader (some "Emma")
      (some "unknown") (some "Jane Austen") none (by decide)).2 (by decide)⟩

theorem authorizeRole_admin_or_user (user : Claims)
    (hrole : user.role = some "admin" ∨ user.role = some "user") :
    authorizeRole ["admin", "user"] user = none := by
  rcases hrole with h | h
  · exact (authorizeRole_gate_aux _ user).1.2 ⟨"admin", h, by decide, by decide⟩
  · exact (authorizeRole_gate_aux _ user).1.2 ⟨"user", h, by decide, by decide⟩

theorem not_falsy_of_not_blank (field : Option String) (h : ¬ blank field) :
    falsy field = false := by
  cases hf : falsy field with
  | false => rfl
  | true => exact absurd (blank_of_falsy field hf) h

/-- C16: for a create request whose token verifies with role "admin" or "user": a board game
whose title is blank (missing, empty or white space only) is answered 400, with the message
"Title is required for board game" when the title is missing or empty and with the
validation error on the path `title` otherwise, and the store is unchanged; a book whose
title or author is blank is answered 400, with the message "Title and Author are required
for book" when one of them is missing or empty and with the validation error on the blank
paths otherwise, and the store is unchanged; a request that supplies them is answered 201,
given that the id generated for the new document is not the id of a stored one. -/
theorem C16_create_validation (env : Env) (amb : Ambient) (s : Store)
    (authorization : Option String) (user : Claims)
    (title designer author genre : Option String)
    (hauth : authenticateToken env amb.now authorization = .ok user)
    (hrole : user.role = some "admin" ∨ user.role = some "user") :
    (blank title →
      (createBoardGame env amb s authorization title designer genre).1 =
        ⟨400, if falsy title then .message "Title is required for board game"
          else .validationError "BoardGame" ["title"]⟩ ∧
      (createBoardGame env amb s authorization title designer genre).2 = s) ∧
    (¬ blank title → (∀ g ∈ s.boardGames, g._id ≠ amb.newId) →
      (createBoardGame env amb s authorization title designer genre).1.status = 201) ∧
    (blank title ∨ blank author →
      (createBook env amb s authorization title author genre).1 =
        ⟨400, if falsy title || falsy author then
            .message "Title and Author are required for book"
          else .validationError "Book"
            ((if blank title then ["title"] else []) ++
              (if blank author then ["author"] else []))⟩ ∧
      (createBook env amb s authorization title author genre).2 = s) ∧
    (¬ blank title → ¬ blank author → (∀ b ∈ s.books, b._id ≠ amb.newId) →
      (createBook env amb s authorization title author genre).1.status = 201) := by
  have hgate := authorizeRole_admin_or_user user hrole
  rw [createBoardGame_eq_of_authorized env amb s authorization user title designer genre hauth
    hgate, createBook_eq_of_authorized env amb s authorization user title author genre hauth
    hgate]
  refine ⟨?_, ?_, ?_, ?_⟩
  · intro hblank
    by_cases hf : falsy title = true
    · simp [hf]
    · have hb : jsTrim (title.getD "") = "" := hblank
      simp [hf, hb]
  · intro hnb hfresh
    have hf := not_falsy_of_not_blank title hnb
    have hb : ¬ jsTrim (title.getD "") = "" := hnb
    have hany : (s.boardGames.any (fun g => g._id == amb.newId)) = false := by
      rw [Bool.eq_false_iff]
      intro hany
      obtain ⟨x, hx, hxid⟩ := List.any_eq_true.1 hany
      exact hfresh x hx (by simpa using hxid)
    simp [hf, hb, hany]
  · intro hblank
    by_cases hf : (falsy title || falsy author) = true
    · simp only [hf, if_true, and_self]
    · have hne : (if jsTrim (title.getD "") = "" then ["title"] else []) ++
          (if jsTrim (author.getD "") = "" then ["author"] else []) ≠ [] := by
        rcases hblank with h | h
        · have hb : jsTrim (title.getD "") = "" := h
          simp [hb]
        · have hb : jsTrim (author.getD "") = "" := h
          simp [hb]
      simp only [if_neg hf, if_pos hne, blank, and_self]
  · intro hnt hna hfresh
    have hft := not_falsy_of_not_blank title hnt
    have hfa := not_falsy_of_not_blank author hna
    have hbt : ¬ jsTrim (title.getD "") = "" := hnt
    have hba : ¬ jsTrim (author.getD "") = "" := hna
    have hany : (s.books.any (fun b => b._id == amb.newId)) = false := by
      rw [Bool.eq_false_iff]
      intro hany
      obtain ⟨x, hx, hxid⟩ := List.any_eq_true.1 hany
      exact hfresh x hx (by simpa using hxid)
    simp [hft, hfa, hbt, hba, hany]

/-- C16 at concrete requests of alice on `catalogStore`: a board game without title, one
with a title of white space, a book with a blank author, and two complete items. -/
theorem C16_create_validation_witness :
    createBoardGame sampleEnv ⟨9000, 6, 0⟩ catalogStore aliceHeader none (some "X") none =
      (⟨400, .message "Title is required for board game"⟩, catalogStore) ∧
    createBoardGame sampleEnv ⟨9000, 6, 0⟩ catalogStore aliceHeader (some "  ") none none =
      (⟨400, .validationError "BoardGame" ["title"]⟩, catalogStore) ∧
    createBook sampleEnv ⟨9000, 6, 0⟩ catalogStore aliceHeader (some "Emma") (some " ") none =
      (⟨400, .validationError "Book" ["author"]⟩, catalogStore) ∧
    (createBoardGame sampleEnv ⟨9000, 6, 0⟩ catalogStore aliceHeader (some "Chess") none
      none).1.status = 201 ∧
    (createBook sampleEnv ⟨9000, 6, 0⟩ catalogStore aliceHeader (some "Emma")
      (some "Jane Austen") none).1.status = 201 :=
  ⟨Prod.ext
      ((C16_create_validation sampleEnv ⟨9000, 6, 0⟩ catalogStore aliceHeader aliceClaims none
        (some "X") none none rfl (Or.inl rfl)).1 (by decide)).1
      ((C16_create_validation sampleEnv ⟨9000, 6, 0⟩ catalogStore aliceHeader aliceClaims none
        (some "X") none none rfl (Or.inl rfl)).1 (by decide)).2,
    Prod.ext
      ((C16_create_validation sampleEnv ⟨9000, 6, 0⟩ catalogStore aliceHeader aliceClaims
        (some "  ") none none none rfl (Or.inl rfl)).1 (by decide)).1
      ((C16_create_validation sampleEnv ⟨9000, 6, 0⟩ catalogStore aliceHeader aliceClaims
        (some "  ") none none none rfl (Or.inl rfl)).1 (by decide)).2,
    Prod.ext
      ((C16_create_validation sampleEnv ⟨9000, 6, 0⟩ catalogStore aliceHeader aliceClaims
        (some "Emma") none (some " ") none rfl (Or.inl rfl)).2.2.1 (Or.inr (by decide))).1
      ((C16_create_validation sampleEnv ⟨9000, 6, 0⟩ catalogStore aliceHeader aliceClaims
        (some "Emma") none (some " ") none rfl (Or.inl rfl)).2.2.1 (Or.inr (by decide))).2,
    (C16_create_validation sampleEnv ⟨9000, 6, 0⟩ catalogStore aliceHeader aliceClaims
      (some "Chess") none none none rfl (Or.inl rfl)).2.1 (by decide) (by decide),
    (C16_create_validation sampleEnv ⟨9000, 6, 0⟩ catalogStore aliceHeader aliceClaims
      (some "Emma") none (some "Jane Austen") none rfl (Or.inl rfl)).2.2.2 (by decide)
      (by decide) (by decide)⟩

/-- C17: a GET of a board game or of a book by an id that casts to an ObjectId (a well-formed
id) which no stored item of that type has is answered 404; by an id that does not cast (a
malformed id) it is answered 400 with the message "Invalid ID format"; the store is
unchanged in both cases. -/
theorem C17_get_by_id_errors (env : Env) (s : Store) (id : String) :
    (∀ oid : ObjectId, env.castObjectId id = some oid →
      (∀ g ∈ s.boardGames, g._id ≠ oid) →
      getBoardGame env s id = (⟨404, .message "Board game not found"⟩, s)) ∧
    (env.castObjectId id = none →
      getBoardGame env s id = (⟨400, .message "Invalid ID format"⟩, s)) ∧
    (∀ oid : ObjectId, env.castObjectId id = some oid →
      (∀ b ∈ s.books, b._id ≠ oid) →
      getBook env s id = (⟨404, .message "Book not found"⟩, s)) ∧
    (env.castObjectId id = none →
      getBook env s id = (⟨400, .message "Invalid ID format"⟩, s)) := by
  refine ⟨?_, ?_, ?_, ?_⟩
  · intro oid hcast hnone
    have hfind : BoardGame.findById s.boardGames oid = none :=
      (find?_key_eq_none (fun g : BoardGame => g._id) oid s.boardGames).2 hnone
    simp only [getBoardGame, hcast, hfind]
  · intro hcast
    simp only [getBoardGame, hcast]
  · intro oid hcast hnone
    have hfind : Book.findById s.books oid = none :=
      (find?_key_eq_none (fun b : Book => b._id) oid s.books).2 hnone
    simp only [getBook, hcast, hfind]
  · intro hcast
    simp only [getBook, hcast]

/-- C17 at concrete requests on `catalogStore`: the id of the book is no board game, the id
of the board game is no book, and "123invalid" is no id. -/
theorem C17_get_by_id_errors_witness :
    getBoardGame sampleEnv catalogStore "4" =
      (⟨404, .message "Board game not found"⟩, catalogStore) ∧
    getBoardGame sampleEnv catalogStore "123invalid" =
      (⟨400, .message "Invalid ID format"⟩, catalogStore) ∧
    getBook sampleEnv catalogStore "2" = (⟨404, .message "Book not found"⟩, catalogStore) ∧
    getBook sampleEnv catalogStore "123invalid" =
      (⟨400, .message "Invalid ID format"⟩, catalogStore) :=
  ⟨(C17_get_by_id_errors sampleEnv catalogStore "4").1 4 rfl (by decide),
    (C17_get_by_id_errors sampleEnv catalogStore "123invalid").2.1 rfl,
    (C17_get_by_id_errors sampleEnv catalogStore "2").2.2.1 2 rfl (by decide),
    (C17_get_by_id_errors sampleEnv catalogStore "123invalid").2.2.2 rfl⟩

/-! ### Update and delete -/

/-- The update handler of board games for a verified token with role "admin". -/
theorem updateBoardGame_eq_of_admin (env : Env) (amb : Ambient) (s : Store)
    (authorization : Option String) (user : Claims) (id : String)
    (title designer genre : Option String)
    (hauth : authenticateToken env amb.now authorization = .ok user)
    (hrole : user.role = some "admin") :
    updateBoardGame env amb s authorization id title designer genre =
      match env.castObjectId id with
      | none => (⟨400, .message "Invalid ID format"⟩, s)
      | some oid =>
        if title.map jsTrim = some "" then (⟨400, .validationError "BoardGame" ["title"]⟩, s)
        else
          match BoardGame.findById s.boardGames oid with
          | none => (⟨404, .message "Board game not found"⟩, s)
          | some game =>
            (⟨200, .boardGame
                { game with title := (title.map jsTrim).getD game.title,
                            designer := (designer.map jsTrim).orElse (fun _ => game.designer),
                            genre := (genre.map jsTrim).orElse (fun _ => game.genre),
                            updatedAt := amb.now }⟩,
              { s with boardGames :=
                         updateFirst (fun g => g._id == oid)
                           (fun _ =>
                             { game with
                               title := (title.map jsTrim).getD game.title,
                               designer :=
                                 (designer.map jsTrim).orElse (fun _ => game.designer),
                               genre := (genre.map jsTrim).orElse (fun _ => game.genre),
                               updatedAt := amb.now }) s.boardGames }) := by
  simp only [updateBoardGame, hauth, authorizeRole_admin ["admin"] user hrole (by decide)]

/-- The update handler of books for a verified token with role "admin". -/
theorem updateBook_eq_of_admin (env : Env) (amb : Ambient) (s : Store)
    (authorization : Option String) (user : Claims) (id : String)
    (title author genre : Option String)
    (hauth : authenticateToken env amb.now authorization = .ok user)
    (hrole : user.role = some "admin") :
    updateBook env amb s authorization id title author genre =
      match env.castObjectId id with
      | none => (⟨400, .message "Invalid ID format"⟩, s)
      | some oid =>
        if (if title.map jsTrim = some "" then ["title"] else []) ++
            (if author.map jsTrim = some "" then ["author"] else []) ≠ [] then
          (⟨400, .validationError "Book"
            ((if title.map jsTrim = some "" then ["title"] else []) ++
              (if author.map jsTrim = some "" then ["author"] else []))⟩, s)
        else
          match Book.findById s.books oid with
          | none => (⟨404, .message "Book not found"⟩, s)
          | some book =>
            (⟨200, .book
                { book with title := (title.map jsTrim).getD book.title,
                            author := (author.map jsTrim).getD book.author,
                            genre := (genre.map jsTrim).orElse (fun _ => book.genre),
                            updatedAt := amb.now }⟩,
              { s with books :=
                         updateFirst (fun b => b._id == oid)
                           (fun _ =>
                             { book with
                               title := (title.map jsTrim).getD book.title,
                               author := (author.map jsTrim).getD book.author,
                               genre := (genre.map jsTrim).orElse (fun _ => book.genre),
                               updatedAt := amb.now }) s.books }) := by
  simp only [updateBook, hauth, authorizeRole_admin ["admin"] user hrole (by decide)]

/-- The delete handler of board games for a verified token with role "admin". -/
theorem deleteBoardGame_eq_of_admin (env : Env) (amb : Ambient) (s : Store)
    (authorization : Option String) (user : Claims) (id : String)
    (hauth : authenticateToken env amb.now authorization = .ok user)
    (hrole : user.role = some "admin") :
    deleteBoardGame env amb s authorization id =
      match env.castObjectId id with
      | none => (⟨400, .message "Invalid ID format"⟩, s)
      | some oid =>
        match BoardGame.findById s.boardGames oid with
        | none => (⟨404, .message "Board game not found"⟩, s)
        | some _ =>
          (⟨204, .empty⟩,
            { s with boardGames := removeFirst (fun g => g._id == oid) s.boardGames }) := by
  simp only [deleteBoardGame, hauth, authorizeRole_admin ["admin"] user hrole (by decide)]

/-- The delete handler of books for a verified token with role "admin". -/
theorem deleteBook_eq_of_admin (env : Env) (amb : Ambient) (s : Store)
    (authorization : Option String) (user : Claims) (id : String)
    (hauth : authenticateToken env amb.now authorization = .ok user)
    (hrole : user.role = some "admin") :
    deleteBook env amb s authorization id =
      match env.castObjectId id with
      | none => (⟨400, .message "Invalid ID format"⟩, s)
      | some oid =>
        match Book.findById s.books oid with
        | none => (⟨404, .message "Book not found"⟩, s)
        | some _ =>
          (⟨204, .empty⟩, { s with books := removeFirst (fun b => b._id == oid) s.books }) := by
  simp only [deleteBook, hauth, authorizeRole_admin ["admin"] user hrole (by decide)]

/-- What an update request does to the board games: nothing, or the first board game with the
id is replaced by one with the same id whose title is the trimmed, non-empty supplied title
or the title it had. -/
theorem updateBoardGame_store (env : Env) (amb : Ambient) (s : Store)
    (authorization : Option String) (id : String) (title designer genre : Option String) :
    (updateBoardGame env amb s authorization id title designer genre).2 = s ∨
    ∃ (oid : ObjectId) (game updated : BoardGame),
      game ∈ s.boardGames ∧ game._id = oid ∧ updated._id = oid ∧
      (updated.title = game.title ∨ (updated.title ≠ "" ∧ ∃ t, title = some t ∧
        updated.title = jsTrim t)) ∧
      (updateBoardGame env amb s authorization id title designer genre).2 =
        { s with boardGames := updateFirst (fun g => g._id == oid) (fun _ => updated)
                   s.boardGames } := by
  cases hauth : authenticateToken env amb.now authorization with
  | error r => exact Or.inl (by simp only [updateBoardGame, hauth])
  | ok user =>
    cases hgate : authorizeRole ["admin"] user with
    | some r => exact Or.inl (by simp only [updateBoardGame, hauth, hgate])
    | none =>
      cases hcast : env.castObjectId id with
      | none => exact Or.inl (by simp only [updateBoardGame, hauth, hgate, hcast])
      | some oid =>
        by_cases htitle : title.map jsTrim = some ""
        · exact Or.inl (by simp only [updateBoardGame, hauth, hgate, hcast, htitle, if_true])
        · cases hfind : BoardGame.findById s.boardGames oid with
          | none =>
            exact Or.inl (by
              simp only [updateBoardGame, hauth, hgate, hcast, htitle, hfind, if_false])
          | some game =>
            have hmem : game ∈ s.boardGames := List.mem_of_find?_eq_some hfind
            have hid : game._id = oid := by
              have := List.find?_some hfind
              simpa using this
            refine Or.inr ⟨oid, game,
              { game with title := (title.map jsTrim).getD game.title,
                          designer := (designer.map jsTrim).orElse (fun _ => game.designer),
                          genre := (genre.map jsTrim).orElse (fun _ => game.genre),
                          updatedAt := amb.now }, hmem, hid, hid, ?_, ?_⟩
            · cases title with
              | none => exact Or.inl rfl
              | some t => exact Or.inr ⟨by simpa using htitle, t, rfl, rfl⟩
            · simp only [updateBoardGame, hauth, hgate, hcast, htitle, hfind, if_false]

/-- What an update request does to the books: nothing, or the first book with the id is
replaced by one with the same id whose title and author are the trimmed, non-empty supplied
ones or the ones it had. -/
theorem updateBook_store (env : Env) (amb : Ambient) (s : Store)
    (authorization : Option String) (id : String) (title author genre : Option String) :
    (updateBook env amb s authorization id title author genre).2 = s ∨
    ∃ (oid : ObjectId) (book updated : Book),
      book ∈ s.books ∧ book._id = oid ∧ updated._id = oid ∧
      (updated.title = book.title ∨ updated.title ≠ "") ∧
      (updated.author = book.author ∨ updated.author ≠ "") ∧
      (updateBook env amb s authorization id title author genre).2 =
        { s with books := updateFirst (fun b => b._id == oid) (fun _ => updated) s.books } := by
  cases hauth : authenticateToken env amb.now authorization with
  | error r => exact Or.inl (by simp only [updateBook, hauth])
  | ok user =>
    cases hgate : authorizeRole ["admin"] user with
    | some r => exact Or.inl (by simp only [updateBook, hauth, hgate])
    | none =>
      cases hcast : env.castObjectId id with
      | none => exact Or.inl (by simp only [updateBook, hauth, hgate, hcast])
      | some oid =>
        by_cases hinvalid : (if title.map jsTrim = some "" then ["title"] else []) ++
            (if author.map jsTrim = some "" then ["author"] else []) ≠ []
        · exact Or.inl (by simp only [updateBook, hauth, hgate, hcast, if_pos hinvalid])
        · cases hfind : Book.findById s.books oid with
          | none =>
            exact Or.inl (by
              simp only [updateBook, hauth, hgate, hcast, if_neg hinvalid, hfind])
          | some book =>
            have hmem : book ∈ s.books := List.mem_of_find?_eq_some hfind
            have hid : book._id = oid := by
              have := List.find?_some hfind
              simpa using this
            have htitle : ¬ title.map jsTrim = some "" := by
              intro h
              exact hinvalid (by simp [h])
            have hauthor : ¬ author.map jsTrim = some "" := by
              intro h
              exact hinvalid (by simp [h])
            refine Or.inr ⟨oid, book,
              { book with title := (title.map jsTrim).getD book.title,
                          author := (author.map jsTrim).getD book.author,
                          genre := (genre.map jsTrim).orElse (fun _ => book.genre),
                          updatedAt := amb.now }, hmem, hid, hid, ?_, ?_, ?_⟩
            · cases title with
              | none => exact Or.inl rfl
              | some t => exact Or.inr (by simpa using htitle)
            · cases author with
              | none => exact Or.inl rfl
              | some t => exact Or.inr (by simpa using hauthor)
            · simp only [updateBook, hauth, hgate, hcast, if_neg hinvalid, hfind]

/-- What a delete request does to the board games: nothing, or the first board game with
the id is removed. -/
theorem deleteBoardGame_store (env : Env) (amb : Ambient) (s : Store)
    (authorization : Option String) (id : String) :
    (deleteBoardGame env amb s authorization id).2 = s ∨
    ∃ oid : ObjectId,
      (deleteBoardGame env amb s authorization id).2 =
        { s with boardGames := removeFirst (fun g => g._id == oid) s.boardGames } := by
  unfold deleteBoardGame
  repeat' (first | split | dsimp only)
  all_goals first
    | exact Or.inl rfl
    | exact Or.inr ⟨_, rfl⟩

/-- What a delete request does to the books: nothing, or the first book with the id is
removed. -/
theorem deleteBook_store (env : Env) (amb : Ambient) (s : Store)
    (authorization : Option String) (id : String) :
    (deleteBook env amb s authorization id).2 = s ∨
    ∃ oid : ObjectId,
      (deleteBook env amb s authorization id).2 =
        { s with books := removeFirst (fun b => b._id == oid) s.books } := by
  unfold deleteBook
  repeat' (first | split | dsimp only)
  all_goals first
    | exact Or.inl rfl
    | exact Or.inr ⟨_, rfl⟩

theorem register_catalog (env : Env) (amb : Ambient) (s : Store)
    (username password : Option String) :
    (register env amb s username password).2.boardGames = s.boardGames ∧
      (register env amb s username password).2.books = s.books := by
  unfold register
  repeat' (first | split | dsimp only)
  all_goals exact ⟨rfl, rfl⟩

theorem borrow_catalog (env : Env) (amb : Ambient) (s : Store)
    (authorization itemId itemType borrowerName dueDate : Option String) :
    (borrow env amb s authorization itemId itemType borrowerName dueDate).2.boardGames =
        s.boardGames ∧
      (borrow env amb s authorization itemId itemType borrowerName dueDate).2.books =
        s.books := by
  unfold borrow
  repeat' (first | split | dsimp only)
  all_goals exact ⟨rfl, rfl⟩

theorem returnLoan_catalog (env : Env) (amb : Ambient) (s : Store)
    (authorization loanId : Option String) :
    (returnLoan env amb s authorization loanId).2.boardGames = s.boardGames ∧
      (returnLoan env amb s authorization loanId).2.books = s.books := by
  unfold returnLoan
  repeat' (first | split | dsimp only)
  all_goals exact ⟨rfl, rfl⟩

/-! ### The catalog invariant -/

theorem catalogWellFormed_of_eq (s t : Store) (hg : t.boardGames = s.boardGames)
    (hb : t.books = s.books) (h : CatalogWellFormed s) : CatalogWellFormed t := by
  unfold CatalogWellFormed
  rw [hg, hb]
  exact h

theorem nodup_append_fresh {α : Type} (key : α → ObjectId) (l : List α) (x : α)
    (hnodup : (l.map key).Nodup) (hfresh : ∀ a ∈ l, key a ≠ key x) :
    ((l ++ [x]).map key).Nodup := by
  rw [List.map_append, List.nodup_append]
  refine ⟨hnodup, by simp, ?_⟩
  intro k hk hk'
  simp only [List.map_cons, List.map_nil, List.mem_singleton] at hk'
  obtain ⟨a, ha, hka⟩ := List.mem_map.1 hk
  exact hfresh a ha (by rw [hka, hk'])

/-- Every request keeps catalog ids distinct and required catalog fields non-empty. -/
theorem handle_preserves_catalogWellFormed (env : Env) (amb : Ambient) (s : Store) (r : Request)
    (h : CatalogWellFormed s) : CatalogWellFormed (handle env amb s r).2 := by
  obtain ⟨hgn, hbn, hgt, hbt⟩ := h
  cases r with
  | register username password =>
    exact catalogWellFormed_of_eq s _ (register_catalog env amb s username password).1
      (register_catalog env amb s username password).2 ⟨hgn, hbn, hgt, hbt⟩
  | login username password =>
    simp only [handle, login_store]; exact ⟨hgn, hbn, hgt, hbt⟩
  | test => exact ⟨hgn, hbn, hgt, hbt⟩
  | adminTest authorization =>
    simp only [handle, adminTest_store]; exact ⟨hgn, hbn, hgt, hbt⟩
  | listBoardGames => exact ⟨hgn, hbn, hgt, hbt⟩
  | getBoardGame id => simp only [handle, getBoardGame_store]; exact ⟨hgn, hbn, hgt, hbt⟩
  | listBooks => exact ⟨hgn, hbn, hgt, hbt⟩
  | getBook id => simp only [handle, getBook_store]; exact ⟨hgn, hbn, hgt, hbt⟩
  | listLoans status borrowerName =>
    simp only [handle, listLoans_store]; exact ⟨hgn, hbn, hgt, hbt⟩
  | borrow authorization itemId itemType borrowerName dueDate =>
    exact catalogWellFormed_of_eq s _
      (borrow_catalog env amb s authorization itemId itemType borrowerName dueDate).1
      (borrow_catalog env amb s authorization itemId itemType borrowerName dueDate).2
      ⟨hgn, hbn, hgt, hbt⟩
  | returnLoan authorization loanId =>
    exact catalogWellFormed_of_eq s _ (returnLoan_catalog env amb s authorization loanId).1
      (returnLoan_catalog env amb s authorization loanId).2 ⟨hgn, hbn, hgt, hbt⟩
  | createBoardGame authorization title designer genre =>
    rcases createBoardGame_cases env amb s authorization title designer genre with
      ⟨_, hsame⟩ | ⟨g, _, htitle, hfresh, heq⟩
    · simp only [handle, hsame]; exact ⟨hgn, hbn, hgt, hbt⟩
    · simp only [handle, heq]
      refine ⟨nodup_append_fresh (fun g => g._id) _ g hgn hfresh, hbn, ?_, hbt⟩
      intro x hx
      rcases List.mem_append.1 hx with hx | hx
      · exact hgt x hx
      · rw [List.mem_singleton.1 hx]; exact htitle
  | createBook authorization title author genre =>
    rcases createBook_cases env amb s authorization title author genre with
      ⟨_, hsame⟩ | ⟨b, _, htitle, hauthor, hfresh, heq⟩
    · simp only [handle, hsame]; exact ⟨hgn, hbn, hgt, hbt⟩
    · simp only [handle, heq]
      refine ⟨hgn, nodup_append_fresh (fun b => b._id) _ b hbn hfresh, hgt, ?_⟩
      intro x hx
      rcases List.mem_append.1 hx with hx | hx
      · exact hbt x hx
      · rw [List.mem_singleton.1 hx]; exact ⟨htitle, hauthor⟩
  | updateBoardGame authorization id title designer genre =>
    rcases updateBoardGame_store env amb s authorization id title designer genre with
      hsame | ⟨oid, game, updated, hmem, _, hid, htitle, heq⟩
    · simp only [handle, hsame]; exact ⟨hgn, hbn, hgt, hbt⟩
    · simp only [handle, heq]
      refine ⟨?_, hbn, ?_, hbt⟩
      · rw [map_updateFirst_key (fun g : BoardGame => g._id) oid updated hid]
        exact hgn
      · intro x hx
        rcases mem_updateFirst _ updated _ x hx with hx | hx
        · exact hgt x hx
        · rw [hx]
          rcases htitle with ht | ⟨ht, _⟩
          · rw [ht]; exact hgt game hmem
          · exact ht
  | updateBook authorization id title author genre =>
    rcases updateBook_store env amb s authorization id title author genre with
      hsame | ⟨oid, book, updated, hmem, _, hid, htitle, hauthor, heq⟩
    · simp only [handle, hsame]; exact ⟨hgn, hbn, hgt, hbt⟩
    · simp only [handle, heq]
      refine ⟨hgn, ?_, hgt, ?_⟩
      · rw [map_updateFirst_key (fun b : Book => b._id) oid updated hid]
        exact hbn
      · intro x hx
        rcases mem_updateFirst _ updated _ x hx with hx | hx
        · exact hbt x hx
        · rw [hx]
          constructor
          · rcases htitle with ht | ht
            · rw [ht]; exact (hbt book hmem).1
            · exact ht
          · rcases hauthor with ha | ha
            · rw [ha]; exact (hbt book hmem).2
            · exact ha
  | deleteBoardGame authorization id =>
    rcases deleteBoardGame_store env amb s authorization id with hsame | ⟨oid, heq⟩
    · simp only [handle, hsame]; exact ⟨hgn, hbn, hgt, hbt⟩
    · simp only [handle, heq]
      have hsub := removeFirst_sublist (fun g : BoardGame => g._id == oid) s.boardGames
      exact ⟨hgn.sublist (hsub.map _), hbn, fun x hx => hgt x (hsub.subset hx), hbt⟩
  | deleteBook authorization id =>
    rcases deleteBook_store env amb s authorization id with hsame | ⟨oid, heq⟩
    · simp only [handle, hsame]; exact ⟨hgn, hbn, hgt, hbt⟩
    · simp only [handle, heq]
      have hsub := removeFirst_sublist (fun b : Book => b._id == oid) s.books
      exact ⟨hgn, hbn.sublist (hsub.map _), hgt, fun x hx => hbt x (hsub.subset hx)⟩

theorem run_catalogWellFormed (env : Env) :
    ∀ (trace : List (Ambient × Request)) (s : Store),
      CatalogWellFormed s → CatalogWellFormed (run env s trace)
  | [], _, h => h
  | (amb, r) :: rest, s, h =>
    run_catalogWellFormed env rest _ (handle_preserves_catalogWellFormed env amb s r h)

theorem catalogWellFormed_reached (env : Env) (trace : List (Ambient × Request)) :
    CatalogWellFormed (run env Store.empty trace) :=
  run_catalogWellFormed env trace Store.empty
    ⟨by simp [Store.empty], by simp [Store.empty], fun _ hg => by simp [Store.empty] at hg,
      fun _ hb => by simp [Store.empty] at hb⟩

/-! ### Deleting a catalog item -/

/-- With distinct keys, after erasing `x` no element has the key of `x`. -/
theorem find?_key_erase {α : Type} [DecidableEq α] (key : α → ObjectId) (l : List α) (x : α)
    (hnodup : (l.map key).Nodup) (hmem : x ∈ l) :
    (l.erase x).find? (fun a => key a == key x) = none := by
  rw [find?_key_eq_none]
  intro a ha hkey
  have hl : l.Nodup := List.Nodup.of_map key hnodup
  have ha' := (List.Nodup.mem_erase_iff hl).1 ha
  exact ha'.1 (List.inj_on_of_nodup_map hnodup ha'.2 hmem hkey)

/-- C18: in every store reached from the empty store, with a token that verifies with role
"admin": the DELETE of a stored board game (of a stored book) by its id is answered 204 with
an empty body and leaves the store with exactly that item erased, every other board game and
book, and every user and loan, being as before; a GET with the same id on the store after
the DELETE is answered 404; the DELETE of an id that casts to an ObjectId which no item of
the type has is answered 404 and leaves the store unchanged. -/
theorem C18_delete_catalog_item (env : Env) (trace : List (Ambient × Request)) (amb : Ambient)
    (authorization : Option String) (user : Claims) (id : String)
    (hauth : authenticateToken env amb.now authorization = .ok user)
    (hrole : user.role = some "admin") :
    (∀ g ∈ (run env Store.empty trace).boardGames, env.castObjectId id = some g._id →
      deleteBoardGame env amb (run env Store.empty trace) authorization id =
        (⟨204, .empty⟩,
          { run env Store.empty trace with
            boardGames := (run env Store.empty trace).boardGames.erase g }) ∧
      (∀ x, x ∈ (run env Store.empty trace).boardGames.erase g ↔
        x ∈ (run env Store.empty trace).boardGames ∧ x ≠ g) ∧
      getBoardGame env
          { run env Store.empty trace with
            boardGames := (run env Store.empty trace).boardGames.erase g } id =
        (⟨404, .message "Board game not found"⟩,
          { run env Store.empty trace with
            boardGames := (run env Store.empty trace).boardGames.erase g })) ∧
    (∀ oid : ObjectId, env.castObjectId id = some oid →
      (∀ g ∈ (run env Store.empty trace).boardGames, g._id ≠ oid) →
      deleteBoardGame env amb (run env Store.empty trace) authorization id =
        (⟨404, .message "Board game not found"⟩, run env Store.empty trace)) ∧
    (∀ b ∈ (run env Store.empty trace).books, env.castObjectId id = some b._id →
      deleteBook env amb (run env Store.empty trace) authorization id =
        (⟨204, .empty⟩,
          { run env Store.empty trace with
            books := (run env Store.empty trace).books.erase b }) ∧
      (∀ x, x ∈ (run env Store.empty trace).books.erase b ↔
        x ∈ (run env Store.empty trace).books ∧ x ≠ b) ∧
      getBook env
          { run env Store.empty trace with
            books := (run env Store.empty trace).books.erase b } id =
        (⟨404, .message "Book not found"⟩,
          { run env Store.empty trace with
            books := (run env Store.empty trace).books.erase b })) ∧
    (∀ oid : ObjectId, env.castObjectId id = some oid →
      (∀ b ∈ (run env Store.empty trace).books, b._id ≠ oid) →
      deleteBook env amb (run env Store.empty trace) authorization id =
        (⟨404, .message "Book not found"⟩, run env Store.empty trace)) := by
  obtain ⟨hgn, hbn, _, _⟩ := catalogWellFormed_reached env trace
  rw [deleteBoardGame_eq_of_admin env amb _ authorization user id hauth hrole,
    deleteBook_eq_of_admin env amb _ authorization user id hauth hrole]
  refine ⟨?_, ?_, ?_, ?_⟩
  · intro g hg hcast
    have hfind : BoardGame.findById (run env Store.empty trace).boardGames g._id = some g :=
      find?_key_of_mem (fun x : BoardGame => x._id) g _ hgn hg
    have herase := removeFirst_eq_erase (fun x : BoardGame => x._id) g _ hgn hg
    refine ⟨?_, ?_, ?_⟩
    · simp only [hcast, hfind]
      rw [herase]
    · intro x
      rw [List.Nodup.mem_erase_iff (List.Nodup.of_map _ hgn)]
      exact And.comm
    · simp only [getBoardGame, hcast, BoardGame.findById]
      rw [find?_key_erase (fun x : BoardGame => x._id) _ g hgn hg]
  · intro oid hcast hnone
    have hfind : BoardGame.findById (run env Store.empty trace).boardGames oid = none :=
      (find?_key_eq_none (fun g : BoardGame => g._id) oid _).2 hnone
    simp only [hcast, hfind]
  · intro b hb hcast
    have hfind : Book.findById (run env Store.empty trace).books b._id = some b :=
      find?_key_of_mem (fun x : Book => x._id) b _ hbn hb
    have herase := removeFirst_eq_erase (fun x : Book => x._id) b _ hbn hb
    refine ⟨?_, ?_, ?_⟩
    · simp only [hcast, hfind]
      rw [herase]
    · intro x
      rw [List.Nodup.mem_erase_iff (List.Nodup.of_map _ hbn)]
      exact And.comm
    · simp only [getBook, hcast, Book.findById]
      rw [find?_key_erase (fun x : Book => x._id) _ b hbn hb]
  · intro oid hcast hnone
    have hfind : Book.findById (run env Store.empty trace).books oid = none :=
      (find?_key_eq_none (fun b : Book => b._id) oid _).2 hnone
    simp only [hcast, hfind]

/-- C18 at concrete requests of alice on the store after `catalogTrace`: deleting the board
game "Go" and the book "Dune", and deleting ids that name nothing. -/
theorem C18_delete_catalog_item_witness :
    deleteBoardGame sampleEnv ⟨9000, 6, 0⟩ (run sampleEnv Store.empty catalogTrace)
        aliceHeader "2" =
      (⟨204, .empty⟩,
        { run sampleEnv Store.empty catalogTrace with
          boardGames := (run sampleEnv Store.empty catalogTrace).boardGames.erase goGame }) ∧
    getBoardGame sampleEnv
        { run sampleEnv Store.empty catalogTrace with
          boardGames := (run sampleEnv Store.empty catalogTrace).boardGames.erase goGame } "2" =
      (⟨404, .message "Board game not found"⟩,
        { run sampleEnv Store.empty catalogTrace with
          boardGames := (run sampleEnv Store.empty catalogTrace).boardGames.erase goGame }) ∧
    deleteBoardGame sampleEnv ⟨9000, 6, 0⟩ (run sampleEnv Store.empty catalogTrace)
        aliceHeader "4" =
      (⟨404, .message "Board game not found"⟩, run sampleEnv Store.empty catalogTrace) ∧
    deleteBook sampleEnv ⟨9000, 6, 0⟩ (run sampleEnv Store.empty catalogTrace)
        aliceHeader "4" =
      (⟨204, .empty⟩,
        { run sampleEnv Store.empty catalogTrace with
          books := (run sampleEnv Store.empty catalogTrace).books.erase duneBook }) ∧
    deleteBook sampleEnv ⟨9000, 6, 0⟩ (run sampleEnv Store.empty catalogTrace)
        aliceHeader "2" =
      (⟨404, .message "Book not found"⟩, run sampleEnv Store.empty catalogTrace) :=
  have h := C18_delete_catalog_item sampleEnv catalogTrace ⟨9000, 6, 0⟩ aliceHeader aliceClaims
  ⟨((h "2" rfl rfl).1 goGame (by decide) rfl).1, ((h "2" rfl rfl).1 goGame (by decide) rfl).2.2,
    (h "4" rfl rfl).2.1 4 rfl (by decide),
    ((h "4" rfl rfl).2.2.1 duneBook (by decide) rfl).1,
    (h "2" rfl rfl).2.2.2 2 rfl (by decide)⟩

/-! ### Updating a catalog item -/

/-- After replacing the first element satisfying `p` by `y`, which satisfies `p` too, looking
up `p` finds `y`, provided some element satisfied `p`. -/
theorem find?_updateFirst {α : Type} (p : α → Bool) (y : α) (hy : p y = true) :
    ∀ l : List α, (∃ a ∈ l, p a = true) → (updateFirst p (fun _ => y) l).find? p = some y
  | [], h => by simp at h
  | a :: l, h => by
    by_cases hp : p a = true
    · simp [updateFirst, hp, hy]
    · have hrest : ∃ b ∈ l, p b = true := by
        obtain ⟨b, hb, hpb⟩ := h
        rcases List.mem_cons.1 hb with rfl | hb
        · exact absurd hpb hp
        · exact ⟨b, hb, hpb⟩
      simp only [updateFirst, hp, Bool.false_eq_true, if_false]
      rw [List.find?_cons_of_neg _ hp]
      exact find?_updateFirst p y hy l hrest

/-- C19, as stated, fails: alice's PUT of the title " Chess " on the board game "Go" is
answered 200 with the title "Chess", not the supplied value, because the schema trims
strings; and `updatedAt`, which the body does not supply, changes from 3000 to the time of
the update. -/
theorem C19_supplied_value_counterexample :
    goGame ∈ catalogStore.boardGames ∧
    (updateBoardGame sampleEnv ⟨9000, 6, 0⟩ catalogStore aliceHeader "2" (some " Chess ") none
        none).1 =
      ⟨200, .boardGame
        { _id := 2, title := "Chess", designer := some "X", genre := some "Abstract",
          createdAt := 3000, updatedAt := 9000 }⟩ ∧
    ("Chess" : String) ≠ " Chess " ∧ goGame.updatedAt = 3000 := by
  decide

/-- C19, amended: in every store reached from the empty store, for a stored board game (a
stored book) and a PUT by its id with a token that verifies with role "admin", whose body
supplies any of title, designer (author), genre, the supplied title (and author) not being
blank: the response is 200 with the updated item, in which each supplied field has the
supplied value with leading and trailing white space removed, each of these fields that is
not supplied keeps its value, as do the id and `createdAt`, and `updatedAt` is the time of the
update; the store holds the returned item in place of the old one, so a GET by the id
answers with it. -/
theorem C19_partial_update (env : Env) (trace : List (Ambient × Request)) (amb : Ambient)
    (authorization : Option String) (user : Claims) (id : String)
    (title designer author genre : Option String)
    (hauth : authenticateToken env amb.now authorization = .ok user)
    (hrole : user.role = some "admin")
    (htitle : ∀ t, title = some t → jsTrim t ≠ "")
    (hauthor : ∀ a, author = some a → jsTrim a ≠ "") :
    (∀ g ∈ (run env Store.empty trace).boardGames, env.castObjectId id = some g._id →
      ∃ updated : BoardGame,
        updateBoardGame env amb (run env Store.empty trace) authorization id title designer
            genre =
          (⟨200, .boardGame updated⟩,
            { run env Store.empty trace with
              boardGames := updateFirst (fun x => x._id == g._id) (fun _ => updated)
                (run env Store.empty trace).boardGames }) ∧
        getBoardGame env
            { run env Store.empty trace with
              boardGames := updateFirst (fun x => x._id == g._id) (fun _ => updated)
                (run env Store.empty trace).boardGames } id =
          (⟨200, .boardGame updated⟩,
            { run env Store.empty trace with
              boardGames := updateFirst (fun x => x._id == g._id) (fun _ => updated)
                (run env Store.empty trace).boardGames }) ∧
        updated._id = g._id ∧ updated.createdAt = g.createdAt ∧ updated.updatedAt = amb.now ∧
        updated.title = (match title with
          | some t => jsTrim t
          | none => g.title) ∧
        updated.designer = (match designer with
          | some d => some (jsTrim d)
          | none => g.designer) ∧
        updated.genre = (match genre with
          | some x => some (jsTrim x)
          | none => g.genre)) ∧
    (∀ b ∈ (run env Store.empty trace).books, env.castObjectId id = some b._id →
      ∃ updated : Book,
        updateBook env amb (run env Store.empty trace) authorization id title author genre =
          (⟨200, .book updated⟩,
            { run env Store.empty trace with
              books := updateFirst (fun x => x._id == b._id) (fun _ => updated)
                (run env Store.empty trace).books }) ∧
        getBook env
            { run env Store.empty trace with
              books := updateFirst (fun x => x._id == b._id) (fun _ => updated)
                (run env Store.empty trace).books } id =
          (⟨200, .book updated⟩,
            { run env Store.empty trace with
              books := updateFirst (fun x => x._id == b._id) (fun _ => updated)
                (run env Store.empty trace).books }) ∧
        updated._id = b._id ∧ updated.createdAt = b.createdAt ∧ updated.updatedAt = amb.now ∧
        updated.title = (match title with
          | some t => jsTrim t
          | none => b.title) ∧
        updated.author = (match author with
          | some a => jsTrim a
          | none => b.author) ∧
        updated.genre = (match genre with
          | some x => some (jsTrim x)
          | none => b.genre)) := by
  obtain ⟨hgn, hbn, _, _⟩ := catalogWellFormed_reached env trace
  have ht : ¬ title.map jsTrim = some "" := by
    cases title with
    | none => simp
    | some t => simpa using htitle t rfl
  have ha : ¬ author.map jsTrim = some "" := by
    cases author with
    | none => simp
    | some a => simpa using hauthor a rfl
  constructor
  · intro g hg hcast
    have hfind : BoardGame.findById (run env Store.empty trace).boardGames g._id = some g :=
      find?_key_of_mem (fun x : BoardGame => x._id) g _ hgn hg
    refine ⟨{ g with title := (title.map jsTrim).getD g.title,
                     designer := (designer.map jsTrim).orElse (fun _ => g.designer),
                     genre := (genre.map jsTrim).orElse (fun _ => g.genre),
                     updatedAt := amb.now }, ?_, ?_, rfl, rfl, rfl, ?_, ?_, ?_⟩
    · rw [updateBoardGame_eq_of_admin env amb _ authorization user id title designer genre
        hauth hrole]
      simp only [hcast, ht, hfind, if_false]
    · simp only [getBoardGame, hcast, BoardGame.findById]
      rw [find?_updateFirst (fun x : BoardGame => x._id == g._id) _ (by simp) _
        ⟨g, hg, by simp⟩]
    · cases title <;> rfl
    · cases designer <;> rfl
    · cases genre <;> rfl
  · intro b hb hcast
    have hfind : Book.findById (run env Store.empty trace).books b._id = some b :=
      find?_key_of_mem (fun x : Book => x._id) b _ hbn hb
    refine ⟨{ b with title := (title.map jsTrim).getD b.title,
                     author := (author.map jsTrim).getD b.author,
                     genre := (genre.map jsTrim).orElse (fun _ => b.genre),
                     updatedAt := amb.now }, ?_, ?_, rfl, rfl, rfl, ?_, ?_, ?_⟩
    · rw [updateBook_eq_of_admin env amb _ authorization user id title author genre
        hauth hrole]
      simp [hcast, ht, ha, hfind]
    · simp only [getBook, hcast, Book.findById]
      rw [find?_updateFirst (fun x : Book => x._id == b._id) _ (by simp) _
        ⟨b, hb, by simp⟩]
    · cases title <;> rfl
    · cases author <;> rfl
    · cases genre <;> rfl

/-- C19 (amended) at concrete requests of alice on the store after `catalogTrace`: a PUT of
title and genre on the board game "Go" keeps its designer, a PUT of the author on the book
"Dune" keeps its title. -/
theorem C19_partial_update_witness :
    (∃ updated : BoardGame,
      updateBoardGame sampleEnv ⟨9000, 6, 0⟩ (run sampleEnv Store.empty catalogTrace)
          aliceHeader "2" (some " Chess ") none (some "Strategy") =
        (⟨200, .boardGame updated⟩,
          { run sampleEnv Store.empty catalogTrace with
            boardGames := updateFirst (fun x => x._id == goGame._id) (fun _ => updated)
              (run sampleEnv Store.empty catalogTrace).boardGames }) ∧
      updated._id = 2 ∧ updated.title = "Chess" ∧ updated.designer = some "X" ∧
      updated.genre = some "Strategy") ∧
    (∃ updated : Book,
      updateBook sampleEnv ⟨9000, 6, 0⟩ (run sampleEnv Store.empty catalogTrace)
          aliceHeader "4" none (some "F. Herbert") none =
        (⟨200, .book updated⟩,
          { run sampleEnv Store.empty catalogTrace with
            books := updateFirst (fun x => x._id == duneBook._id) (fun _ => updated)
              (run sampleEnv Store.empty catalogTrace).books }) ∧
      updated._id = 4 ∧ updated.title = "Dune" ∧ updated.author = "F. Herbert" ∧
      updated.genre = none) :=
  ⟨match (C19_partial_update sampleEnv catalogTrace ⟨9000, 6, 0⟩ aliceHeader aliceClaims "2"
        (some " Chess ") none none (some "Strategy") rfl rfl
        (fun t ht => by rw [← Option.some.inj ht]; decide)
        (fun a ha => by cases ha)).1 goGame (by decide) rfl with
    | ⟨updated, h1, _, h3, _, _, h6, h7, h8⟩ => ⟨updated, h1, h3, h6.trans (by decide), h7, h8⟩,
    match (C19_partial_update sampleEnv catalogTrace ⟨9000, 6, 0⟩ aliceHeader aliceClaims "4"
        none none (some "F. Herbert") none rfl rfl (fun t ht => by cases ht)
        (fun a ha => by rw [← Option.some.inj ha]; decide)).2 duneBook (by decide) rfl with
    | ⟨updated, h1, _, h3, _, _, h6, h7, h8⟩ => ⟨updated, h1, h3, h6, h7.trans (by decide), h8⟩⟩

/-- C20: with a token that verifies with role "admin" and an id that casts to an ObjectId, a
PUT on a board game whose body sets the title to an empty or blank string, and a PUT on a
book whose body sets the title or the author to an empty or blank string, are answered 400
with the validation error on those paths and leave the store unchanged; and in every store
reached from the empty store every board game and every book has a non-empty title and
every book a non-empty author. -/
theorem C20_update_revalidates (env : Env) (amb : Ambient) (s : Store)
    (authorization : Option String) (user : Claims) (id : String) (oid : ObjectId)
    (title designer author genre : Option String)
    (hauth : authenticateToken env amb.now authorization = .ok user)
    (hrole : user.role = some "admin")
    (hcast : env.castObjectId id = some oid) :
    ((∃ t, title = some t ∧ jsTrim t = "") →
      updateBoardGame env amb s authorization id title designer genre =
        (⟨400, .validationError "BoardGame" ["title"]⟩, s)) ∧
    ((∃ t, title = some t ∧ jsTrim t = "") ∨ (∃ a, author = some a ∧ jsTrim a = "") →
      updateBook env amb s authorization id title author genre =
        (⟨400, .validationError "Book"
          ((if title.map jsTrim = some "" then ["title"] else []) ++
            (if author.map jsTrim = some "" then ["author"] else []))⟩, s) ∧
      (if title.map jsTrim = some "" then ["title"] else []) ++
        (if author.map jsTrim = some "" then ["author"] else []) ≠ []) ∧
    (∀ trace : List (Ambient × Request),
      (∀ g ∈ (run env Store.empty trace).boardGames, g.title ≠ "") ∧
      (∀ b ∈ (run env Store.empty trace).books, b.title ≠ "" ∧ b.author ≠ "")) := by
  refine ⟨?_, ?_, ?_⟩
  · rintro ⟨t, rfl, ht⟩
    rw [updateBoardGame_eq_of_admin env amb s authorization user id (some t) designer genre
      hauth hrole]
    simp [hcast, ht]
  · intro h
    have hne : (if title.map jsTrim = some "" then ["title"] else []) ++
        (if author.map jsTrim = some "" then ["author"] else []) ≠ [] := by
      rcases h with ⟨t, rfl, ht⟩ | ⟨a, rfl, ha⟩
      · simp [ht]
      · simp [ha]
    refine ⟨?_, hne⟩
    rw [updateBook_eq_of_admin env amb s authorization user id title author genre hauth hrole]
    simp only [hcast, if_pos hne]
  · intro trace
    obtain ⟨_, _, hgt, hbt⟩ := catalogWellFormed_reached env trace
    exact ⟨hgt, hbt⟩

/-- C20 at concrete requests of alice on `catalogStore`: a blank title for the board game
"Go", an empty author for the book "Dune". -/
theorem C20_update_revalidates_witness :
    updateBoardGame sampleEnv ⟨9000, 6, 0⟩ catalogStore aliceHeader "2" (some "  ") none none =
      (⟨400, .validationError "BoardGame" ["title"]⟩, catalogStore) ∧
    updateBook sampleEnv ⟨9000, 6, 0⟩ catalogStore aliceHeader "4" none (some "") none =
      (⟨400, .validationError "Book" ["author"]⟩, catalogStore) :=
  ⟨(C20_update_revalidates sampleEnv ⟨9000, 6, 0⟩ catalogStore aliceHeader aliceClaims "2" 2
      (some "  ") none none none rfl rfl rfl).1 ⟨"  ", rfl, by decide⟩,
    ((C20_update_revalidates sampleEnv ⟨9000, 6, 0⟩ catalogStore aliceHeader aliceClaims "4" 4
      none none (some "") none rfl rfl rfl).2.1 (Or.inr ⟨"", rfl, by decide⟩)).1⟩

/-! ## Loan list: the status filter -/

/-- C23: for every ledger, `GET /api/loans` without a borrower filter answers 200 with, for
`status=loaned`, exactly the loans without a return date (the path is `null` or unset), for
`status=returned`, exactly the loans with a return date, and without `status`, every loan,
each in ledger order with its references populated; every loan of the ledger is in exactly
one of the loaned and returned results, and the store is unchanged. -/
theorem C23_status_filter (env : Env) (s : Store) :
    listLoans env s (some "loaned") none =
      (⟨200, .loans ((s.loans.filter (fun l => l.returnDate.matchesNull)).map (populate s))⟩,
        s) ∧
    listLoans env s (some "returned") none =
      (⟨200, .loans ((s.loans.filter (fun l => !l.returnDate.matchesNull)).map (populate s))⟩,
        s) ∧
    listLoans env s none none = (⟨200, .loans (s.loans.map (populate s))⟩, s) ∧
    (∀ l : Loan, l.returnDate.matchesNull = true ↔
      (l.returnDate = .null ∨ l.returnDate = .undefined)) ∧
    (∀ l : Loan, (!l.returnDate.matchesNull) = true ↔ ∃ d, l.returnDate = .value d) ∧
    (∀ l ∈ s.loans, l ∈ s.loans.filter (fun l => l.returnDate.matchesNull) ∨
      l ∈ s.loans.filter (fun l => !l.returnDate.matchesNull)) ∧
    (∀ l : Loan, ¬(l ∈ s.loans.filter (fun l => l.returnDate.matchesNull) ∧
      l ∈ s.loans.filter (fun l => !l.returnDate.matchesNull))) := by
  refine ⟨?_, ?_, ?_, ?_, ?_, ?_, ?_⟩
  · simp only [listLoans, falsy, if_true]
    congr 3
  · simp only [listLoans, falsy, if_true]
    congr 3
  · simp only [listLoans, falsy, if_true]
    congr 3
    have h : List.filter (statusFilter none) s.loans = s.loans := by
      rw [List.filter_eq_self]
      intro l _
      simp [statusFilter, falsy]
    rw [h]
  · intro l
    cases l.returnDate <;> simp [Nullable.matchesNull]
  · intro l
    cases l.returnDate <;> simp [Nullable.matchesNull]
  · intro l hl
    cases h : l.returnDate.matchesNull
    · exact Or.inr (List.mem_filter.2 ⟨hl, by simp [h]⟩)
    · exact Or.inl (List.mem_filter.2 ⟨hl, by simp [h]⟩)
  · rintro l ⟨h1, h2⟩
    have h1 := (List.mem_filter.1 h1).2
    have h2 := (List.mem_filter.1 h2).2
    simp [h1] at h2

/-! ## Loans are kept -/

/-- An element at a position of a list is, after `updateFirst` with a constant replacement,
itself again or the replacement, the latter only at the first element the test selects. -/
theorem getElem?_updateFirst {α : Type} (p : α → Bool) (y : α) (xs : List α) (i : Nat) (x : α)
    (hx : xs[i]? = some x) :
    (updateFirst p (fun _ => y) xs)[i]? = some x ∨
    (xs.find? p = some x ∧ (updateFirst p (fun _ => y) xs)[i]? = some y) := by
  induction xs generalizing i with
  | nil => simp at hx
  | cons a rest ih =>
    by_cases hp : p a = true
    · cases i with
      | zero =>
        simp only [List.getElem?_cons_zero, Option.some.injEq] at hx
        subst hx
        exact Or.inr ⟨by simp [hp], by simp [updateFirst, hp]⟩
      | succ j =>
        left
        simpa [updateFirst, hp] using hx
    · cases i with
      | zero =>
        left
        simpa [updateFirst, hp] using hx
      | succ j =>
        simp only [List.getElem?_cons_succ] at hx
        rcases ih j hx with h | ⟨hfind, h⟩
        · left
          simpa [updateFirst, hp] using h
        · right
          exact ⟨by simpa [List.find?, hp] using hfind, by simpa [updateFirst, hp] using h⟩

/-- A return leaves the ledger as it was, or replaces the first loan with the requested id,
whose return date was `null`, by a copy with a return date, a returning user and a new
`updatedAt`. -/
theorem returnLoan_loans_detail (env : Env) (amb : Ambient) (s : Store)
    (authorization loanId : Option String) :
    (returnLoan env amb s authorization loanId).2.loans = s.loans ∨
    ∃ (oid : ObjectId) (loan : Loan) (returnedBy : Nullable ObjectId),
      Loan.findById s.loans oid = some loan ∧ loan.returnDate = .null ∧
      (returnLoan env amb s authorization loanId).2.loans =
        updateFirst (fun l => l._id == oid)
          (fun _ => { loan with returnDate := .value amb.now, returnedByUserId := returnedBy,
                                updatedAt := amb.now }) s.loans := by
  cases hauth : authenticateToken env amb.now authorization with
  | error resp => exact Or.inl (by simp [returnLoan, hauth])
  | ok user =>
    by_cases hf : falsy loanId = true
    · exact Or.inl (by simp [returnLoan, hauth, hf])
    · cases hcast : env.castObjectId (loanId.getD "") with
      | none => exact Or.inl (by simp [returnLoan, hauth, hf, hcast])
      | some oid =>
        cases hfind : Loan.findById s.loans oid with
        | none => exact Or.inl (by simp [returnLoan, hauth, hf, hcast, hfind])
        | some loan =>
          by_cases hret : loan.returnDate.strictNeNull = true
          · exact Or.inl (by simp [returnLoan, hauth, hf, hcast, hfind, hret])
          · have hnull : loan.returnDate = .null := by
              cases h : loan.returnDate <;> simp [Nullable.strictNeNull, h] at hret ⊢
            cases hby : (match user.userId with
                | none => some Nullable.undefined
                | some uid => (env.castObjectId uid).map Nullable.value) with
            | none => exact Or.inl (by simp [returnLoan, hauth, hf, hcast, hfind, hret, hby])
            | some returnedBy =>
              exact Or.inr ⟨oid, loan, returnedBy, hfind, hnull,
                by simp [returnLoan, hauth, hf, hcast, hfind, hret, hby]⟩

/-- C26: for every request and every loan of the ledger before it, the ledger afterwards holds
at the same place a loan with the same id, item, item type, borrower name, loan date, due
date and lending user, and, when the loan had a return date, with the same return date and
returning user: no request deletes a loan or re-opens a returned one. -/
theorem C26_loans_kept (env : Env) (amb : Ambient) (s : Store) (r : Request) (i : Nat)
    (l : Loan) (hl : s.loans[i]? = some l) :
    ∃ l' : Loan, (handle env amb s r).2.loans[i]? = some l' ∧ l'._id = l._id ∧
      l'.item = l.item ∧ l'.itemTypeEnum = l.itemTypeEnum ∧ l'.borrowerName = l.borrowerName ∧
      l'.loanDate = l.loanDate ∧ l'.dueDate = l.dueDate ∧
      l'.loanedByUserId = l.loanedByUserId ∧
      ((∃ d, l.returnDate = .value d) →
        l'.returnDate = l.returnDate ∧ l'.returnedByUserId = l.returnedByUserId) := by
  have hsame : (handle env amb s r).2.loans = s.loans →
      ∃ l' : Loan, (handle env amb s r).2.loans[i]? = some l' ∧ l'._id = l._id ∧
      l'.item = l.item ∧ l'.itemTypeEnum = l.itemTypeEnum ∧ l'.borrowerName = l.borrowerName ∧
      l'.loanDate = l.loanDate ∧ l'.dueDate = l.dueDate ∧
      l'.loanedByUserId = l.loanedByUserId ∧
      ((∃ d, l.returnDate = .value d) →
        l'.returnDate = l.returnDate ∧ l'.returnedByUserId = l.returnedByUserId) := by
    intro h
    exact ⟨l, by rw [h]; exact hl, rfl, rfl, rfl, rfl, rfl, rfl, rfl, fun _ => ⟨rfl, rfl⟩⟩
  cases r with
  | borrow authorization itemId itemType borrowerName dueDate =>
    rcases borrow_loans env amb s authorization itemId itemType borrowerName dueDate with
      h | ⟨newLoan, h, _, _⟩
    · exact hsame h
    · refine ⟨l, ?_, rfl, rfl, rfl, rfl, rfl, rfl, rfl, fun _ => ⟨rfl, rfl⟩⟩
      show (borrow env amb s authorization itemId itemType borrowerName dueDate).2.loans[i]? = _
      rw [h, List.getElem?_append_left (by
        rcases List.getElem?_eq_some_iff.1 hl with ⟨hi, _⟩
        exact hi)]
      exact hl
  | returnLoan authorization loanId =>
    rcases returnLoan_loans_detail env amb s authorization loanId with
      h | ⟨oid, loan, returnedBy, hfind, hnull, h⟩
    · exact hsame h
    · show ∃ l' : Loan, (returnLoan env amb s authorization loanId).2.loans[i]? = some l' ∧ _
      rw [h]
      rcases getElem?_updateFirst (fun l => l._id == oid)
          { loan with returnDate := .value amb.now, returnedByUserId := returnedBy,
                      updatedAt := amb.now } s.loans i l hl with hkeep | ⟨hfirst, hnew⟩
      · exact ⟨l, hkeep, rfl, rfl, rfl, rfl, rfl, rfl, rfl, fun _ => ⟨rfl, rfl⟩⟩
      · have hll : loan = l := by
          have : Loan.findById s.loans oid = some l := hfirst
          rw [hfind] at this
          exact Option.some.inj this
        subst hll
        refine ⟨_, hnew, rfl, rfl, rfl, rfl, rfl, rfl, rfl, ?_⟩
        rintro ⟨d, hd⟩
        rw [hnull] at hd
        cases hd
  | _ =>
    exact hsame (by
      simp [handle, register_loans, login_store, adminTest_store, createBoardGame_loans,
        getBoardGame_store, updateBoardGame_loans, deleteBoardGame_loans, createBook_loans,
        getBook_store, updateBook_loans, deleteBook_loans, listLoans_store, testRoute,
        listBoardGames, listBooks])

/-- C26 at a concrete request: a second borrow keeps the loan of Bob in the ledger. -/
theorem C26_loans_kept_witness :
    ∃ l' : Loan,
      (handle sampleEnv ⟨5000, 4, 0⟩ borrowedStore
        (.borrow aliceHeader (some "2") (some "BoardGame") (some "Eve")
          (some "2025-01-01"))).2.loans[0]? = some l' ∧ l'._id = bobLoan._id ∧
      l'.item = bobLoan.item ∧ l'.itemTypeEnum = bobLoan.itemTypeEnum ∧
      l'.borrowerName = bobLoan.borrowerName ∧ l'.loanDate = bobLoan.loanDate ∧
      l'.dueDate = bobLoan.dueDate ∧ l'.loanedByUserId = bobLoan.loanedByUserId ∧
      ((∃ d, bobLoan.returnDate = .value d) →
        l'.returnDate = bobLoan.returnDate ∧ l'.returnedByUserId = bobLoan.returnedByUserId) :=
  C26_loans_kept sampleEnv ⟨5000, 4, 0⟩ borrowedStore
    (.borrow aliceHeader (some "2") (some "BoardGame") (some "Eve") (some "2025-01-01")) 0
    bobLoan (by decide)

/-- C23 at a concrete ledger: the one loan with a return date is the returned result and the
loaned result is empty. -/
theorem C23_status_filter_witness :
    listLoans sampleEnv returnedStore (some "returned") none =
      (⟨200, .loans [populate returnedStore bobLoanReturned]⟩, returnedStore) ∧
    listLoans sampleEnv returnedStore (some "loaned") none =
      (⟨200, .loans []⟩, returnedStore) :=
  ⟨(C23_status_filter sampleEnv returnedStore).2.1.trans rfl,
    (C23_status_filter sampleEnv returnedStore).1.trans rfl⟩

/-! ## Roles of the registered users -/

/-- Every request keeps the first registered user the only administrator. -/
theorem handle_preserves_firstUserIsAdmin (env : Env) (amb : Ambient) (s : Store) (r : Request)
    (h : FirstUserIsAdmin s.users) : FirstUserIsAdmin (handle env amb s r).2.users := by
  rcases handle_users env amb s r with hsame | ⟨u, p, user, _, _, _, _, _, _, hrole, heq⟩
  · rw [hsame]
    exact h
  · rw [heq]
    cases hu : s.users with
    | nil =>
      rw [hu] at hrole
      simpa [FirstUserIsAdmin] using hrole
    | cons first rest =>
      rw [hu] at h hrole
      simp only [FirstUserIsAdmin] at h
      simp only [List.length_cons, Nat.succ_ne_zero, if_false] at hrole
      simp only [FirstUserIsAdmin, List.cons_append]
      refine ⟨h.1, ?_⟩
      intro x hx
      rcases List.mem_append.1 hx with hx | hx
      · exact h.2 x hx
      · rw [List.mem_singleton.1 hx]
        exact hrole

/-- Every sequence of requests keeps the first registered user the only administrator. -/
theorem run_firstUserIsAdmin (env : Env) (trace : List (Ambient × Request)) (s : Store)
    (h : FirstUserIsAdmin s.users) : FirstUserIsAdmin (run env s trace).users := by
  induction trace generalizing s with
  | nil => exact h
  | cons step rest ih =>
    exact ih _ (handle_preserves_firstUserIsAdmin env step.1 s step.2 h)

/-- C28: in every state reached from the empty store by a sequence of requests, at most one
user has role "admin", and when there is a user, the first registered one has role "admin"
and no other has; every request leaves the users it found as they were, in order, before
whatever it adds (none is deleted, none changes role). -/
theorem C28_single_admin (env : Env) (trace : List (Ambient × Request)) :
    ((run env Store.empty trace).users.filter (fun u => u.role == "admin")).length ≤ 1 ∧
    (∀ (first : User) (rest : List User), (run env Store.empty trace).users = first :: rest →
      first.role = "admin" ∧ ∀ u ∈ rest, u.role ≠ "admin") ∧
    (∀ (amb : Ambient) (s : Store) (r : Request),
      ∃ added : List User, (handle env amb s r).2.users = s.users ++ added) := by
  have hinv : FirstUserIsAdmin (run env Store.empty trace).users :=
    run_firstUserIsAdmin env trace Store.empty (by simp [FirstUserIsAdmin, Store.empty])
  refine ⟨?_, ?_, ?_⟩
  · cases hu : (run env Store.empty trace).users with
    | nil => simp
    | cons first rest =>
      rw [hu] at hinv
      simp only [FirstUserIsAdmin] at hinv
      have hrest : rest.filter (fun u => u.role == "admin") = [] := by
        rw [List.filter_eq_nil_iff]
        intro x hx
        simp [hinv.2 x hx]
      simp [List.filter_cons, hinv.1, hrest]
  · intro first rest hu
    rw [hu] at hinv
    simp only [FirstUserIsAdmin] at hinv
    refine ⟨hinv.1, ?_⟩
    intro x hx
    rw [hinv.2 x hx]
    decide
  · intro amb s r
    rcases handle_users env amb s r with hsame | ⟨_, _, user, _, _, _, _, _, _, _, heq⟩
    · exact ⟨[], by simp [hsame]⟩
    · exact ⟨[user], heq⟩

/-- C28 at a concrete sequence of requests: after the registrations of alice and bob, alice
has role "admin" and bob has not. -/
theorem C28_single_admin_witness :
    (run sampleEnv Store.empty
      [(⟨1000, 1, 7⟩, .register (some "alice") (some "secret1")),
       (⟨2000, 5, 8⟩, .register (some "bob") (some "secret2"))]).users =
      [alice, ⟨5, "bob", "$8$secret2", "user", 2000, 2000⟩] ∧
    alice.role = "admin" ∧
    ∀ u ∈ [(⟨5, "bob", "$8$secret2", "user", 2000, 2000⟩ : User)], u.role ≠ "admin" :=
  ⟨by decide,
    (C28_single_admin sampleEnv
      [(⟨1000, 1, 7⟩, .register (some "alice") (some "secret1")),
       (⟨2000, 5, 8⟩, .register (some "bob") (some "secret2"))]).2.1 alice
      [⟨5, "bob", "$8$secret2", "user", 2000, 2000⟩] (by decide)⟩

/-! ## Loan list: the borrower filter -/

/-- C24 (the code departs from the claim): with a non-empty `borrowerName` parameter the
handler compiles the parameter as a regular expression, `new RegExp(borrowerName, 'i')`, and
does not search it as a substring: when the parameter does not compile the response is 500,
and otherwise the loans listed are those whose borrower name the regular expression matches,
whatever substrings it has. -/
theorem C24_borrowerName_filter_is_regexp (env : Env) (s : Store) (status : Option String)
    (pattern : String) (hne : pattern ≠ "") :
    (env.regExpI pattern = none →
      listLoans env s status (some pattern) = (⟨500, .errorMessage⟩, s)) ∧
    (∀ test : String → Bool, env.regExpI pattern = some test →
      listLoans env s status (some pattern) =
        (⟨200, .loans ((s.loans.filter
            (fun l => statusFilter status l && test l.borrowerName)).map (populate s))⟩, s)) := by
  constructor
  · intro h
    simp [listLoans, falsy, hne, h]
  · intro test h
    simp [listLoans, falsy, hne, h]

/-- C24 at concrete requests: the filter "(" is answered 500, and the filter "." lists the loan
of Bob, whose name has no "." in it. -/
theorem C24_borrowerName_filter_is_regexp_witness :
    listLoans regexEnv borrowedStore none (some "(") = (⟨500, .errorMessage⟩, borrowedStore) ∧
    listLoans regexEnv borrowedStore none (some ".") =
      (⟨200, .loans [populate borrowedStore bobLoan]⟩, borrowedStore) ∧
    substringMatchSpec "." bobLoan.borrowerName = false :=
  ⟨(C24_borrowerName_filter_is_regexp regexEnv borrowedStore none "(" (by decide)).1 rfl,
    ((C24_borrowerName_filter_is_regexp regexEnv borrowedStore none "." (by decide)).2
      (fun text => dotPatternTest ".".data text.data) rfl).trans (by decide),
    by decide⟩

/-! ## Routes the server does not have -/

/-- C25 (the code departs from the claim): the server registers no route for
`GET /api/loans/active` (nor for the path without the prefix), so for every ledger the
request is answered by the 404 page of Express; the loans without a return date are what
`GET /api/loans?status=loaned` lists. -/
theorem C25_no_active_loans_route (env : Env) (amb : Ambient) (s : Store)
    (authorization : Option String) (body query : String → Option String) :
    serve env amb s ⟨.GET, "/api/loans/active", authorization, body, query⟩ =
      some (⟨404, .text "Cannot GET /api/loans/active"⟩, s) ∧
    serve env amb s ⟨.GET, "/loans/active", authorization, body, query⟩ =
      some (⟨404, .text "Cannot GET /loans/active"⟩, s) ∧
    serve env amb s ⟨.GET, "/api/loans", authorization, body,
        fun k => if k = "status" then some "loaned" else none⟩ =
      some (⟨200, .loans ((s.loans.filter (fun l => l.returnDate.matchesNull)).map
        (populate s))⟩, s) := by
  refine ⟨rfl, rfl, ?_⟩
  show some (listLoans env s (some "loaned") none) = _
  simp only [listLoans, falsy, if_true]
  congr 4

/-! ## The token of a request -/

/-- A text without the separator is one segment. -/
theorem splitChars_of_not_mem (sep : Char) (cs : List Char) (h : sep ∉ cs) :
    splitChars sep cs = [cs] := by
  induction cs with
  | nil => rfl
  | cons c rest ih =>
    have hc : c ≠ sep := fun e => h (by simp [e])
    have hrest : sep ∉ rest := fun e => h (by simp [e])
    simp [splitChars, hc, ih hrest]

/-- The segments of a text start with what precedes the first separator. -/
theorem splitChars_append (sep : Char) (xs ys : List Char) (h : sep ∉ xs) :
    splitChars sep (xs ++ sep :: ys) = xs :: splitChars sep ys := by
  induction xs with
  | nil => simp [splitChars]
  | cons c rest ih =>
    have hc : c ≠ sep := fun e => h (by simp [e])
    have hrest : sep ∉ rest := fun e => h (by simp [e])
    simp [splitChars, hc, ih hrest]

/-- A text has at least one segment. -/
theorem splitChars_ne_nil (sep : Char) (cs : List Char) : splitChars sep cs ≠ [] := by
  induction cs with
  | nil => simp [splitChars]
  | cons c rest ih =>
    by_cases hc : c = sep
    · simp [splitChars, hc]
    · cases hr : splitChars sep rest with
      | nil => exact absurd hr ih
      | cons seg more => simp [splitChars, hc, hr]

/-- The token taken from a header with a space after a first part without spaces: what
follows that space, up to the next space. -/
theorem requestToken_scheme (X T : String) (hX : ' ' ∉ X.data) :
    requestToken (some (X ++ " " ++ T)) = some ⟨(splitChars ' ' T.data).headD []⟩ := by
  have hdata : (X ++ " " ++ T).data = X.data ++ ' ' :: T.data := by
    simp [String.data_append]
  have hne : X ++ " " ++ T ≠ "" := by
    intro h
    have := congrArg String.data h
    rw [hdata] at this
    simp at this
  cases hsplit : splitChars ' ' T.data with
  | nil => exact absurd hsplit (splitChars_ne_nil ' ' T.data)
  | cons seg more =>
    simp [requestToken, falsy, hne, secondSegment, hdata, splitChars_append ' ' _ _ hX, hsplit]

/-- C30 (the code departs from the claim at the empty header): `authenticateToken` takes the
second space-separated segment of the header as the token and does not look at the first:
two headers with the same text after the first space give the same outcome, and for a header
`X T` without further spaces the token is `T`; a missing header, and a non-empty header
without a space, are answered 401 without a call of `jwt.verify`.  But the empty header,
which has no second segment either, is itself taken as the token: `jwt.verify` is called on
it and decides the outcome, 403 when it rejects the empty token. -/
theorem C30_token_is_second_segment (env : Env) (now : Date) :
    (∀ X X' T : String, ' ' ∉ X.data → ' ' ∉ X'.data →
      authenticateToken env now (some (X ++ " " ++ T)) =
        authenticateToken env now (some (X' ++ " " ++ T))) ∧
    (∀ X T : String, ' ' ∉ X.data → ' ' ∉ T.data →
      requestToken (some (X ++ " " ++ T)) = some T) ∧
    (∀ h : String, h ≠ "" → ' ' ∉ h.data →
      authenticateToken env now (some h) = .error ⟨401, .text "Unauthorized"⟩) ∧
    authenticateToken env now none = .error ⟨401, .text "Unauthorized"⟩ ∧
    secondSegment "" = none ∧
    requestToken (some "") = some "" ∧
    authenticateToken env now (some "") =
      (match env.jwtVerify "" env.JWT_SECRET now with
        | none => .error ⟨403, .text "Forbidden"⟩
        | some decodedToken => .ok decodedToken) := by
  refine ⟨?_, ?_, ?_, rfl, rfl, rfl, rfl⟩
  · intro X X' T hX hX'
    rw [authenticateToken_eq, authenticateToken_eq, requestToken_scheme X T hX,
      requestToken_scheme X' T hX']
  · intro X T hX hT
    rw [requestToken_scheme X T hX, splitChars_of_not_mem ' ' T.data hT]
    rfl
  · intro h hne hsp
    rw [authenticateToken_eq]
    simp [requestToken, falsy, hne, secondSegment, splitChars_of_not_mem ' ' h.data hsp]

/-- C30 at concrete headers: the scheme "Basic" is served like "Bearer", a header of one word
is answered 401, and the empty header is answered 403, by `authenticateToken` and by a route
behind it. -/
theorem C30_token_is_second_segment_witness :
    authenticateToken sampleEnv 0 (some ("Basic" ++ " " ++ "dev-secret.1.alice.admin")) =
      authenticateToken sampleEnv 0 (some ("Bearer" ++ " " ++ "dev-secret.1.alice.admin")) ∧
    authenticateToken sampleEnv 0 (some "Bearer") = .error ⟨401, .text "Unauthorized"⟩ ∧
    authenticateToken sampleEnv 0 (some "") = .error ⟨403, .text "Forbidden"⟩ ∧
    handle sampleEnv ⟨5000, 9, 0⟩ borrowedStore (.adminTest (some "")) =
      (⟨403, .text "Forbidden"⟩, borrowedStore) :=
  ⟨(C30_token_is_second_segment sampleEnv 0).1 "Basic" "Bearer" "dev-secret.1.alice.admin"
      (by decide) (by decide),
    (C30_token_is_second_segment sampleEnv 0).2.2.1 "Bearer" (by decide) (by decide),
    (C30_token_is_second_segment sampleEnv 0).2.2.2.2.2.2.trans rfl,
    rfl⟩

/-! ## The checks of the borrow handler -/

/-- Four body fields none of which is falsy are four non-empty strings. -/
theorem present_of_not_falsy (a b c d : Option String)
    (h : (falsy a || falsy b || falsy c || falsy d) = false) :
    ∃ a' b' c' d' : String, a = some a' ∧ b = some b' ∧ c = some c' ∧ d = some d' ∧
      a' ≠ "" ∧ b' ≠ "" ∧ c' ≠ "" ∧ d' ≠ "" := by
  simp only [Bool.or_eq_false_iff] at h
  obtain ⟨⟨⟨ha, hb⟩, hc⟩, hd⟩ := h
  cases a with
  | none => simp [falsy] at ha
  | some a' =>
    cases b with
    | none => simp [falsy] at hb
    | some b' =>
      cases c with
      | none => simp [falsy] at hc
      | some c' =>
        cases d with
        | none => simp [falsy] at hd
        | some d' =>
          simp only [falsy, decide_eq_false_iff_not] at ha hb hc hd
          exact ⟨a', b', c', d', rfl, rfl, rfl, rfl, ha, hb, hc, hd⟩

/-- A borrow the middleware rejects is answered by the middleware. -/
theorem borrow_of_authenticateToken_error (env : Env) (amb : Ambient) (s : Store)
    (authorization itemId itemType borrowerName dueDate : Option String) (resp : Response)
    (herr : authenticateToken env amb.now authorization = .error resp) :
    borrow env amb s authorization itemId itemType borrowerName dueDate = (resp, s) := by
  simp [borrow, herr]

/-- First check of the borrow handler: a falsy field. -/
theorem borrow_missing_fields (env : Env) (amb : Ambient) (s : Store)
    (authorization : Option String) (user : Claims)
    (itemId itemType borrowerName dueDate : Option String)
    (hauth : authenticateToken env amb.now authorization = .ok user)
    (hmiss : (falsy itemId || falsy itemType || falsy borrowerName || falsy dueDate) = true) :
    borrow env amb s authorization itemId itemType borrowerName dueDate =
      (⟨400, .message "Missing required fields"⟩, s) := by
  simp only [borrow, hauth, hmiss, if_true]

/-- Second check of the borrow handler: the item type. -/
theorem borrow_invalid_itemType (env : Env) (amb : Ambient) (s : Store)
    (authorization : Option String) (user : Claims)
    (itemId itemType borrowerName dueDate : String)
    (hauth : authenticateToken env amb.now authorization = .ok user)
    (hfields : itemId ≠ "" ∧ itemType ≠ "" ∧ borrowerName ≠ "" ∧ dueDate ≠ "")
    (hgame : itemType ≠ "BoardGame") (hbook : itemType ≠ "Book") :
    borrow env amb s authorization (some itemId) (some itemType) (some borrowerName)
        (some dueDate) =
      (⟨400, .message "Invalid itemType. Must be \"BoardGame\" or \"Book\"."⟩, s) := by
  obtain ⟨h1, h2, h3, h4⟩ := hfields
  simp [borrow, hauth, falsy, h1, h2, h3, h4, hgame, hbook]

/-- Third check of the borrow handler: the cast of the item id. -/
theorem borrow_invalid_id (env : Env) (amb : Ambient) (s : Store)
    (authorization : Option String) (user : Claims)
    (itemId itemType borrowerName dueDate : String)
    (hauth : authenticateToken env amb.now authorization = .ok user)
    (hfields : itemId ≠ "" ∧ borrowerName ≠ "" ∧ dueDate ≠ "")
    (htype : itemType = "BoardGame" ∨ itemType = "Book")
    (hcast : env.castObjectId itemId = none) :
    borrow env amb s authorization (some itemId) (some itemType) (some borrowerName)
        (some dueDate) =
      (⟨400, .message "Invalid item ID format"⟩, s) := by
  obtain ⟨h1, h3, h4⟩ := hfields
  rcases htype with rfl | rfl <;> simp [borrow, hauth, falsy, h1, h3, h4, hcast]

/-- Fourth check of the borrow handler: the catalog item. -/
theorem borrow_item_not_found (env : Env) (amb : Ambient) (s : Store)
    (authorization : Option String) (user : Claims)
    (itemId itemType borrowerName dueDate : String) (item : ObjectId)
    (hauth : authenticateToken env amb.now authorization = .ok user)
    (hfields : itemId ≠ "" ∧ borrowerName ≠ "" ∧ dueDate ≠ "")
    (hcast : env.castObjectId itemId = some item)
    (hitem : (itemType = "BoardGame" ∧ ∀ g ∈ s.boardGames, g._id ≠ item) ∨
      (itemType = "Book" ∧ ∀ b ∈ s.books, b._id ≠ item)) :
    borrow env amb s authorization (some itemId) (some itemType) (some borrowerName)
        (some dueDate) =
      (⟨404, .message (itemType ++ " with ID " ++ itemId ++ " not found.")⟩, s) := by
  obtain ⟨h1, h3, h4⟩ := hfields
  rcases hitem with ⟨rfl, hg⟩ | ⟨rfl, hb⟩
  · have hnone : BoardGame.findById s.boardGames item = none :=
      (find?_key_eq_none (fun g : BoardGame => g._id) item _).2 hg
    simp [borrow, hauth, falsy, h1, h3, h4, hcast, hnone]
  · have hnone : Book.findById s.books item = none :=
      (find?_key_eq_none (fun b : Book => b._id) item _).2 hb
    simp [borrow, hauth, falsy, h1, h3, h4, hcast, hnone]

/-- C21 (the claim as stated fails): an authenticated borrow whose `itemId` is not a well-formed
id is answered 400 "Invalid item ID format", not 404, although no catalog item has that id;
and with a well-formed id and date, every field present, a valid item type, a stored item and
no active loan, a borrow whose `borrowerName` is white space only is answered 400, not 201. -/
theorem C21_borrow_checks_counterexample :
    authenticateToken sampleEnv 4000 aliceHeader = .ok aliceClaims ∧
    sampleEnv.castObjectId "xyz" = none ∧
    borrow sampleEnv ⟨4000, 6, 0⟩ catalogStore aliceHeader (some "xyz") (some "BoardGame")
        (some "Bob") (some "2025-01-01") =
      (⟨400, .message "Invalid item ID format"⟩, catalogStore) ∧
    sampleEnv.castObjectId "2" = some goGame._id ∧ goGame ∈ catalogStore.boardGames ∧
    sampleEnv.castDate "2025-01-01" = some 1735689600000 ∧ catalogStore.loans = [] ∧
    falsy (some " ") = false ∧
    borrow sampleEnv ⟨4000, 6, 0⟩ catalogStore aliceHeader (some "2") (some "BoardGame")
        (some " ") (some "2025-01-01") =
      (⟨400, .validationError "Loan" ["borrowerName"]⟩, catalogStore) := by
  refine ⟨rfl, rfl, ?_, rfl, ?_, rfl, ?_, ?_, ?_⟩ <;> decide

/-- C21 (amended): for a borrow with a verified token the checks come in this order: a
missing (falsy) field among `itemId`, `itemType`, `borrowerName`, `dueDate` gives 400;
otherwise an item type other than "BoardGame" and "Book" gives 400; otherwise an `itemId`
that is not a well-formed id gives 400; otherwise an id no catalog item of that type has
gives 404; in each of these cases the store is unchanged.  With a well-formed id and date, a
borrower name that is not blank, a token whose `userId` is a well-formed id and a generated
id no loan has, the response is 201 exactly when every field is present, the item type is
valid, an item of that type has the id and the ledger has no loan without a return date for
the pair. -/
theorem C21_borrow_checks (env : Env) (amb : Ambient) (s : Store)
    (authorization : Option String) (user : Claims)
    (itemId itemType borrowerName dueDate : Option String)
    (hauth : authenticateToken env amb.now authorization = .ok user) :
    ((falsy itemId || falsy itemType || falsy borrowerName || falsy dueDate) = true →
      borrow env amb s authorization itemId itemType borrowerName dueDate =
        (⟨400, .message "Missing required fields"⟩, s)) ∧
    ((falsy itemId || falsy itemType || falsy borrowerName || falsy dueDate) = false →
      itemType ≠ some "BoardGame" → itemType ≠ some "Book" →
      borrow env amb s authorization itemId itemType borrowerName dueDate =
        (⟨400, .message "Invalid itemType. Must be \"BoardGame\" or \"Book\"."⟩, s)) ∧
    ((falsy itemId || falsy itemType || falsy borrowerName || falsy dueDate) = false →
      itemType = some "BoardGame" ∨ itemType = some "Book" →
      env.castObjectId (itemId.getD "") = none →
      borrow env amb s authorization itemId itemType borrowerName dueDate =
        (⟨400, .message "Invalid item ID format"⟩, s)) ∧
    (∀ item : ObjectId,
      (falsy itemId || falsy itemType || falsy borrowerName || falsy dueDate) = false →
      env.castObjectId (itemId.getD "") = some item →
      (itemType = some "BoardGame" ∧ ∀ g ∈ s.boardGames, g._id ≠ item) ∨
        (itemType = some "Book" ∧ ∀ b ∈ s.books, b._id ≠ item) →
      borrow env amb s authorization itemId itemType borrowerName dueDate =
        (⟨404, .message (itemType.getD "" ++ " with ID " ++ itemId.getD "" ++ " not found.")⟩,
          s)) ∧
    (∀ (item : ObjectId) (due : Date) (loanedBy : ObjectId),
      env.castObjectId (itemId.getD "") = some item →
      env.castDate (dueDate.getD "") = some due →
      ¬ blank borrowerName →
      user.userId.bind env.castObjectId = some loanedBy →
      (∀ l ∈ s.loans, l._id ≠ amb.newId) →
      ((borrow env amb s authorization itemId itemType borrowerName dueDate).1.status = 201 ↔
        ((falsy itemId || falsy itemType || falsy borrowerName || falsy dueDate) = false ∧
          ((itemType = some "BoardGame" ∧ ∃ g ∈ s.boardGames, g._id = item) ∨
            (itemType = some "Book" ∧ ∃ b ∈ s.books, b._id = item)) ∧
          ∀ l ∈ s.loans, ¬(l.item = item ∧ l.itemTypeEnum = itemType.getD "" ∧
            l.returnDate.matchesNull = true)))) := by
  refine ⟨?_, ?_, ?_, ?_, ?_⟩
  · exact borrow_missing_fields env amb s authorization user _ _ _ _ hauth
  · intro hpres hgame hbook
    obtain ⟨i, t, b, d, rfl, rfl, rfl, rfl, hi, ht, hb, hd⟩ :=
      present_of_not_falsy _ _ _ _ hpres
    exact borrow_invalid_itemType env amb s authorization user i t b d hauth ⟨hi, ht, hb, hd⟩
      (fun e => hgame (by rw [e])) (fun e => hbook (by rw [e]))
  · intro hpres htype hcast
    obtain ⟨i, t, b, d, rfl, rfl, rfl, rfl, hi, ht, hb, hd⟩ :=
      present_of_not_falsy _ _ _ _ hpres
    exact borrow_invalid_id env amb s authorization user i t b d hauth ⟨hi, hb, hd⟩
      (by simpa using htype) hcast
  · intro item hpres hcast hitem
    obtain ⟨i, t, b, d, rfl, rfl, rfl, rfl, hi, ht, hb, hd⟩ :=
      present_of_not_falsy _ _ _ _ hpres
    exact borrow_item_not_found env amb s authorization user i t b d item hauth ⟨hi, hb, hd⟩
      hcast (by simpa using hitem)
  · intro item due loanedBy hcast hdue hname hby hfresh
    cases hpres : (falsy itemId || falsy itemType || falsy borrowerName || falsy dueDate) with
    | true =>
      rw [borrow_missing_fields env amb s authorization user _ _ _ _ hauth hpres]
      simp
    | false =>
      obtain ⟨i, t, b, d, rfl, rfl, rfl, rfl, hi, ht, hb, hd⟩ :=
        present_of_not_falsy _ _ _ _ hpres
      simp only [Option.getD_some] at hcast hdue ⊢
      have hname' : jsTrim b ≠ "" := hname
      by_cases htype : t = "BoardGame" ∨ t = "Book"
      · by_cases hitem : (t = "BoardGame" ∧ ∃ g ∈ s.boardGames, g._id = item) ∨
            (t = "Book" ∧ ∃ b ∈ s.books, b._id = item)
        · rw [borrow_eq_of_valid env amb s authorization user i t b d item hauth ⟨hi, hb, hd⟩
            hcast hitem]
          have hdup : (s.loans.any (fun l => l._id == amb.newId)) = false := by
            rw [List.any_eq_false]
            intro l hl
            simpa using hfresh l hl
          cases hfind : Loan.findOneActive s.loans item t with
          | some found =>
            have hnot : ¬ ∀ l ∈ s.loans, ¬(l.item = item ∧ l.itemTypeEnum = t ∧
                l.returnDate.matchesNull = true) := by
              intro hall
              rw [(findOneActive_none_iff s.loans item t).2 hall] at hfind
              cases hfind
            constructor
            · intro h
              simp at h
            · rintro ⟨_, _, hall⟩
              exact absurd hall hnot
          | none =>
            have hall := (findOneActive_none_iff s.loans item t).1 hfind
            simp only [hdue, hby, hname', decide_False, hdup]
            simp only [Option.some.injEq, true_and]
            constructor
            · intro _
              exact ⟨by simpa using hitem, hall⟩
            · intro _
              simp
        · have hnone : (t = "BoardGame" ∧ ∀ g ∈ s.boardGames, g._id ≠ item) ∨
              (t = "Book" ∧ ∀ b ∈ s.books, b._id ≠ item) := by
            rcases htype with rfl | rfl
            · left
              refine ⟨rfl, fun g hg e => hitem (Or.inl ⟨rfl, g, hg, e⟩)⟩
            · right
              refine ⟨rfl, fun b hb e => hitem (Or.inr ⟨rfl, b, hb, e⟩)⟩
          rw [borrow_item_not_found env amb s authorization user i t b d item hauth
            ⟨hi, hb, hd⟩ hcast hnone]
          simp only [Option.some.injEq]
          constructor
          · intro h
            simp at h
          · rintro ⟨_, h, _⟩
            exact absurd h hitem
      · have hgame : t ≠ "BoardGame" := fun e => htype (Or.inl e)
        have hbook : t ≠ "Book" := fun e => htype (Or.inr e)
        rw [borrow_invalid_itemType env amb s authorization user i t b d hauth
          ⟨hi, ht, hb, hd⟩ hgame hbook]
        simp only [Option.some.injEq]
        constructor
        · intro h
          simp at h
        · rintro ⟨_, h | h, _⟩
          · exact absurd h.1 hgame
          · exact absurd h.1 hbook

/-- C21 (amended) at a concrete request: alice borrows the stored board game "Go" for Bob and
the response is 201. -/
theorem C21_borrow_checks_witness :
    (borrow sampleEnv ⟨4000, 6, 0⟩ catalogStore aliceHeader (some "2") (some "BoardGame")
      (some "Bob") (some "2025-01-01")).1.status = 201 :=
  ((C21_borrow_checks sampleEnv ⟨4000, 6, 0⟩ catalogStore aliceHeader aliceClaims (some "2")
    (some "BoardGame") (some "Bob") (some "2025-01-01") rfl).2.2.2.2 2 1735689600000 1 rfl rfl
    (by decide) rfl (by decide)).2
    ⟨by decide, Or.inl ⟨rfl, goGame, by decide, rfl⟩, by decide⟩

/-! ## The loan a borrow creates -/

/-- C22 (the claim as stated fails): a successful borrow for the borrower name " Bob " stores
and returns a loan whose borrower name is "Bob"; its return date is unset, not `null`. -/
theorem C22_new_loan_counterexample :
    borrow sampleEnv ⟨4000, 6, 0⟩ catalogStore aliceHeader (some "4") (some "Book")
        (some " Bob ") (some "2025-01-01") =
      (⟨201, .loan duneLoan⟩, { catalogStore with loans := catalogStore.loans ++ [duneLoan] }) ∧
    duneLoan.borrowerName ≠ " Bob " ∧ duneLoan.returnDate ≠ .null :=
  ⟨rfl, by decide, by decide⟩

/-- C22 (amended): a borrow answered 201 comes with a verified token and the four fields, adds
exactly one loan at the end of the ledger, every loan that was there being unchanged, and
returns that loan: its item is the id the request's `itemId` casts to, its item type is the
requested one, its borrower name is the requested one without surrounding white space, its
due date is the date the request's `dueDate` casts to, its loan date is the time of creation,
its returning user is unset and its lending user is the id the `userId` of the token casts
to.  The handler reads no other field of the body: a `loanDate` sent with the request changes
nothing. -/
theorem C22_new_loan (env : Env) (amb : Ambient) (s : Store)
    (authorization itemId itemType borrowerName dueDate : Option String)
    (h201 : (borrow env amb s authorization itemId itemType borrowerName dueDate).1.status =
      201) :
    (∃ (user : Claims) (itemId' itemType' borrowerName' dueDate' : String) (loan : Loan),
      authenticateToken env amb.now authorization = .ok user ∧
      itemId = some itemId' ∧ itemType = some itemType' ∧
      borrowerName = some borrowerName' ∧ dueDate = some dueDate' ∧
      borrow env amb s authorization itemId itemType borrowerName dueDate =
        (⟨201, .loan loan⟩, { s with loans := s.loans ++ [loan] }) ∧
      env.castObjectId itemId' = some loan.item ∧ loan.itemTypeEnum = itemType' ∧
      loan.borrowerName = jsTrim borrowerName' ∧ env.castDate dueDate' = some loan.dueDate ∧
      loan.loanDate = amb.now ∧ loan.returnedByUserId = .undefined ∧
      user.userId.bind env.castObjectId = some loan.loanedByUserId) ∧
    (∀ (body query : String → Option String) (loanDate : Option String),
      serve env amb s ⟨.POST, "/api/loans/borrow", authorization,
          fun k => if k = "loanDate" then loanDate else body k, query⟩ =
        serve env amb s ⟨.POST, "/api/loans/borrow", authorization, body, query⟩) := by
  refine ⟨?_, fun _ _ _ => rfl⟩
  cases hauth : authenticateToken env amb.now authorization with
  | error resp =>
    rw [borrow_of_authenticateToken_error env amb s authorization _ _ _ _ resp hauth] at h201
    rcases authenticateToken_error_status env amb.now authorization resp hauth with h | h <;>
      simp [h] at h201
  | ok user =>
    cases hpres : (falsy itemId || falsy itemType || falsy borrowerName || falsy dueDate) with
    | true =>
      rw [borrow_missing_fields env amb s authorization user _ _ _ _ hauth hpres] at h201
      simp at h201
    | false =>
      obtain ⟨i, t, b, d, rfl, rfl, rfl, rfl, hi, ht, hb, hd⟩ :=
        present_of_not_falsy _ _ _ _ hpres
      by_cases htype : t = "BoardGame" ∨ t = "Book"
      · cases hcast : env.castObjectId i with
        | none =>
          rw [borrow_invalid_id env amb s authorization user i t b d hauth ⟨hi, hb, hd⟩ htype
            hcast] at h201
          simp at h201
        | some item =>
          by_cases hitem : (t = "BoardGame" ∧ ∃ g ∈ s.boardGames, g._id = item) ∨
              (t = "Book" ∧ ∃ b ∈ s.books, b._id = item)
          · have heq := borrow_eq_of_valid env amb s authorization user i t b d item hauth
              ⟨hi, hb, hd⟩ hcast hitem
            rw [heq] at h201
            cases hfind : Loan.findOneActive s.loans item t with
            | some found => simp [hfind] at h201
            | none =>
              cases hdue : env.castDate d with
              | none => simp [hfind, hdue] at h201
              | some due =>
                cases hby : user.userId.bind env.castObjectId with
                | none => simp [hfind, hdue, hby] at h201
                | some loanedBy =>
                  by_cases hname : jsTrim b = ""
                  · simp [hfind, hdue, hby, hname] at h201
                  · by_cases hdup : (s.loans.any (fun l => l._id == amb.newId)) = true
                    · simp [hfind, hdue, hby, hname, hdup] at h201
                    · simp only [hfind, hdue, hby, hname, decide_False, hdup] at heq
                      exact ⟨user, i, t, b, d, _, rfl, rfl, rfl, rfl, rfl, heq, hcast, rfl, rfl,
                        hdue, rfl, rfl, hby⟩
          · have hnone : (t = "BoardGame" ∧ ∀ g ∈ s.boardGames, g._id ≠ item) ∨
                (t = "Book" ∧ ∀ b ∈ s.books, b._id ≠ item) := by
              rcases htype with rfl | rfl
              · left
                refine ⟨rfl, fun g hg e => hitem (Or.inl ⟨rfl, g, hg, e⟩)⟩
              · right
                refine ⟨rfl, fun b hb e => hitem (Or.inr ⟨rfl, b, hb, e⟩)⟩
            rw [borrow_item_not_found env amb s authorization user i t b d item hauth
              ⟨hi, hb, hd⟩ hcast hnone] at h201
            simp at h201
      · rw [borrow_invalid_itemType env amb s authorization user i t b d hauth
          ⟨hi, ht, hb, hd⟩ (fun e => htype (Or.inl e)) (fun e => htype (Or.inr e))] at h201
        simp at h201

/-- C22 (amended) at a concrete request: the borrow of the book "Dune" for " Bob ". -/
theorem C22_new_loan_witness :
    ∃ (user : Claims) (itemId' itemType' borrowerName' dueDate' : String) (loan : Loan),
      authenticateToken sampleEnv 4000 aliceHeader = .ok user ∧
      some "4" = some itemId' ∧ some "Book" = some itemType' ∧
      some " Bob " = some borrowerName' ∧ some "2025-01-01" = some dueDate' ∧
      borrow sampleEnv ⟨4000, 6, 0⟩ catalogStore aliceHeader (some "4") (some "Book")
          (some " Bob ") (some "2025-01-01") =
        (⟨201, .loan loan⟩, { catalogStore with loans := catalogStore.loans ++ [loan] }) ∧
      sampleEnv.castObjectId itemId' = some loan.item ∧ loan.itemTypeEnum = itemType' ∧
      loan.borrowerName = jsTrim borrowerName' ∧
      sampleEnv.castDate dueDate' = some loan.dueDate ∧
      loan.loanDate = 4000 ∧ loan.returnedByUserId = .undefined ∧
      user.userId.bind sampleEnv.castObjectId = some loan.loanedByUserId :=
  (C22_new_loan sampleEnv ⟨4000, 6, 0⟩ catalogStore aliceHeader (some "4") (some "Book")
    (some " Bob ") (some "2025-01-01") (by decide)).1

/-! ## The borrow form and the item type -/

/-- A borrow whose item type is neither "BoardGame" nor "Book" is answered by the middleware
or, with a verified token, by one of the first two checks of the handler; the store is
unchanged. -/
theorem borrow_of_bad_itemType (env : Env) (amb : Ambient) (s : Store)
    (authorization itemId itemType borrowerName dueDate : Option String)
    (hgame : itemType ≠ some "BoardGame") (hbook : itemType ≠ some "Book") :
    (∃ resp : Response, authenticateToken env amb.now authorization = .error resp ∧
      borrow env amb s authorization itemId itemType borrowerName dueDate = (resp, s)) ∨
    (∃ user : Claims, authenticateToken env amb.now authorization = .ok user ∧
      borrow env amb s authorization itemId itemType borrowerName dueDate =
        (⟨400, .message
          (if falsy itemId || falsy itemType || falsy borrowerName || falsy dueDate then
            "Missing required fields"
          else "Invalid itemType. Must be \"BoardGame\" or \"Book\".")⟩, s)) := by
  cases hauth : authenticateToken env amb.now authorization with
  | error resp =>
    exact Or.inl ⟨resp, rfl, borrow_of_authenticateToken_error env amb s authorization _ _ _ _
      resp hauth⟩
  | ok user =>
    refine Or.inr ⟨user, rfl, ?_⟩
    cases hpres : (falsy itemId || falsy itemType || falsy borrowerName || falsy dueDate) with
    | true =>
      rw [borrow_missing_fields env amb s authorization user _ _ _ _ hauth hpres]
      simp
    | false =>
      obtain ⟨i, t, b, d, rfl, rfl, rfl, rfl, hi, ht, hb, hd⟩ :=
        present_of_not_falsy _ _ _ _ hpres
      rw [borrow_invalid_itemType env amb s authorization user i t b d hauth ⟨hi, ht, hb, hd⟩
        (fun e => hgame (by rw [e])) (fun e => hbook (by rw [e]))]
      simp

/-- C27 (the claim as stated fails): the borrow handler does not answer 400 "Invalid itemType"
to every request whose item type is not "BoardGame" or "Book": with the item type "boardgame"
and no due date the response is 400 "Missing required fields", and without a token it is
401. -/
theorem C27_invalid_itemType_counterexample :
    borrow sampleEnv ⟨4000, 6, 0⟩ catalogStore aliceHeader (some "2") (some "boardgame")
        (some "Bob") none =
      (⟨400, .message "Missing required fields"⟩, catalogStore) ∧
    borrow sampleEnv ⟨4000, 6, 0⟩ catalogStore none (some "2") (some "boardgame")
        (some "Bob") (some "2025-01-01") =
      (⟨401, .text "Unauthorized"⟩, catalogStore) :=
  ⟨rfl, rfl⟩

/-- C27 (amended): every borrow request `LoanItemForm` builds carries the item type "boardgame"
or "book" and the `itemId` that `parseInt` gives; whatever the server reads for that number,
the request creates no loan: the store is unchanged and the response is not 201, and with a
verified token it is 400, "Missing required fields" when the `itemId` is falsy (0 or `NaN`)
and "Invalid itemType" otherwise.  On the server, a request with a verified token and the
four fields present whose item type is not exactly "BoardGame" or "Book" is answered 400
"Invalid itemType", and any request with such an item type leaves the store unchanged and is
answered 400, 401 or 403. -/
theorem C27_form_borrow_rejected (f : LoanItemForm) (details : LoanDetails)
    (hsubmit : f.handleSubmit = some details) :
    (details.itemType = "boardgame" ∨ details.itemType = "book") ∧
    details.itemId = jsParseInt f.itemId ∧
    (∀ (env : Env) (amb : Ambient) (s : Store) (authorization itemId : Option String),
      (borrow env amb s authorization itemId (some details.itemType)
        (some details.borrowerName) (some details.dueDate)).2 = s ∧
      (borrow env amb s authorization itemId (some details.itemType)
        (some details.borrowerName) (some details.dueDate)).1.status ≠ 201 ∧
      (∀ user : Claims, authenticateToken env amb.now authorization = .ok user →
        borrow env amb s authorization itemId (some details.itemType)
            (some details.borrowerName) (some details.dueDate) =
          (⟨400, .message
            (if falsy itemId then "Missing required fields"
            else "Invalid itemType. Must be \"BoardGame\" or \"Book\".")⟩, s))) ∧
    (∀ (env : Env) (amb : Ambient) (s : Store) (authorization : Option String) (user : Claims)
        (itemId itemType borrowerName dueDate : String),
      authenticateToken env amb.now authorization = .ok user →
      itemId ≠ "" ∧ itemType ≠ "" ∧ borrowerName ≠ "" ∧ dueDate ≠ "" →
      itemType ≠ "BoardGame" → itemType ≠ "Book" →
      borrow env amb s authorization (some itemId) (some itemType) (some borrowerName)
          (some dueDate) =
        (⟨400, .message "Invalid itemType. Must be \"BoardGame\" or \"Book\"."⟩, s)) ∧
    (∀ (env : Env) (amb : Ambient) (s : Store)
        (authorization itemId itemType borrowerName dueDate : Option String),
      itemType ≠ some "BoardGame" → itemType ≠ some "Book" →
      (borrow env amb s authorization itemId itemType borrowerName dueDate).2 = s ∧
      ((borrow env amb s authorization itemId itemType borrowerName dueDate).1.status = 400 ∨
        (borrow env amb s authorization itemId itemType borrowerName dueDate).1.status = 401 ∨
        (borrow env amb s authorization itemId itemType borrowerName dueDate).1.status =
          403)) := by
  have hgeneral : ∀ (env : Env) (amb : Ambient) (s : Store)
      (authorization itemId itemType borrowerName dueDate : Option String),
      itemType ≠ some "BoardGame" → itemType ≠ some "Book" →
      (borrow env amb s authorization itemId itemType borrowerName dueDate).2 = s ∧
      ((borrow env amb s authorization itemId itemType borrowerName dueDate).1.status = 400 ∨
        (borrow env amb s authorization itemId itemType borrowerName dueDate).1.status = 401 ∨
        (borrow env amb s authorization itemId itemType borrowerName dueDate).1.status =
          403) := by
    intro env amb s authorization itemId itemType borrowerName dueDate hgame hbook
    rcases borrow_of_bad_itemType env amb s authorization itemId itemType borrowerName dueDate
      hgame hbook with ⟨resp, herr, heq⟩ | ⟨user, _, heq⟩
    · rw [heq]
      rcases authenticateToken_error_status env amb.now authorization resp herr with h | h <;>
        simp [h]
    · rw [heq]
      simp
  simp only [LoanItemForm.handleSubmit] at hsubmit
  split at hsubmit
  · cases hsubmit
  · rename_i hcond
    simp only [Bool.not_eq_true, Bool.or_eq_false_iff, falsy, decide_eq_false_iff_not] at hcond
    obtain ⟨⟨⟨_, _⟩, hb⟩, hd⟩ := hcond
    injection hsubmit with hdetails
    subst hdetails
    have htype : f.itemType.value = "boardgame" ∨ f.itemType.value = "book" := by
      cases f.itemType
      · exact Or.inl rfl
      · exact Or.inr rfl
    have hgame : (some f.itemType.value : Option String) ≠ some "BoardGame" := by
      rcases htype with h | h <;> rw [h] <;> decide
    have hbook : (some f.itemType.value : Option String) ≠ some "Book" := by
      rcases htype with h | h <;> rw [h] <;> decide
    have hne : f.itemType.value ≠ "" := by
      rcases htype with h | h <;> rw [h] <;> decide
    refine ⟨htype, rfl, ?_, ?_, hgeneral⟩
    · intro env amb s authorization itemId
      have hg := hgeneral env amb s authorization itemId (some f.itemType.value)
        (some f.borrowerName) (some f.dueDate) hgame hbook
      refine ⟨hg.1, ?_, ?_⟩
      · rcases hg.2 with h | h | h <;> rw [h] <;> decide
      · intro user hauth
        rcases borrow_of_bad_itemType env amb s authorization itemId (some f.itemType.value)
          (some f.borrowerName) (some f.dueDate) hgame hbook with ⟨resp, herr, _⟩ | ⟨_, _, heq⟩
        · rw [hauth] at herr
          cases herr
        · rw [heq]
          simp [falsy, hne, hb, hd]
    · intro env amb s authorization user itemId itemType borrowerName dueDate hauth hfields
        hgame' hbook'
      exact borrow_invalid_itemType env amb s authorization user itemId itemType borrowerName
        dueDate hauth hfields hgame' hbook'

/-- C27 (amended) at a concrete form: item id "2", item type "boardgame", borrower "Bob"; the
request alice sends with it on the store that holds the board game with id 2 is answered 400
"Invalid itemType". -/
theorem C27_form_borrow_rejected_witness :
    LoanItemForm.handleSubmit ⟨"2", .boardgame, "Bob", "2025-01-01"⟩ =
      some ⟨some 2, "boardgame", "Bob", "2025-01-01"⟩ ∧
    borrow sampleEnv ⟨4000, 6, 0⟩ catalogStore aliceHeader (some "2") (some "boardgame")
        (some "Bob") (some "2025-01-01") =
      (⟨400, .message "Invalid itemType. Must be \"BoardGame\" or \"Book\"."⟩, catalogStore) :=
  ⟨by decide,
    ((C27_form_borrow_rejected ⟨"2", .boardgame, "Bob", "2025-01-01"⟩
      ⟨some 2, "boardgame", "Bob", "2025-01-01"⟩ (by decide)).2.2.1 sampleEnv ⟨4000, 6, 0⟩
      catalogStore aliceHeader (some "2")).2.2 aliceClaims rfl⟩

/-! ## Deleting an item that is on loan -/

/-- A borrow for an id no item of the requested type has: the response is that of the
middleware, of the missing-field check or of the item check, and the store is unchanged. -/
theorem borrow_of_item_absent (env : Env) (amb : Ambient) (s : Store)
    (authorization borrowerName dueDate : Option String) (itemId itemType : String)
    (item : ObjectId) (hcast : env.castObjectId itemId = some item)
    (hitem : (itemType = "BoardGame" ∧ ∀ g ∈ s.boardGames, g._id ≠ item) ∨
      (itemType = "Book" ∧ ∀ b ∈ s.books, b._id ≠ item)) :
    (borrow env amb s authorization (some itemId) (some itemType) borrowerName dueDate).2 = s ∧
    ((borrow env amb s authorization (some itemId) (some itemType) borrowerName dueDate).1 =
        ⟨401, .text "Unauthorized"⟩ ∨
      (borrow env amb s authorization (some itemId) (some itemType) borrowerName dueDate).1 =
        ⟨403, .text "Forbidden"⟩ ∨
      (borrow env amb s authorization (some itemId) (some itemType) borrowerName dueDate).1 =
        ⟨400, .message "Missing required fields"⟩ ∨
      (borrow env amb s authorization (some itemId) (some itemType) borrowerName dueDate).1 =
        ⟨404, .message (itemType ++ " with ID " ++ itemId ++ " not found.")⟩) := by
  cases hauth : authenticateToken env amb.now authorization with
  | error resp =>
    rw [borrow_of_authenticateToken_error env amb s authorization _ _ _ _ resp hauth]
    rcases authenticateToken_error_status env amb.now authorization resp hauth with h | h
    · exact ⟨rfl, Or.inl h⟩
    · exact ⟨rfl, Or.inr (Or.inl h)⟩
  | ok user =>
    cases hpres : (falsy (some itemId) || falsy (some itemType) || falsy borrowerName ||
        falsy dueDate) with
    | true =>
      rw [borrow_missing_fields env amb s authorization user _ _ _ _ hauth hpres]
      exact ⟨rfl, Or.inr (Or.inr (Or.inl rfl))⟩
    | false =>
      obtain ⟨i, t, b, d, hi', ht', rfl, rfl, hi, ht, hb, hd⟩ :=
        present_of_not_falsy _ _ _ _ hpres
      cases hi'
      cases ht'
      rw [borrow_item_not_found env amb s authorization user itemId itemType b d item hauth
        ⟨hi, hb, hd⟩ hcast hitem]
      exact ⟨rfl, Or.inr (Or.inr (Or.inr rfl))⟩

/-- The catalog items after a request have the ids of items that were there, or the id
generated for the request. -/
theorem handle_catalog_ids (env : Env) (amb : Ambient) (s : Store) (r : Request) :
    (∀ g ∈ (handle env amb s r).2.boardGames,
      g._id = amb.newId ∨ ∃ x ∈ s.boardGames, x._id = g._id) ∧
    (∀ b ∈ (handle env amb s r).2.books, b._id = amb.newId ∨ ∃ x ∈ s.books, x._id = b._id) := by
  have hsame : ∀ s' : Store, s'.boardGames = s.boardGames → s'.books = s.books →
      (∀ g ∈ s'.boardGames, g._id = amb.newId ∨ ∃ x ∈ s.boardGames, x._id = g._id) ∧
      (∀ b ∈ s'.books, b._id = amb.newId ∨ ∃ x ∈ s.books, x._id = b._id) := by
    intro s' hg hb
    rw [hg, hb]
    exact ⟨fun g hg => Or.inr ⟨g, hg, rfl⟩, fun b hb => Or.inr ⟨b, hb, rfl⟩⟩
  cases r with
  | register username password =>
    exact hsame _ (register_catalog env amb s username password).1
      (register_catalog env amb s username password).2
  | login username password => simp only [handle, login_store]; exact hsame s rfl rfl
  | test => exact hsame s rfl rfl
  | adminTest authorization => simp only [handle, adminTest_store]; exact hsame s rfl rfl
  | listBoardGames => exact hsame s rfl rfl
  | getBoardGame id => simp only [handle, getBoardGame_store]; exact hsame s rfl rfl
  | listBooks => exact hsame s rfl rfl
  | getBook id => simp only [handle, getBook_store]; exact hsame s rfl rfl
  | listLoans status borrowerName =>
    simp only [handle, listLoans_store]; exact hsame s rfl rfl
  | borrow authorization itemId itemType borrowerName dueDate =>
    exact hsame _
      (borrow_catalog env amb s authorization itemId itemType borrowerName dueDate).1
      (borrow_catalog env amb s authorization itemId itemType borrowerName dueDate).2
  | returnLoan authorization loanId =>
    exact hsame _ (returnLoan_catalog env amb s authorization loanId).1
      (returnLoan_catalog env amb s authorization loanId).2
  | createBoardGame authorization title designer genre =>
    rcases createBoardGame_cases env amb s authorization title designer genre with
      ⟨_, hsame'⟩ | ⟨g, hg, _, _, heq⟩
    · simp only [handle, hsame']; exact hsame s rfl rfl
    · simp only [handle, heq]
      refine ⟨?_, fun b hb => Or.inr ⟨b, hb, rfl⟩⟩
      intro x hx
      rcases List.mem_append.1 hx with hx | hx
      · exact Or.inr ⟨x, hx, rfl⟩
      · rw [List.mem_singleton.1 hx, hg]
        exact Or.inl rfl
  | createBook authorization title author genre =>
    rcases createBook_cases env amb s authorization title author genre with
      ⟨_, hsame'⟩ | ⟨b, hb, _, _, _, heq⟩
    · simp only [handle, hsame']; exact hsame s rfl rfl
    · simp only [handle, heq]
      refine ⟨fun g hg => Or.inr ⟨g, hg, rfl⟩, ?_⟩
      intro x hx
      rcases List.mem_append.1 hx with hx | hx
      · exact Or.inr ⟨x, hx, rfl⟩
      · rw [List.mem_singleton.1 hx, hb]
        exact Or.inl rfl
  | updateBoardGame authorization id title designer genre =>
    rcases updateBoardGame_store env amb s authorization id title designer genre with
      hsame' | ⟨oid, game, updated, hmem, hgid, hid, _, heq⟩
    · simp only [handle, hsame']; exact hsame s rfl rfl
    · simp only [handle, heq]
      refine ⟨?_, fun b hb => Or.inr ⟨b, hb, rfl⟩⟩
      intro x hx
      rcases mem_updateFirst _ updated _ x hx with hx | hx
      · exact Or.inr ⟨x, hx, rfl⟩
      · exact Or.inr ⟨game, hmem, by rw [hx, hid, hgid]⟩
  | updateBook authorization id title author genre =>
    rcases updateBook_store env amb s authorization id title author genre with
      hsame' | ⟨oid, book, updated, hmem, hbid, hid, _, _, heq⟩
    · simp only [handle, hsame']; exact hsame s rfl rfl
    · simp only [handle, heq]
      refine ⟨fun g hg => Or.inr ⟨g, hg, rfl⟩, ?_⟩
      intro x hx
      rcases mem_updateFirst _ updated _ x hx with hx | hx
      · exact Or.inr ⟨x, hx, rfl⟩
      · exact Or.inr ⟨book, hmem, by rw [hx, hid, hbid]⟩
  | deleteBoardGame authorization id =>
    rcases deleteBoardGame_store env amb s authorization id with hsame' | ⟨oid, heq⟩
    · simp only [handle, hsame']; exact hsame s rfl rfl
    · simp only [handle, heq]
      have hsub := removeFirst_sublist (fun g : BoardGame => g._id == oid) s.boardGames
      exact ⟨fun g hg => Or.inr ⟨g, hsub.subset hg, rfl⟩, fun b hb => Or.inr ⟨b, hb, rfl⟩⟩
  | deleteBook authorization id =>
    rcases deleteBook_store env amb s authorization id with hsame' | ⟨oid, heq⟩
    · simp only [handle, hsame']; exact hsame s rfl rfl
    · simp only [handle, heq]
      have hsub := removeFirst_sublist (fun b : Book => b._id == oid) s.books
      exact ⟨fun g hg => Or.inr ⟨g, hg, rfl⟩, fun b hb => Or.inr ⟨b, hsub.subset hb, rfl⟩⟩

/-- An id no catalog item of a type has stays without item through requests that do not
generate it. -/
theorem run_item_absent (env : Env) (oid : ObjectId) :
    ∀ (rest : List (Ambient × Request)) (s : Store),
      (∀ step ∈ rest, step.1.newId ≠ oid) →
      ((∀ g ∈ s.boardGames, g._id ≠ oid) → ∀ g ∈ (run env s rest).boardGames, g._id ≠ oid) ∧
      ((∀ b ∈ s.books, b._id ≠ oid) → ∀ b ∈ (run env s rest).books, b._id ≠ oid)
  | [], s, _ => ⟨fun h => h, fun h => h⟩
  | (amb, r) :: rest, s, hnew => by
    have hstep : amb.newId ≠ oid := hnew (amb, r) (List.mem_cons_self _ _)
    have hrest : ∀ step ∈ rest, step.1.newId ≠ oid :=
      fun step h => hnew step (List.mem_cons_of_mem _ h)
    have hids := handle_catalog_ids env amb s r
    have ih := run_item_absent env oid rest (handle env amb s r).2 hrest
    constructor
    · intro h
      apply ih.1
      intro g hg
      rcases hids.1 g hg with e | ⟨x, hx, e⟩
      · rw [e]; exact hstep
      · rw [← e]; exact h x hx
    · intro h
      apply ih.2
      intro b hb
      rcases hids.2 b hb with e | ⟨x, hx, e⟩
      · rw [e]; exact hstep
      · rw [← e]; exact h x hx

/-- C29 (the claim as stated fails): after alice has deleted the board game "Go" that Bob has
on loan, not every borrow for it is answered 404: one without a due date is answered 400
"Missing required fields" and one without a token 401. -/
theorem C29_borrow_after_delete_counterexample :
    deleteBoardGame sampleEnv ⟨5000, 0, 0⟩ borrowedStore aliceHeader "2" =
      (⟨204, .empty⟩, deletedStore) ∧
    bobLoan ∈ deletedStore.loans ∧
    borrow sampleEnv ⟨6000, 7, 0⟩ deletedStore aliceHeader (some "2") (some "BoardGame")
        (some "Eve") none =
      (⟨400, .message "Missing required fields"⟩, deletedStore) ∧
    borrow sampleEnv ⟨6000, 7, 0⟩ deletedStore none (some "2") (some "BoardGame")
        (some "Eve") (some "2025-01-01") =
      (⟨401, .text "Unauthorized"⟩, deletedStore) :=
  ⟨rfl, by decide, rfl, rfl⟩

/-- C29 (amended): in every store reached from the empty store, with a token that verifies
with role "admin", the DELETE of a stored board game (of a stored book) that has a loan
without a return date is answered 204 and erases the item only: the ledger is as before, the
loan in it unchanged and still found as the active loan of the pair.  From then on, through
any further requests (none of which is given the id of the deleted item as its generated
id), every borrow with a verified token and the four fields present for that item id and
type is answered 404 "not found"; and every borrow for them, whatever its token and other
fields, leaves the store unchanged and is answered 401, 403, 400 "Missing required fields" or
that 404, never the 400 "already on loan". -/
theorem C29_delete_ignores_ledger (env : Env) (trace : List (Ambient × Request))
    (amb : Ambient) (authorization : Option String) (user : Claims) (id : String)
    (hauth : authenticateToken env amb.now authorization = .ok user)
    (hrole : user.role = some "admin") :
    (∀ g ∈ (run env Store.empty trace).boardGames, env.castObjectId id = some g._id →
      ∀ l ∈ (run env Store.empty trace).loans, l.item = g._id → l.itemTypeEnum = "BoardGame" →
      l.returnDate.matchesNull = true →
      deleteBoardGame env amb (run env Store.empty trace) authorization id =
        (⟨204, .empty⟩,
          { run env Store.empty trace with
            boardGames := (run env Store.empty trace).boardGames.erase g }) ∧
      (deleteBoardGame env amb (run env Store.empty trace) authorization id).2.loans =
        (run env Store.empty trace).loans ∧
      l ∈ (deleteBoardGame env amb (run env Store.empty trace) authorization id).2.loans ∧
      (Loan.findOneActive (deleteBoardGame env amb (run env Store.empty trace) authorization id).2.loans
        g._id "BoardGame").isSome = true ∧
      ∀ rest : List (Ambient × Request), (∀ step ∈ rest, step.1.newId ≠ g._id) →
        (∀ (amb' : Ambient) (authorization' : Option String) (user' : Claims)
            (itemId borrowerName dueDate : String),
          authenticateToken env amb'.now authorization' = .ok user' →
          itemId ≠ "" ∧ borrowerName ≠ "" ∧ dueDate ≠ "" →
          env.castObjectId itemId = some g._id →
          borrow env amb' (run env (deleteBoardGame env amb (run env Store.empty trace) authorization id).2 rest)
              authorization' (some itemId) (some "BoardGame") (some borrowerName)
              (some dueDate) =
            (⟨404, .message ("BoardGame" ++ " with ID " ++ itemId ++ " not found.")⟩,
              (run env (deleteBoardGame env amb (run env Store.empty trace) authorization id).2 rest))) ∧
        (∀ (amb' : Ambient) (authorization' borrowerName dueDate : Option String)
            (itemId : String),
          env.castObjectId itemId = some g._id →
          (borrow env amb' (run env (deleteBoardGame env amb (run env Store.empty trace) authorization id).2 rest)
              authorization' (some itemId) (some "BoardGame") borrowerName dueDate).2 =
            (run env (deleteBoardGame env amb (run env Store.empty trace) authorization id).2 rest) ∧
          ((borrow env amb' (run env (deleteBoardGame env amb (run env Store.empty trace) authorization id).2 rest)
              authorization' (some itemId) (some "BoardGame") borrowerName dueDate).1 =
              ⟨401, .text "Unauthorized"⟩ ∨
            (borrow env amb' (run env (deleteBoardGame env amb (run env Store.empty trace) authorization id).2 rest)
              authorization' (some itemId) (some "BoardGame") borrowerName dueDate).1 =
              ⟨403, .text "Forbidden"⟩ ∨
            (borrow env amb' (run env (deleteBoardGame env amb (run env Store.empty trace) authorization id).2 rest)
              authorization' (some itemId) (some "BoardGame") borrowerName dueDate).1 =
              ⟨400, .message "Missing required fields"⟩ ∨
            (borrow env amb' (run env (deleteBoardGame env amb (run env Store.empty trace) authorization id).2 rest)
              authorization' (some itemId) (some "BoardGame") borrowerName dueDate).1 =
              ⟨404, .message ("BoardGame" ++ " with ID " ++ itemId ++ " not found.")⟩))) ∧
    (∀ b ∈ (run env Store.empty trace).books, env.castObjectId id = some b._id →
      ∀ l ∈ (run env Store.empty trace).loans, l.item = b._id → l.itemTypeEnum = "Book" →
      l.returnDate.matchesNull = true →
      deleteBook env amb (run env Store.empty trace) authorization id =
        (⟨204, .empty⟩,
          { run env Store.empty trace with
            books := (run env Store.empty trace).books.erase b }) ∧
      (deleteBook env amb (run env Store.empty trace) authorization id).2.loans =
        (run env Store.empty trace).loans ∧
      l ∈ (deleteBook env amb (run env Store.empty trace) authorization id).2.loans ∧
      (Loan.findOneActive (deleteBook env amb (run env Store.empty trace) authorization id).2.loans
        b._id "Book").isSome = true ∧
      ∀ rest : List (Ambient × Request), (∀ step ∈ rest, step.1.newId ≠ b._id) →
        (∀ (amb' : Ambient) (authorization' : Option String) (user' : Claims)
            (itemId borrowerName dueDate : String),
          authenticateToken env amb'.now authorization' = .ok user' →
          itemId ≠ "" ∧ borrowerName ≠ "" ∧ dueDate ≠ "" →
          env.castObjectId itemId = some b._id →
          borrow env amb' (run env (deleteBook env amb (run env Store.empty trace) authorization id).2 rest)
              authorization' (some itemId) (some "Book") (some borrowerName)
              (some dueDate) =
            (⟨404, .message ("Book" ++ " with ID " ++ itemId ++ " not found.")⟩,
              (run env (deleteBook env amb (run env Store.empty trace) authorization id).2 rest))) ∧
        (∀ (amb' : Ambient) (authorization' borrowerName dueDate : Option String)
            (itemId : String),
          env.castObjectId itemId = some b._id →
          (borrow env amb' (run env (deleteBook env amb (run env Store.empty trace) authorization id).2 rest)
              authorization' (some itemId) (some "Book") borrowerName dueDate).2 =
            (run env (deleteBook env amb (run env Store.empty trace) authorization id).2 rest) ∧
          ((borrow env amb' (run env (deleteBook env amb (run env Store.empty trace) authorization id).2 rest)
              authorization' (some itemId) (some "Book") borrowerName dueDate).1 =
              ⟨401, .text "Unauthorized"⟩ ∨
            (borrow env amb' (run env (deleteBook env amb (run env Store.empty trace) authorization id).2 rest)
              authorization' (some itemId) (some "Book") borrowerName dueDate).1 =
              ⟨403, .text "Forbidden"⟩ ∨
            (borrow env amb' (run env (deleteBook env amb (run env Store.empty trace) authorization id).2 rest)
              authorization' (some itemId) (some "Book") borrowerName dueDate).1 =
              ⟨400, .message "Missing required fields"⟩ ∨
            (borrow env amb' (run env (deleteBook env amb (run env Store.empty trace) authorization id).2 rest)
              authorization' (some itemId) (some "Book") borrowerName dueDate).1 =
              ⟨404, .message ("Book" ++ " with ID " ++ itemId ++ " not found.")⟩))) := by
  obtain ⟨hgn, hbn, _, _⟩ := catalogWellFormed_reached env trace
  constructor
  · intro g hmem hcast l hl hitem htype hactive
    have hfind : BoardGame.findById (run env Store.empty trace).boardGames g._id = some g :=
      find?_key_of_mem (fun x : BoardGame => x._id) g _ hgn hmem
    have herase := removeFirst_eq_erase (fun x : BoardGame => x._id) g _ hgn hmem
    have hdel : deleteBoardGame env amb (run env Store.empty trace) authorization id =
        (⟨204, .empty⟩,
          { run env Store.empty trace with
            boardGames := (run env Store.empty trace).boardGames.erase g }) := by
      rw [deleteBoardGame_eq_of_admin env amb _ authorization user id hauth hrole]
      simp only [hcast, hfind]
      rw [herase]
    have hgone : ∀ x ∈ ((run env Store.empty trace).boardGames.erase g), x._id ≠ g._id :=
      (find?_key_eq_none (fun x : BoardGame => x._id) g._id _).1
        (find?_key_erase (fun x : BoardGame => x._id) _ g hgn hmem)
    rw [hdel]
    refine ⟨rfl, rfl, hl, ?_, ?_⟩
    · obtain ⟨found, hfound⟩ := findOneActive_isSome_of_mem
        (run env Store.empty trace).loans g._id "BoardGame" l hl ⟨hitem, htype, hactive⟩
      simp [hfound]
    · intro rest hrest
      have hlater := (run_item_absent env g._id rest
        { run env Store.empty trace with
          boardGames := (run env Store.empty trace).boardGames.erase g } hrest).1 hgone
      constructor
      · intro amb' authorization' user' itemId borrowerName dueDate hauth' hfields hcast'
        exact borrow_item_not_found env amb' _ authorization' user' itemId "BoardGame"
          borrowerName dueDate g._id hauth' hfields hcast' (Or.inl ⟨rfl, hlater⟩)
      · intro amb' authorization' borrowerName dueDate itemId hcast'
        exact borrow_of_item_absent env amb' _ authorization' borrowerName dueDate itemId
          "BoardGame" g._id hcast' (Or.inl ⟨rfl, hlater⟩)
  · intro b hmem hcast l hl hitem htype hactive
    have hfind : Book.findById (run env Store.empty trace).books b._id = some b :=
      find?_key_of_mem (fun x : Book => x._id) b _ hbn hmem
    have herase := removeFirst_eq_erase (fun x : Book => x._id) b _ hbn hmem
    have hdel : deleteBook env amb (run env Store.empty trace) authorization id =
        (⟨204, .empty⟩,
          { run env Store.empty trace with
            books := (run env Store.empty trace).books.erase b }) := by
      rw [deleteBook_eq_of_admin env amb _ authorization user id hauth hrole]
      simp only [hcast, hfind]
      rw [herase]
    have hgone : ∀ x ∈ ((run env Store.empty trace).books.erase b), x._id ≠ b._id :=
      (find?_key_eq_none (fun x : Book => x._id) b._id _).1
        (find?_key_erase (fun x : Book => x._id) _ b hbn hmem)
    rw [hdel]
    refine ⟨rfl, rfl, hl, ?_, ?_⟩
    · obtain ⟨found, hfound⟩ := findOneActive_isSome_of_mem
        (run env Store.empty trace).loans b._id "Book" l hl ⟨hitem, htype, hactive⟩
      simp [hfound]
    · intro rest hrest
      have hlater := (run_item_absent env b._id rest
        { run env Store.empty trace with
          books := (run env Store.empty trace).books.erase b } hrest).2 hgone
      constructor
      · intro amb' authorization' user' itemId borrowerName dueDate hauth' hfields hcast'
        exact borrow_item_not_found env amb' _ authorization' user' itemId "Book"
          borrowerName dueDate b._id hauth' hfields hcast' (Or.inr ⟨rfl, hlater⟩)
      · intro amb' authorization' borrowerName dueDate itemId hcast'
        exact borrow_of_item_absent env amb' _ authorization' borrowerName dueDate itemId
          "Book" b._id hcast' (Or.inr ⟨rfl, hlater⟩)

/-- C29 (amended) at concrete requests: alice deletes the board game "Go" that Bob has on loan;
the loan stays in the ledger, and after the creation of another game the borrow bob sends
for the deleted one is answered 404. -/
theorem C29_delete_ignores_ledger_witness :
    deleteBoardGame sampleEnv ⟨5000, 0, 0⟩ (run sampleEnv Store.empty borrowedTrace)
        aliceHeader "2" =
      (⟨204, .empty⟩,
        { run sampleEnv Store.empty borrowedTrace with
          boardGames := (run sampleEnv Store.empty borrowedTrace).boardGames.erase goGame }) ∧
    bobLoan ∈ (deleteBoardGame sampleEnv ⟨5000, 0, 0⟩ (run sampleEnv Store.empty borrowedTrace)
      aliceHeader "2").2.loans ∧
    borrow sampleEnv ⟨6000, 7, 0⟩
        (run sampleEnv
          (deleteBoardGame sampleEnv ⟨5000, 0, 0⟩ (run sampleEnv Store.empty borrowedTrace)
            aliceHeader "2").2
          [(⟨5500, 8, 0⟩, .createBoardGame aliceHeader (some "Chess") none none)])
        bobHeader (some "2") (some "BoardGame") (some "Eve") (some "2025-01-01") =
      (⟨404, .message ("BoardGame" ++ " with ID " ++ "2" ++ " not found.")⟩,
        run sampleEnv
          (deleteBoardGame sampleEnv ⟨5000, 0, 0⟩ (run sampleEnv Store.empty borrowedTrace)
            aliceHeader "2").2
          [(⟨5500, 8, 0⟩, .createBoardGame aliceHeader (some "Chess") none none)]) :=
  have h := C29_delete_ignores_ledger sampleEnv borrowedTrace ⟨5000, 0, 0⟩ aliceHeader
    aliceClaims "2" rfl rfl
  have hg := h.1 goGame (by decide) rfl bobLoan (by decide) rfl rfl rfl
  ⟨hg.1, hg.2.2.1,
    (hg.2.2.2.2 [(⟨5500, 8, 0⟩, .createBoardGame aliceHeader (some "Chess") none none)]
      (by decide)).1 ⟨6000, 7, 0⟩ bobHeader bobClaims "2" "Eve" "2025-01-01" rfl
      (by decide) rfl⟩

end Lending
